import Mathlib

/-!
Verification of the Knox compiler core (lexer, parser, type checker,
accessor desugaring, IR lowering and Wasm emission) against its
natural-language specification.  Each Rust function referenced by a claim
is embedded shallowly as an executable Lean definition, and the claims are
settled as theorems about those definitions.
-/

set_option maxHeartbeats 1000000

namespace Knox

/-- Byte-offset span, from knox_syntax/src/span.rs (`Span { start, end }`;
the `end` field is called `stop` here because `end` is reserved in Lean). -/
structure Span where
  start : Nat
  stop : Nat
deriving DecidableEq, Repr

def Span.new (start stop : Nat) : Span := ⟨start, stop⟩

/-- File identifier, from knox_syntax/src/span.rs. -/
structure FileId where
  id : Nat
deriving DecidableEq, Repr

/-- Location = file + span, from knox_syntax/src/span.rs. -/
structure Location where
  file : FileId
  span : Span
deriving DecidableEq, Repr

/-- Diagnostic level, from knox_syntax/src/diagnostics.rs. -/
inductive Level where
  | error
  | warning
deriving DecidableEq, Repr

/-- Diagnostic, from knox_syntax/src/diagnostics.rs. -/
structure Diagnostic where
  level : Level
  message : String
  location : Option Location
deriving DecidableEq, Repr

/-- `Diagnostic::error`, from knox_syntax/src/diagnostics.rs. -/
def Diagnostic.mkError (message : String) (location : Option Location) : Diagnostic :=
  ⟨Level.error, message, location⟩

/-- Token kinds.  The declared variants come from knox_syntax/src/token.rs;
the additional operator variants (plus, minus, star, slash, percent, amp,
andAnd, orOr, notK) are the ones referenced by knox_compiler/src/parser.rs,
whose own declaration file is not in the tree.  Modelled from the spec:
the spec's token list has punctuation `+ - * / % & | && ||` and unary `!`,
matching the parser's uses. -/
inductive TokenKind where
  | intLitK (value : Int)
  | strLitK (value : String)
  | trueK
  | falseK
  | identK (name : String)
  | fnK
  | letK
  | mutK
  | ifK
  | elseK
  | matchK
  | returnK
  | structK
  | importK
  | pubK
  | asK
  | okK
  | errK
  | optionK
  | resultK
  | dynamicK
  | someK
  | noneK
  | lparen
  | rparen
  | lbrace
  | rbrace
  | lbracket
  | rbracket
  | colon
  | comma
  | arrow
  | fatArrow
  | dot
  | question
  | pipeK
  | underscore
  | assign
  | atK
  | colonColon
  | semicolon
  | lt
  | gt
  | le
  | ge
  | eqeq
  | ne
  | plus
  | minus
  | star
  | slash
  | percent
  | amp
  | andAnd
  | orOr
  | notK
  | eof
deriving Repr

/-- Constructor index of a token kind, payloads ignored. -/
def TokenKind.idx : TokenKind → Nat
  | TokenKind.intLitK _ => 0
  | TokenKind.strLitK _ => 1
  | TokenKind.trueK => 2
  | TokenKind.falseK => 3
  | TokenKind.identK _ => 4
  | TokenKind.fnK => 5
  | TokenKind.letK => 6
  | TokenKind.mutK => 7
  | TokenKind.ifK => 8
  | TokenKind.elseK => 9
  | TokenKind.matchK => 10
  | TokenKind.returnK => 11
  | TokenKind.structK => 12
  | TokenKind.importK => 13
  | TokenKind.pubK => 14
  | TokenKind.asK => 15
  | TokenKind.okK => 16
  | TokenKind.errK => 17
  | TokenKind.optionK => 18
  | TokenKind.resultK => 19
  | TokenKind.dynamicK => 20
  | TokenKind.someK => 21
  | TokenKind.noneK => 22
  | TokenKind.lparen => 23
  | TokenKind.rparen => 24
  | TokenKind.lbrace => 25
  | TokenKind.rbrace => 26
  | TokenKind.lbracket => 27
  | TokenKind.rbracket => 28
  | TokenKind.colon => 29
  | TokenKind.comma => 30
  | TokenKind.arrow => 31
  | TokenKind.fatArrow => 32
  | TokenKind.dot => 33
  | TokenKind.question => 34
  | TokenKind.pipeK => 35
  | TokenKind.underscore => 36
  | TokenKind.assign => 37
  | TokenKind.atK => 38
  | TokenKind.colonColon => 39
  | TokenKind.semicolon => 40
  | TokenKind.lt => 41
  | TokenKind.gt => 42
  | TokenKind.le => 43
  | TokenKind.ge => 44
  | TokenKind.eqeq => 45
  | TokenKind.ne => 46
  | TokenKind.plus => 47
  | TokenKind.minus => 48
  | TokenKind.star => 49
  | TokenKind.slash => 50
  | TokenKind.percent => 51
  | TokenKind.amp => 52
  | TokenKind.andAnd => 53
  | TokenKind.orOr => 54
  | TokenKind.notK => 55
  | TokenKind.eof => 56

/-- Integer payload of a token kind (0 when none). -/
def TokenKind.intVal : TokenKind → Int
  | TokenKind.intLitK v => v
  | _ => 0

/-- String payload of a token kind (empty when none). -/
def TokenKind.strVal : TokenKind → String
  | TokenKind.strLitK s => s
  | TokenKind.identK s => s
  | _ => ""

/-- Injective signature of a token kind: constructor index plus payloads.
Used to decide equality with a small instance term (the derived instance
for a 57-constructor type is impractically large). -/
def TokenKind.sig (k : TokenKind) : Nat × Int × String := (k.idx, k.intVal, k.strVal)

/-- Left inverse of `TokenKind.sig`. -/
def TokenKind.ofSig : Nat × Int × String → TokenKind := fun s =>
  match s.1 with
  | 0 => TokenKind.intLitK s.2.1
  | 1 => TokenKind.strLitK s.2.2
  | 2 => TokenKind.trueK
  | 3 => TokenKind.falseK
  | 4 => TokenKind.identK s.2.2
  | 5 => TokenKind.fnK
  | 6 => TokenKind.letK
  | 7 => TokenKind.mutK
  | 8 => TokenKind.ifK
  | 9 => TokenKind.elseK
  | 10 => TokenKind.matchK
  | 11 => TokenKind.returnK
  | 12 => TokenKind.structK
  | 13 => TokenKind.importK
  | 14 => TokenKind.pubK
  | 15 => TokenKind.asK
  | 16 => TokenKind.okK
  | 17 => TokenKind.errK
  | 18 => TokenKind.optionK
  | 19 => TokenKind.resultK
  | 20 => TokenKind.dynamicK
  | 21 => TokenKind.someK
  | 22 => TokenKind.noneK
  | 23 => TokenKind.lparen
  | 24 => TokenKind.rparen
  | 25 => TokenKind.lbrace
  | 26 => TokenKind.rbrace
  | 27 => TokenKind.lbracket
  | 28 => TokenKind.rbracket
  | 29 => TokenKind.colon
  | 30 => TokenKind.comma
  | 31 => TokenKind.arrow
  | 32 => TokenKind.fatArrow
  | 33 => TokenKind.dot
  | 34 => TokenKind.question
  | 35 => TokenKind.pipeK
  | 36 => TokenKind.underscore
  | 37 => TokenKind.assign
  | 38 => TokenKind.atK
  | 39 => TokenKind.colonColon
  | 40 => TokenKind.semicolon
  | 41 => TokenKind.lt
  | 42 => TokenKind.gt
  | 43 => TokenKind.le
  | 44 => TokenKind.ge
  | 45 => TokenKind.eqeq
  | 46 => TokenKind.ne
  | 47 => TokenKind.plus
  | 48 => TokenKind.minus
  | 49 => TokenKind.star
  | 50 => TokenKind.slash
  | 51 => TokenKind.percent
  | 52 => TokenKind.amp
  | 53 => TokenKind.andAnd
  | 54 => TokenKind.orOr
  | 55 => TokenKind.notK
  | _ => TokenKind.eof

theorem TokenKind.ofSig_sig : ∀ k : TokenKind, TokenKind.ofSig (TokenKind.sig k) = k := by
  intro k
  cases k <;> rfl

instance : DecidableEq TokenKind := fun a b =>
  if h : a.sig = b.sig then
    Decidable.isTrue (by rw [← TokenKind.ofSig_sig a, ← TokenKind.ofSig_sig b, h])
  else Decidable.isFalse fun e => h (by rw [e])

/-- Token = kind + span, from knox_syntax/src/token.rs. -/
structure Token where
  kind : TokenKind
  span : Span
deriving DecidableEq, Repr

/-- `Token::is_eof`, from knox_syntax/src/token.rs. -/
def Token.isEof (t : Token) : Bool :=
  match t.kind with
  | TokenKind.eof => true
  | _ => false

end Knox

namespace Knox.Lexer

/-- Rust `char::is_whitespace` (the Unicode White_Space property). -/
def rustIsWhitespace (c : Char) : Bool :=
  let n := c.toNat
  n = 0x20 || (0x9 ≤ n && n ≤ 0xD) || n = 0x85 || n = 0xA0 || n = 0x1680 ||
    (0x2000 ≤ n && n ≤ 0x200A) || n = 0x2028 || n = 0x2029 || n = 0x202F ||
    n = 0x205F || n = 0x3000

/-- Rust `char::is_ascii_alphabetic`. -/
def isAsciiAlphabetic (c : Char) : Bool :=
  let n := c.toNat
  (0x41 ≤ n && n ≤ 0x5A) || (0x61 ≤ n && n ≤ 0x7A)

/-- Rust `char::is_ascii_digit`. -/
def isAsciiDigit (c : Char) : Bool :=
  let n := c.toNat
  0x30 ≤ n && n ≤ 0x39

/-- Rust `char::is_ascii_alphanumeric`. -/
def isAsciiAlphanumeric (c : Char) : Bool :=
  isAsciiAlphabetic c || isAsciiDigit c

/-- `Lexer::skip_whitespace` (lexer.rs): consume whitespace other than
newline.  State is (remaining chars, byte offset). -/
def skipWs : List Char → Nat → List Char × Nat
  | [], off => ([], off)
  | c :: cs, off =>
    if rustIsWhitespace c && c != '\n' then skipWs cs (off + c.utf8Size)
    else (c :: cs, off)

/-- `Lexer::skip_line_comment` (lexer.rs): consume chars up to (not
including) the next newline. -/
def skipLineComment : List Char → Nat → List Char × Nat
  | [], off => ([], off)
  | c :: cs, off =>
    if c != '\n' then skipLineComment cs (off + c.utf8Size)
    else (c :: cs, off)

/-- The char-consuming loop of `Lexer::read_ident_or_keyword` (lexer.rs):
collect ascii-alphanumeric / underscore chars. -/
def readIdentChars : List Char → Nat → List Char × List Char × Nat
  | [], off => ([], [], off)
  | c :: cs, off =>
    if isAsciiAlphanumeric c || c = '_' then
      let (taken, rest, o) := readIdentChars cs (off + c.utf8Size)
      (c :: taken, rest, o)
    else ([], c :: cs, off)

/-- The loop of `Lexer::read_string` (lexer.rs), entered after the opening
quote was consumed.  Returns the decoded string on success, or an error for
unterminated string / invalid escape; in both cases the consumed state. -/
def readStringLoop : List Char → Nat → List Char → Except String (List Char) × List Char × Nat
  | [], off, _acc => (Except.error "Unterminated string", [], off)
  | c :: cs, off, acc =>
    if c = '"' then (Except.ok acc.reverse, cs, off + 1)
    else if c = '\\' then
      match cs with
      | [] => (Except.error "Invalid escape in string", [], off + 1)
      | e :: cs2 =>
        let off2 := off + 1 + e.utf8Size
        if e = 'n' then readStringLoop cs2 off2 ('\n' :: acc)
        else if e = 't' then readStringLoop cs2 off2 ('\t' :: acc)
        else if e = '"' then readStringLoop cs2 off2 ('"' :: acc)
        else if e = '\\' then readStringLoop cs2 off2 ('\\' :: acc)
        else (Except.error "Invalid escape in string", cs2, off2)
    else readStringLoop cs (off + c.utf8Size) (c :: acc)

/-- The digit-consuming loop of `Lexer::read_number` (lexer.rs). -/
def readDigits : List Char → Nat → List Char × List Char × Nat
  | [], off => ([], [], off)
  | c :: cs, off =>
    if isAsciiDigit c then
      let (taken, rest, o) := readDigits cs (off + c.utf8Size)
      (c :: taken, rest, o)
    else ([], c :: cs, off)

/-- Decimal value of a digit-char list. -/
def digitsVal (ds : List Char) : Nat :=
  ds.foldl (fun acc c => acc * 10 + (c.toNat - 0x30)) 0

/-- `s.parse::<i64>().unwrap_or(0)` on a run of decimal digits: the value
when it fits in a signed 64-bit integer, otherwise 0. -/
def parseI64OrZero (ds : List Char) : Int :=
  let v := digitsVal ds
  if v ≤ 9223372036854775807 then (v : Int) else 0

/-- The keyword table of `Lexer::next_token` (lexer.rs lines 121-139).
Note that `struct`, `import`, `pub` and `as` are NOT in this table: they
lex as plain identifiers. -/
def keywordKind (s : String) : Knox.TokenKind :=
  if s = "fn" then .fnK
  else if s = "let" then .letK
  else if s = "mut" then .mutK
  else if s = "if" then .ifK
  else if s = "else" then .elseK
  else if s = "match" then .matchK
  else if s = "return" then .returnK
  else if s = "Ok" then .okK
  else if s = "Err" then .errK
  else if s = "Option" then .optionK
  else if s = "Result" then .resultK
  else if s = "dynamic" then .dynamicK
  else if s = "Some" then .someK
  else if s = "None" then .noneK
  else if s = "true" then .trueK
  else if s = "false" then .falseK
  else .identK s

/-- The body of `Lexer::next_token` (lexer.rs lines 96-209) after
whitespace skipping found a char `c` (followed by `rest`, at offset `o`);
`recur` is the next iteration of the Rust `loop` (taken with fuel in
`nextTokenF`).  Returns the token plus the remaining chars and offset. -/
def nextTokenChar (recur : List Char → Nat → Option (Knox.Token × List Char × Nat))
    (c : Char) (rest : List Char) (o : Nat) : Option (Knox.Token × List Char × Nat) :=
  if c = '/' then
    -- peek for a second slash: line comment, else MVP skips the lone slash
    if rest.head? = some '/' then
      let (rest3, o3) := skipLineComment rest.tail (o + 2)
      recur rest3 o3
    else recur rest (o + 1)
  else if isAsciiAlphabetic c || c = '_' then
    let (taken, rest2, o2) := readIdentChars (c :: rest) o
    let s := String.mk taken
    some (⟨keywordKind s, Knox.Span.new o o2⟩, rest2, o2)
  else if c = '"' then
    match readStringLoop rest (o + 1) [] with
    | (Except.ok chars, rest2, o2) =>
      some (⟨.strLitK (String.mk chars), Knox.Span.new o o2⟩, rest2, o2)
    | (Except.error _, rest2, o2) =>
      some (⟨.strLitK "", Knox.Span.new o o2⟩, rest2, o2)
  else if isAsciiDigit c then
    let (taken, rest2, o2) := readDigits (c :: rest) o
    some (⟨.intLitK (parseI64OrZero taken), Knox.Span.new o o2⟩, rest2, o2)
  else
    -- `self.next()` then the punctuation match (lexer.rs lines 160-206);
    -- the offset after consuming `c` is written out as o + c.utf8Size.
    if c = '(' then some (⟨.lparen, Knox.Span.new o (o + c.utf8Size)⟩, rest, o + c.utf8Size)
    else if c = ')' then some (⟨.rparen, Knox.Span.new o (o + c.utf8Size)⟩, rest, (o + c.utf8Size))
    else if c = '{' then some (⟨.lbrace, Knox.Span.new o (o + c.utf8Size)⟩, rest, (o + c.utf8Size))
    else if c = '}' then some (⟨.rbrace, Knox.Span.new o (o + c.utf8Size)⟩, rest, (o + c.utf8Size))
    else if c = '[' then some (⟨.lbracket, Knox.Span.new o (o + c.utf8Size)⟩, rest, (o + c.utf8Size))
    else if c = ']' then some (⟨.rbracket, Knox.Span.new o (o + c.utf8Size)⟩, rest, (o + c.utf8Size))
    else if c = ':' then some (⟨.colon, Knox.Span.new o (o + c.utf8Size)⟩, rest, (o + c.utf8Size))
    else if c = ',' then some (⟨.comma, Knox.Span.new o (o + c.utf8Size)⟩, rest, (o + c.utf8Size))
    else if c = '.' then some (⟨.dot, Knox.Span.new o (o + c.utf8Size)⟩, rest, (o + c.utf8Size))
    else if c = '?' then some (⟨.question, Knox.Span.new o (o + c.utf8Size)⟩, rest, (o + c.utf8Size))
    else if c = '|' then some (⟨.pipeK, Knox.Span.new o (o + c.utf8Size)⟩, rest, (o + c.utf8Size))
    else if c = '_' then some (⟨.underscore, Knox.Span.new o (o + c.utf8Size)⟩, rest, (o + c.utf8Size))
    else if c = '<' then some (⟨.lt, Knox.Span.new o (o + c.utf8Size)⟩, rest, (o + c.utf8Size))
    else if c = '>' then some (⟨.gt, Knox.Span.new o (o + c.utf8Size)⟩, rest, (o + c.utf8Size))
    else if c = '=' then
      if rest.head? = some '=' then some (⟨.eqeq, Knox.Span.new o (o + c.utf8Size + 1)⟩, rest.tail, o + c.utf8Size + 1)
      else if rest.head? = some '>' then
        some (⟨.fatArrow, Knox.Span.new o (o + c.utf8Size + 1)⟩, rest.tail, o + c.utf8Size + 1)
      else some (⟨.assign, Knox.Span.new o (o + c.utf8Size)⟩, rest, (o + c.utf8Size))
    else if c = '!' then
      if rest.head? = some '=' then some (⟨.ne, Knox.Span.new o (o + c.utf8Size + 1)⟩, rest.tail, o + c.utf8Size + 1)
      else some (⟨.identK "!", Knox.Span.new o (o + c.utf8Size)⟩, rest, (o + c.utf8Size))
    else if c = '-' then
      if rest.head? = some '>' then some (⟨.arrow, Knox.Span.new o (o + c.utf8Size + 1)⟩, rest.tail, o + c.utf8Size + 1)
      else some (⟨.identK "-", Knox.Span.new o (o + c.utf8Size)⟩, rest, (o + c.utf8Size))
    else recur rest (o + c.utf8Size)

/-- One iteration of the `loop` in `Lexer::next_token`: skip whitespace,
then handle end-of-input or dispatch on the first remaining char. -/
def nextTokenBody (recur : List Char → Nat → Option (Knox.Token × List Char × Nat))
    (cs : List Char) (off : Nat) : Option (Knox.Token × List Char × Nat) :=
  match skipWs cs off with
  | ([], o) => some (⟨.eof, Knox.Span.new o o⟩, [], o)
  | (c :: rest, o) => nextTokenChar recur c rest o

/-- `Lexer::next_token` with fuel bounding the number of loop iterations
(`none` = out of fuel; the sufficiency theorem below shows input length + 1
fuel always suffices). -/
def nextTokenF : Nat → List Char → Nat → Option (Knox.Token × List Char × Nat)
  | 0, _, _ => none
  | fuel + 1, cs, off => nextTokenBody (nextTokenF fuel) cs off

/-- Total wrapper: input length + 1 fuel always suffices (proved below). -/
def nextToken (cs : List Char) (off : Nat) : Knox.Token × List Char × Nat :=
  (nextTokenF (cs.length + 1) cs off).getD (⟨.eof, Knox.Span.new off off⟩, [], off)

/-- One iteration of the loop in `Lexer::collect_tokens` (lexer.rs lines
212-223); `recur` is the rest of the loop. -/
def collectStep (recur : List Char → Nat → Option (List Knox.Token))
    (cs : List Char) (off : Nat) : Option (List Knox.Token) :=
  let (t, rest, o) := nextToken cs off
  if t.isEof then some [t]
  else (recur rest o).map (fun ts => t :: ts)

/-- `Lexer::collect_tokens` (lexer.rs lines 212-223) with explicit fuel. -/
def collectTokensF : Nat → List Char → Nat → Option (List Knox.Token)
  | 0, _, _ => none
  | fuel + 1, cs, off => collectStep (collectTokensF fuel) cs off

/-- Total wrapper for `collect_tokens`: input length + 1 fuel suffices. -/
def collectTokens (cs : List Char) (off : Nat) : List Knox.Token :=
  (collectTokensF (cs.length + 1) cs off).getD []

end Knox.Lexer

namespace Knox.Lexer

theorem skipWs_length_le (cs : List Char) (off : Nat) :
    (skipWs cs off).1.length ≤ cs.length := by
  induction cs generalizing off with
  | nil => simp [skipWs]
  | cons c rest ih =>
    rw [skipWs]
    split
    · exact Nat.le_trans (ih _) (Nat.le_succ _)
    · exact Nat.le_refl _

theorem skipLineComment_length_le (cs : List Char) (off : Nat) :
    (skipLineComment cs off).1.length ≤ cs.length := by
  induction cs generalizing off with
  | nil => simp [skipLineComment]
  | cons c rest ih =>
    rw [skipLineComment]
    split
    · exact Nat.le_trans (ih _) (Nat.le_succ _)
    · exact Nat.le_refl _

theorem readIdentChars_length_le (cs : List Char) (off : Nat) :
    (readIdentChars cs off).2.1.length ≤ cs.length := by
  induction cs generalizing off with
  | nil => simp [readIdentChars]
  | cons c rest ih =>
    rw [readIdentChars]
    split
    · rcases h : readIdentChars rest (off + c.utf8Size) with ⟨taken, rest2, o⟩
      have := ih (off + c.utf8Size)
      rw [h] at this
      simpa using Nat.le_trans this (Nat.le_succ _)
    · exact Nat.le_refl _

theorem readStringLoop_length_le (cs0 : List Char) (off0 : Nat) (acc0 : List Char) :
    (readStringLoop cs0 off0 acc0).2.1.length ≤ cs0.length := by
  have main : ∀ (n : Nat) (cs : List Char), cs.length ≤ n → ∀ (off : Nat) (acc : List Char),
      (readStringLoop cs off acc).2.1.length ≤ cs.length := by
    intro n
    induction n with
    | zero =>
      intro cs h off acc
      have hnil : cs = [] := List.length_eq_zero.mp (Nat.le_zero.mp h)
      subst hnil
      simp [readStringLoop]
    | succ n ih =>
      intro cs h off acc
      cases cs with
      | nil => simp [readStringLoop]
      | cons c rest =>
        rw [readStringLoop.eq_def]
        simp only []
        split
        · simp
        · split
          · cases rest with
            | nil => simp
            | cons e cs2 =>
              simp only []
              have h2 : cs2.length ≤ n := by simp at h; omega
              split
              · exact le_trans (ih cs2 h2 _ _) (by simp only [List.length_cons]; omega)
              · split
                · exact le_trans (ih cs2 h2 _ _) (by simp only [List.length_cons]; omega)
                · split
                  · exact le_trans (ih cs2 h2 _ _) (by simp only [List.length_cons]; omega)
                  · split
                    · exact le_trans (ih cs2 h2 _ _) (by simp only [List.length_cons]; omega)
                    · simp only [List.length_cons]; omega
          · have h1 : rest.length ≤ n := by simp at h; omega
            exact le_trans (ih rest h1 _ _) (Nat.le_succ _)
  exact main cs0.length cs0 (le_refl _) off0 acc0

theorem readDigits_length_le (cs : List Char) (off : Nat) :
    (readDigits cs off).2.1.length ≤ cs.length := by
  induction cs generalizing off with
  | nil => simp [readDigits]
  | cons c rest ih =>
    rw [readDigits]
    split
    · rcases h : readDigits rest (off + c.utf8Size) with ⟨taken, rest2, o⟩
      have := ih (off + c.utf8Size)
      rw [h] at this
      simpa using Nat.le_trans this (Nat.le_succ _)
    · exact Nat.le_refl _

end Knox.Lexer

namespace Knox.Lexer

theorem readIdentChars_cons_le (c : Char) (cs : List Char) (off : Nat)
    (h : (isAsciiAlphanumeric c || c = '_') = true) :
    (readIdentChars (c :: cs) off).2.1.length ≤ cs.length := by
  rw [readIdentChars, if_pos h]
  rcases h2 : readIdentChars cs (off + c.utf8Size) with ⟨taken, rest, o⟩
  have := readIdentChars_length_le cs (off + c.utf8Size)
  rw [h2] at this
  simpa using this

theorem readDigits_cons_le (c : Char) (cs : List Char) (off : Nat)
    (h : isAsciiDigit c = true) :
    (readDigits (c :: cs) off).2.1.length ≤ cs.length := by
  rw [readDigits, if_pos h]
  rcases h2 : readDigits cs (off + c.utf8Size) with ⟨taken, rest, o⟩
  have := readDigits_length_le cs (off + c.utf8Size)
  rw [h2] at this
  simpa using this


/-- Combined behaviour of `next_token` under sufficient fuel: it yields a
token, never grows the input, and consumes at least one char unless the
token is EOF. -/
theorem nextTokenF_spec : ∀ (fuel : Nat) (cs : List Char) (off : Nat),
    cs.length < fuel →
    ∃ t rest o, nextTokenF fuel cs off = some (t, rest, o) ∧
      rest.length ≤ cs.length ∧ (t.isEof = false → rest.length < cs.length) := by
  intro fuel
  induction fuel with
  | zero => intro cs off h; exact absurd h (Nat.not_lt_zero _)
  | succ fuel ih =>
    intro cs off h
    rw [nextTokenF]
    unfold nextTokenBody
    rcases hs : skipWs cs off with ⟨cs1, o⟩
    have hsw := skipWs_length_le cs off
    rw [hs] at hsw
    cases cs1 with
    | nil => exact ⟨_, _, _, rfl, by simp, by intro hf; simp [Knox.Token.isEof] at hf⟩
    | cons c rest =>
      simp only [] at hsw
      simp only [List.length_cons] at hsw
      show ∃ t rest1 o1, nextTokenChar (nextTokenF fuel) c rest o = some (t, rest1, o1) ∧
        rest1.length ≤ cs.length ∧ (t.isEof = false → rest1.length < cs.length)
      unfold nextTokenChar
      have ht := List.length_tail rest
      by_cases h1 : c = '/'
      · rw [if_pos h1]
        by_cases h1b : rest.head? = some '/'
        · rw [if_pos h1b]
          rcases h3 : skipLineComment rest.tail (o + 2) with ⟨rest3, o3⟩
          have hlc := skipLineComment_length_le rest.tail (o + 2)
          rw [h3] at hlc
          simp only [] at hlc
          obtain ⟨t, r, o4, heq, hle, _⟩ := ih rest3 o3 (by omega)
          exact ⟨t, r, o4, heq, by omega, fun _ => by omega⟩
        · rw [if_neg h1b]
          obtain ⟨t, r, o4, heq, hle, _⟩ := ih rest (o + 1) (by omega)
          exact ⟨t, r, o4, heq, by omega, fun _ => by omega⟩
      · rw [if_neg h1]
        by_cases h2 : (isAsciiAlphabetic c || c = '_') = true
        · rw [if_pos h2]
          rcases hri2 : readIdentChars (c :: rest) o with ⟨taken, rest2, o2⟩
          have hguard : (isAsciiAlphanumeric c || c = '_') = true := by
            have h2x : isAsciiAlphabetic c = true ∨ c = '_' := by simpa using h2
            rcases h2x with ha | hu
            · simp [isAsciiAlphanumeric, ha]
            · simp [hu]
          have hri := readIdentChars_cons_le c rest o hguard
          rw [hri2] at hri
          simp only [] at hri
          exact ⟨_, _, _, rfl, by omega, fun _ => by omega⟩
        · rw [if_neg h2]
          by_cases h3q : c = '"'
          · rw [if_pos h3q]
            rcases hsl : readStringLoop rest (o + 1) [] with ⟨r, rest2, o2⟩
            have hrl := readStringLoop_length_le rest (o + 1) []
            rw [hsl] at hrl
            simp only [] at hrl
            cases r with
            | ok v => exact ⟨_, _, _, rfl, by omega, fun _ => by omega⟩
            | error e => exact ⟨_, _, _, rfl, by omega, fun _ => by omega⟩
          · rw [if_neg h3q]
            by_cases h4 : isAsciiDigit c = true
            · rw [if_pos h4]
              rcases hrd : readDigits (c :: rest) o with ⟨taken, rest2, o2⟩
              have hdl := readDigits_cons_le c rest o h4
              rw [hrd] at hdl
              simp only [] at hdl
              exact ⟨_, _, _, rfl, by omega, fun _ => by omega⟩
            · rw [if_neg h4]
              by_cases p0 : c = '('
              · rw [if_pos p0]
                exact ⟨_, _, _, rfl, by omega, fun _ => by omega⟩
              rw [if_neg p0]
              by_cases p1 : c = ')'
              · rw [if_pos p1]
                exact ⟨_, _, _, rfl, by omega, fun _ => by omega⟩
              rw [if_neg p1]
              by_cases p2 : c = '{'
              · rw [if_pos p2]
                exact ⟨_, _, _, rfl, by omega, fun _ => by omega⟩
              rw [if_neg p2]
              by_cases p3 : c = '}'
              · rw [if_pos p3]
                exact ⟨_, _, _, rfl, by omega, fun _ => by omega⟩
              rw [if_neg p3]
              by_cases p4 : c = '['
              · rw [if_pos p4]
                exact ⟨_, _, _, rfl, by omega, fun _ => by omega⟩
              rw [if_neg p4]
              by_cases p5 : c = ']'
              · rw [if_pos p5]
                exact ⟨_, _, _, rfl, by omega, fun _ => by omega⟩
              rw [if_neg p5]
              by_cases p6 : c = ':'
              · rw [if_pos p6]
                exact ⟨_, _, _, rfl, by omega, fun _ => by omega⟩
              rw [if_neg p6]
              by_cases p7 : c = ','
              · rw [if_pos p7]
                exact ⟨_, _, _, rfl, by omega, fun _ => by omega⟩
              rw [if_neg p7]
              by_cases p8 : c = '.'
              · rw [if_pos p8]
                exact ⟨_, _, _, rfl, by omega, fun _ => by omega⟩
              rw [if_neg p8]
              by_cases p9 : c = '?'
              · rw [if_pos p9]
                exact ⟨_, _, _, rfl, by omega, fun _ => by omega⟩
              rw [if_neg p9]
              by_cases p10 : c = '|'
              · rw [if_pos p10]
                exact ⟨_, _, _, rfl, by omega, fun _ => by omega⟩
              rw [if_neg p10]
              by_cases p11 : c = '_'
              · rw [if_pos p11]
                exact ⟨_, _, _, rfl, by omega, fun _ => by omega⟩
              rw [if_neg p11]
              by_cases p12 : c = '<'
              · rw [if_pos p12]
                exact ⟨_, _, _, rfl, by omega, fun _ => by omega⟩
              rw [if_neg p12]
              by_cases p13 : c = '>'
              · rw [if_pos p13]
                exact ⟨_, _, _, rfl, by omega, fun _ => by omega⟩
              rw [if_neg p13]
              by_cases pe : c = '='
              · rw [if_pos pe]
                by_cases e1 : rest.head? = some '='
                · rw [if_pos e1]
                  exact ⟨_, _, _, rfl, by omega, fun _ => by omega⟩
                rw [if_neg e1]
                by_cases e2 : rest.head? = some '>'
                · rw [if_pos e2]
                  exact ⟨_, _, _, rfl, by omega, fun _ => by omega⟩
                rw [if_neg e2]
                exact ⟨_, _, _, rfl, by omega, fun _ => by omega⟩
              rw [if_neg pe]
              by_cases pb : c = '!'
              · rw [if_pos pb]
                by_cases e1 : rest.head? = some '='
                · rw [if_pos e1]
                  exact ⟨_, _, _, rfl, by omega, fun _ => by omega⟩
                rw [if_neg e1]
                exact ⟨_, _, _, rfl, by omega, fun _ => by omega⟩
              rw [if_neg pb]
              by_cases pm : c = '-'
              · rw [if_pos pm]
                by_cases e1 : rest.head? = some '>'
                · rw [if_pos e1]
                  exact ⟨_, _, _, rfl, by omega, fun _ => by omega⟩
                rw [if_neg e1]
                exact ⟨_, _, _, rfl, by omega, fun _ => by omega⟩
              rw [if_neg pm]
              obtain ⟨t, r, o4, heq, hle, _⟩ := ih rest (o + c.utf8Size) (by omega)
              exact ⟨t, r, o4, heq, by omega, fun _ => by omega⟩

theorem nextToken_spec (cs : List Char) (off : Nat) :
    nextTokenF (cs.length + 1) cs off = some (nextToken cs off) ∧
    (nextToken cs off).2.1.length ≤ cs.length ∧
    ((nextToken cs off).1.isEof = false → (nextToken cs off).2.1.length < cs.length) := by
  obtain ⟨t, rest, o, heq, hle, hlt⟩ :=
    nextTokenF_spec (cs.length + 1) cs off (Nat.lt_succ_self _)
  have hv : nextToken cs off = (t, rest, o) := by rw [nextToken, heq]; rfl
  rw [hv, heq]
  exact ⟨rfl, hle, hlt⟩

theorem collectTokensF_spec : ∀ (fuel : Nat) (cs : List Char) (off : Nat), cs.length < fuel →
    ∃ ts ts0 sp, collectTokensF fuel cs off = some ts ∧
      ts = ts0 ++ [⟨Knox.TokenKind.eof, sp⟩] ∧
      ts0.countP (fun t => t.isEof) = 0 := by
  intro fuel
  induction fuel with
  | zero => intro cs off h; exact absurd h (Nat.not_lt_zero _)
  | succ fuel ih =>
    intro cs off h
    rw [collectTokensF]
    unfold collectStep
    obtain ⟨heq, hle, hlt⟩ := nextToken_spec cs off
    rcases hv : nextToken cs off with ⟨t, rest, o⟩
    rw [hv] at hle hlt
    simp only [] at hle hlt ⊢
    by_cases he : t.isEof = true
    · rw [if_pos he]
      have hteq : t = ⟨Knox.TokenKind.eof, t.span⟩ := by
        rcases t with ⟨k, sp⟩
        cases k <;> simp_all [Knox.Token.isEof]
      exact ⟨[t], [], t.span, rfl, by rw [← hteq]; rfl, rfl⟩
    · rw [if_neg he]
      have hlt2 : rest.length < cs.length := hlt (by simpa using he)
      obtain ⟨ts, ts0, sp, hcoll, hts, hcount⟩ := ih rest o (by omega)
      refine ⟨t :: ts, t :: ts0, sp, ?_, ?_, ?_⟩
      · rw [hcoll]; rfl
      · rw [hts]; rfl
      · simp only [List.countP_cons, hcount]
        simp [he]

end Knox.Lexer

/-- C9: for every input char sequence (and any fuel exceeding its length),
the lexer completes (`collect_tokens` terminates, modelled by fuel
sufficiency) and returns a finite token sequence that contains exactly one
EOF token, positioned last. -/
theorem c9_lexer_total_exactly_one_eof (cs : List Char) (off fuel : Nat)
    (hfuel : cs.length < fuel) :
    ∃ ts ts0 sp, Knox.Lexer.collectTokensF fuel cs off = some ts ∧
      ts = ts0 ++ [⟨Knox.TokenKind.eof, sp⟩] ∧
      ts0.countP (fun t => t.isEof) = 0 ∧
      ts.countP (fun t => t.isEof) = 1 ∧
      ts.getLast? = some ⟨Knox.TokenKind.eof, sp⟩ := by
  obtain ⟨ts, ts0, sp, h1, h2, h3⟩ := Knox.Lexer.collectTokensF_spec fuel cs off hfuel
  refine ⟨ts, ts0, sp, h1, h2, h3, ?_, ?_⟩
  · rw [h2, List.countP_append, h3]
    simp [List.countP_cons, Knox.Token.isEof]
  · rw [h2]
    simp

/-- Witness for C9 at the concrete input "fn" with fuel 3. -/
theorem c9_lexer_total_exactly_one_eof_witness :
    (['f', 'n'] : List Char).length < 3 ∧
    ∃ ts ts0 sp, Knox.Lexer.collectTokensF 3 ['f', 'n'] 0 = some ts ∧
      ts = ts0 ++ [⟨Knox.TokenKind.eof, sp⟩] ∧
      ts0.countP (fun t => t.isEof) = 0 ∧
      ts.countP (fun t => t.isEof) = 1 ∧
      ts.getLast? = some ⟨Knox.TokenKind.eof, sp⟩ :=
  ⟨by decide, c9_lexer_total_exactly_one_eof ['f', 'n'] 0 3 (by decide)⟩

/-- C7 (code evidence): the shipped lexer silently drops `;` (and the other
punctuation reaching the default `continue` arm), mislexes `<=` as `<` `=`,
and drops `&` entirely, contradicting both the spec's token list and the
parser in the same crate, whose tests lex sources containing `;`. -/
theorem c7_lexer_drops_spec_punctuation :
    Knox.Lexer.collectTokens [';'] 0 = [⟨Knox.TokenKind.eof, ⟨1, 1⟩⟩] ∧
    (Knox.Lexer.collectTokens ['<', '='] 0).map Knox.Token.kind =
      [Knox.TokenKind.lt, Knox.TokenKind.assign, Knox.TokenKind.eof] ∧
    (Knox.Lexer.collectTokens ['a', ';', 'b'] 0).map Knox.Token.kind =
      [Knox.TokenKind.identK "a", Knox.TokenKind.identK "b", Knox.TokenKind.eof] ∧
    (Knox.Lexer.collectTokens ['&', '&'] 0).map Knox.Token.kind = [Knox.TokenKind.eof] := by
  decide

namespace Knox.Ast1

/-- Visibility, from knox_syntax/src/ast.rs (`Private | Exported`). -/
inductive Visibility where
  | privateVis
  | exported
deriving DecidableEq, Repr

/-- Type, from knox_syntax/src/ast.rs (`Int | String | Bool | Unit |
Path(Vec<String>) | Ref(bool, Box<Type>)`). -/
inductive Ty where
  | int
  | string
  | bool
  | unit
  | path (segments : List String)
  | ref (isMut : Bool) (inner : Ty)
deriving DecidableEq, Repr

/-- Field attributes `{get, set}`, from knox_syntax/src/ast.rs. -/
structure FieldAttrs where
  get : Bool
  set : Bool
deriving DecidableEq, Repr

/-- Struct field, from knox_syntax/src/ast.rs. -/
structure StructField where
  span : Knox.Span
  name : String
  ty : Ty
  attrs : FieldAttrs
deriving DecidableEq, Repr

/-- Struct declaration, from knox_syntax/src/ast.rs. -/
structure StructDecl where
  span : Knox.Span
  vis : Visibility
  name : String
  fields : List StructField
deriving DecidableEq, Repr

/-- Function parameter, from knox_syntax/src/ast.rs. -/
structure Param where
  name : String
  ty : Ty
  mut_ : Bool
deriving DecidableEq, Repr

/-- Match pattern, from knox_syntax/src/ast.rs. -/
inductive MatchPattern where
  | int (v : Int)
  | bool (b : Bool)
  | string (s : String)
  | underscore
deriving DecidableEq, Repr

/-- Expression, from knox_syntax/src/ast.rs. -/
inductive Expr where
  | intLiteral (span : Knox.Span) (value : Int)
  | stringLiteral (span : Knox.Span) (value : String)
  | boolLiteral (span : Knox.Span) (value : Bool)
  | ident (span : Knox.Span) (name : String)
  | path (span : Knox.Span) (segments : List String)
  | structLiteral (span : Knox.Span) (path : List String) (fields : List (String × Expr))
  | call (span : Knox.Span) (receiver : Option Expr) (name : String) (args : List Expr)
  | assign (span : Knox.Span) (target : Expr) (value : Expr)
  | matchE (span : Knox.Span) (value : Expr) (arms : List (MatchPattern × Expr))
  | deref (span : Knox.Span) (e : Expr)
  | refE (span : Knox.Span) (mut_ : Bool) (e : Expr)
  | add (span : Knox.Span) (lhs : Expr) (rhs : Expr)
deriving Repr

/-- Statement, from knox_syntax/src/ast.rs. -/
inductive Stmt where
  | letS (span : Knox.Span) (mut_ : Bool) (name : String) (ty : Option Ty) (init : Expr)
  | exprS (span : Knox.Span) (expr : Expr)
  | ret (span : Knox.Span) (value : Option Expr)
deriving Repr

/-- Block, from knox_syntax/src/ast.rs. -/
structure Block where
  span : Knox.Span
  stmts : List Stmt
deriving Repr

/-- Function declaration, from knox_syntax/src/ast.rs. -/
structure FnDecl where
  span : Knox.Span
  vis : Visibility
  name : String
  params : List Param
  return_ty : Ty
  body : Block
deriving Repr

/-- Import declaration, from knox_syntax/src/ast.rs. -/
structure ImportDecl where
  span : Knox.Span
  path : List String
  aliasName : Option String
deriving Repr

/-- Top-level item, from knox_syntax/src/ast.rs. -/
inductive Item where
  | fnI (f : FnDecl)
  | structI (s : StructDecl)
  | importI (i : ImportDecl)
deriving Repr

/-- Module root, from knox_syntax/src/ast.rs. -/
structure Root where
  items : List Item
deriving Repr

end Knox.Ast1

namespace Knox.Accessors

open Knox.Ast1

/-- `field_byte_size`, from knox_syntax/src/accessors.rs: byte size of a
type for struct layout. -/
def field_byte_size : Ty → Nat
  | Ty.string => 8
  | Ty.int => 4
  | Ty.bool => 4
  | Ty.unit => 0
  | Ty.path _ => 4
  | Ty.ref _ _ => 4

/-- `StructLayout`, from knox_syntax/src/accessors.rs. -/
structure StructLayout where
  module : String
  struct_name : String
  fields : List (String × Ty × Nat)
  total_size : Nat
deriving DecidableEq, Repr

/-- `AccessorSpec`, from knox_syntax/src/accessors.rs. -/
structure AccessorSpec where
  module : String
  struct_name : String
  field_name : String
  get : Bool
  set : Bool
  ty : Ty
  byte_offset : Nat
deriving DecidableEq, Repr

/-- `setter_name`, from knox_syntax/src/accessors.rs:
`format!("set_{}", field_name)`. -/
def setter_name (field_name : String) : String :=
  "set_" ++ field_name

/-- The field loop of `build_struct_layout`
(knox_compiler/src/desugar/accessors.rs lines 8-22): assign prefix-sum
offsets in declaration order; returns the field triples and the final
offset (= total size). -/
def layoutFields : List StructField → Nat → List (String × Ty × Nat) × Nat
  | [], offset => ([], offset)
  | f :: fs, offset =>
    let size := field_byte_size f.ty
    let (rest, total) := layoutFields fs (offset + size)
    ((f.name, f.ty, offset) :: rest, total)

/-- `build_struct_layout`, from knox_compiler/src/desugar/accessors.rs. -/
def build_struct_layout (module : String) (s : StructDecl) : StructLayout :=
  let (fields, offset) := layoutFields s.fields 0
  { module := module, struct_name := s.name, total_size := offset, fields := fields }

theorem layoutFields_total_ge : ∀ (fs : List StructField) (off : Nat),
    off ≤ (layoutFields fs off).2 := by
  intro fs
  induction fs with
  | nil => intro off; simp [layoutFields]
  | cons f fs ih =>
    intro off
    rw [layoutFields]
    rcases h : layoutFields fs (off + field_byte_size f.ty) with ⟨rest, total⟩
    have := ih (off + field_byte_size f.ty)
    rw [h] at this
    simp only [] at this ⊢
    omega

theorem layoutFields_bound : ∀ (fs : List StructField) (off : Nat) (nm : String)
    (ty : Ty) (fo : Nat), (nm, ty, fo) ∈ (layoutFields fs off).1 →
    fo + field_byte_size ty ≤ (layoutFields fs off).2 := by
  intro fs
  induction fs with
  | nil => intro off nm ty fo h; simp [layoutFields] at h
  | cons f fs ih =>
    intro off nm ty fo h
    rw [layoutFields] at h ⊢
    rcases h2 : layoutFields fs (off + field_byte_size f.ty) with ⟨rest, total⟩
    rw [h2] at h
    simp only [List.mem_cons] at h
    rcases h with h | h
    · cases h
      have := layoutFields_total_ge fs (off + field_byte_size f.ty)
      rw [h2] at this
      simp only [] at this ⊢
      omega
    · have := ih (off + field_byte_size f.ty) nm ty fo (by rw [h2]; exact h)
      rw [h2] at this
      simpa using this

theorem field_byte_size_pos_of_ne_unit (ty : Ty) (h : ty ≠ Ty.unit) :
    0 < field_byte_size ty := by
  cases ty <;> simp [field_byte_size] at h ⊢

end Knox.Accessors

namespace Knox.Desugar

/-- `setter_name`, from knox_compiler/src/desugar.rs lines 9-23: convert
snake_case to camelCase and prefix with "set" (e.g. age becomes setAge,
user_id becomes setUserId). -/
def setter_name (field_name : String) : String :=
  (field_name.data.foldl
    (fun (acc : String × Bool) c =>
      if c = '_' then (acc.1, true)
      else if acc.2 then (acc.1.push c.toUpper, false)
      else (acc.1.push c, false))
    ("set", true)).1

end Knox.Desugar

/-- C5 (amended): in the layout computed by `build_struct_layout`, every
field's byte offset plus its field size is at most the layout's total
size; in particular the offset is strictly less than the total size for
every field whose type is not Unit (a Unit field has size 0 and can sit
exactly at the total size). -/
theorem c5_struct_layout_offset_bounds (module : String) (s : Knox.Ast1.StructDecl)
    (nm : String) (ty : Knox.Ast1.Ty) (off : Nat)
    (hmem : (nm, ty, off) ∈ (Knox.Accessors.build_struct_layout module s).fields) :
    off + Knox.Accessors.field_byte_size ty ≤
      (Knox.Accessors.build_struct_layout module s).total_size ∧
    (ty ≠ Knox.Ast1.Ty.unit →
      off < (Knox.Accessors.build_struct_layout module s).total_size) := by
  unfold Knox.Accessors.build_struct_layout at hmem ⊢
  simp only [] at hmem ⊢
  have hb := Knox.Accessors.layoutFields_bound s.fields 0 nm ty off hmem
  refine ⟨hb, fun hne => ?_⟩
  have := Knox.Accessors.field_byte_size_pos_of_ne_unit ty hne
  omega

/-- Witness for C5 at a concrete struct with an int and a string field. -/
theorem c5_struct_layout_offset_bounds_witness :
    (("y", Knox.Ast1.Ty.string, 4) ∈
      (Knox.Accessors.build_struct_layout "m"
        ⟨⟨0, 0⟩, Knox.Ast1.Visibility.exported, "P",
          [⟨⟨0, 0⟩, "x", Knox.Ast1.Ty.int, ⟨true, false⟩⟩,
           ⟨⟨0, 0⟩, "y", Knox.Ast1.Ty.string, ⟨true, true⟩⟩]⟩).fields) ∧
    (4 + Knox.Accessors.field_byte_size Knox.Ast1.Ty.string ≤
      (Knox.Accessors.build_struct_layout "m"
        ⟨⟨0, 0⟩, Knox.Ast1.Visibility.exported, "P",
          [⟨⟨0, 0⟩, "x", Knox.Ast1.Ty.int, ⟨true, false⟩⟩,
           ⟨⟨0, 0⟩, "y", Knox.Ast1.Ty.string, ⟨true, true⟩⟩]⟩).total_size ∧
    (Knox.Ast1.Ty.string ≠ Knox.Ast1.Ty.unit →
      4 < (Knox.Accessors.build_struct_layout "m"
        ⟨⟨0, 0⟩, Knox.Ast1.Visibility.exported, "P",
          [⟨⟨0, 0⟩, "x", Knox.Ast1.Ty.int, ⟨true, false⟩⟩,
           ⟨⟨0, 0⟩, "y", Knox.Ast1.Ty.string, ⟨true, true⟩⟩]⟩).total_size)) :=
  ⟨by decide, c5_struct_layout_offset_bounds "m" _ "y" Knox.Ast1.Ty.string 4 (by decide)⟩

/-- C5 (counterexample to the claim as stated): a struct with a single
Unit-typed field has that field at offset 0 while the total size is 0, so
the offset is NOT strictly less than the total size. -/
theorem c5_unit_field_offset_not_lt_total :
    (Knox.Accessors.build_struct_layout "m"
      ⟨⟨0, 0⟩, Knox.Ast1.Visibility.exported, "U",
        [⟨⟨0, 0⟩, "x", Knox.Ast1.Ty.unit, ⟨false, false⟩⟩]⟩).fields =
      [("x", Knox.Ast1.Ty.unit, 0)] ∧
    (Knox.Accessors.build_struct_layout "m"
      ⟨⟨0, 0⟩, Knox.Ast1.Visibility.exported, "U",
        [⟨⟨0, 0⟩, "x", Knox.Ast1.Ty.unit, ⟨false, false⟩⟩]⟩).total_size = 0 ∧
    ¬(0 < (Knox.Accessors.build_struct_layout "m"
      ⟨⟨0, 0⟩, Knox.Ast1.Visibility.exported, "U",
        [⟨⟨0, 0⟩, "x", Knox.Ast1.Ty.unit, ⟨false, false⟩⟩]⟩).total_size) := by
  decide

/-- C6 (amended): knox_syntax's `setter_name` maps every field name f to
"set_" ++ f unchanged (so setter_name("age") = "set_age" and
setter_name("user_id") = "set_user_id"), but the desugar pass's own
`setter_name` in knox_compiler/src/desugar.rs camel-cases instead:
setter_name("age") = "setAge" and setter_name("user_id") = "setUserId". -/
theorem c6_setter_name_two_conventions :
    (∀ f : String, Knox.Accessors.setter_name f = "set_" ++ f) ∧
    Knox.Accessors.setter_name "age" = "set_age" ∧
    Knox.Accessors.setter_name "user_id" = "set_user_id" ∧
    Knox.Desugar.setter_name "age" = "setAge" ∧
    Knox.Desugar.setter_name "user_id" = "setUserId" :=
  ⟨fun _ => rfl, by decide, by decide, by decide, by decide⟩

/-- C6 (counterexample to the claim as stated): the desugar pass's setter
naming function does not produce "set_" ++ field: it maps "age" to
"setAge", not "set_age". -/
theorem c6_desugar_setter_name_not_snake :
    Knox.Desugar.setter_name "age" = "setAge" ∧
    Knox.Desugar.setter_name "age" ≠ "set_age" := by
  decide

namespace Knox.Ast2

/-- Types of the parser/typechecker AST revision.  The variants are the
ones constructed by knox_compiler/src/parser.rs `parse_type` and matched
by knox_compiler/src/typecheck.rs (`U64 | Int | String | Bool | Dynamic |
Unit | Option | Result | Named | Ref(Box<Type>, bool)`); their declaration
file is not in the tree. -/
inductive Ty where
  | u64
  | int
  | string
  | bool
  | dynamic
  | unit
  | option (inner : Ty)
  | result (ok : Ty) (err : Ty)
  | named (name : String)
  | ref (inner : Ty) (isMut : Bool)
deriving DecidableEq, Repr

/-- Literals (`Literal::Int/String/Bool/Unit`) as used by typecheck.rs. -/
inductive Lit where
  | int (v : Int)
  | str (s : String)
  | bool (b : Bool)
  | unit
deriving DecidableEq, Repr

/-- Binary operators as used by parser.rs / typecheck.rs. -/
inductive BinOp where
  | add
  | sub
  | mul
  | div
  | rem
  | eq
  | ne
  | lt
  | le
  | gt
  | ge
  | and
  | or
deriving DecidableEq, Repr

/-- Unary operators (`Neg | Not`) as used by parser.rs / typecheck.rs. -/
inductive UnOp where
  | neg
  | not
deriving DecidableEq, Repr

/-- Match patterns (`Wildcard | Literal | RecordDestruct`) as used by
parser.rs / typecheck.rs. -/
inductive Pat where
  | wildcard (s : Knox.Span)
  | literal (l : Lit) (s : Knox.Span)
  | recordDestruct (fields : List (String × Ty)) (s : Knox.Span)
deriving DecidableEq, Repr

mutual
/-- Expressions of the parser/typechecker AST revision, with exactly the
variants matched in typecheck.rs `check_expr` and built in parser.rs. -/
inductive Expr where
  | literal (l : Lit) (s : Knox.Span)
  | ident (name : String) (s : Knox.Span)
  | fieldAccess (receiver : Expr) (field : String) (s : Knox.Span)
  | call (callee : String) (args : List Expr) (s : Knox.Span)
  | binaryOp (op : BinOp) (left : Expr) (right : Expr) (s : Knox.Span)
  | unaryOp (op : UnOp) (e : Expr) (s : Knox.Span)
  | refE (is_mut : Bool) (target : String) (s : Knox.Span)
  | deref (e : Expr) (s : Knox.Span)
  | ifE (cond : Expr) (thenB : Block) (elseB : Option Block) (s : Knox.Span)
  | matchE (scrutinee : Expr) (arms : List MatchArm) (s : Knox.Span)
  | blockE (b : Block) (s : Knox.Span)
deriving Repr

/-- Statements of the parser/typechecker AST revision (`Let | AssignDeref
| Assign | Expr | Return`). -/
inductive Stmt where
  | letS (name : String) (mutability : Bool) (type_annot : Option Ty) (init : Expr)
      (s : Knox.Span)
  | assignDeref (name : String) (e : Expr) (s : Knox.Span)
  | assign (name : String) (e : Expr) (s : Knox.Span)
  | exprS (e : Expr)
  | ret (value : Option Expr) (s : Knox.Span)
deriving Repr

/-- Blocks of the parser/typechecker AST revision. -/
inductive Block where
  | mk (stmts : List Stmt) (s : Knox.Span)
deriving Repr

/-- Match arms (`MatchArm { pattern, body, span }`). -/
inductive MatchArm where
  | mk (pattern : Pat) (body : Expr) (s : Knox.Span)
deriving Repr
end

def Block.stmts : Block → List Stmt
  | Block.mk stmts _ => stmts

def MatchArm.pattern : MatchArm → Pat
  | MatchArm.mk p _ _ => p

def MatchArm.body : MatchArm → Expr
  | MatchArm.mk _ b _ => b

/-- `ExprSpan::span` for this AST revision (typecheck.rs lines 439-459). -/
def Expr.span : Expr → Knox.Span
  | Expr.literal _ s => s
  | Expr.ident _ s => s
  | Expr.fieldAccess _ _ s => s
  | Expr.call _ _ s => s
  | Expr.binaryOp _ _ _ s => s
  | Expr.unaryOp _ _ s => s
  | Expr.refE _ _ s => s
  | Expr.deref _ s => s
  | Expr.ifE _ _ _ s => s
  | Expr.matchE _ _ s => s
  | Expr.blockE _ s => s

/-- Function parameter of this AST revision (parser.rs `Param`). -/
structure Param where
  name : String
  ty : Ty
  span : Knox.Span
deriving Repr

/-- Function declaration of this AST revision (parser.rs `FnDecl`). -/
structure FnDecl where
  name : String
  params : List Param
  return_type : Ty
  body : Block
  span : Knox.Span
  pub_vis : Bool
deriving Repr

/-- `@pub(get, set)` attributes of this AST revision. -/
structure FieldAttrs where
  get : Bool
  set : Bool
deriving DecidableEq, Repr

/-- Struct field of this AST revision (parser.rs `StructField`). -/
structure StructField where
  name : String
  ty : Ty
  attrs : Option FieldAttrs
  span : Knox.Span
deriving Repr

/-- Struct declaration of this AST revision (parser.rs `StructDecl`). -/
structure StructDecl where
  name : String
  fields : List StructField
  span : Knox.Span
deriving Repr

/-- Import declaration of this AST revision (parser.rs `ImportDecl`). -/
structure ImportDecl where
  path : List String
  aliasName : Option String
  items : Option (List String)
  span : Knox.Span
deriving Repr

/-- Top-level item of this AST revision. -/
inductive Item where
  | fnI (f : FnDecl)
  | structI (s : StructDecl)
  | importI (i : ImportDecl)
deriving Repr

/-- Module root of this AST revision (parser.rs `Root { items, span }`). -/
structure Root where
  items : List Item
  span : Knox.Span
deriving Repr

end Knox.Ast2

namespace Knox.Typecheck

open Knox.Ast2

/-- Generic string-keyed association lookup, modelling `HashMap::get`
(insertion prepends, so the first hit is the most recent insert). -/
def assocGet {α : Type} : List (String × α) → String → Option α
  | [], _ => none
  | (k, v) :: rest, name => if k = name then some v else assocGet rest name

/-- The `TypeChecker` state, from knox_compiler/src/typecheck.rs lines
8-13: accumulated diagnostics, file id, and the function / struct scopes. -/
structure TypeChecker where
  diagnostics : List Knox.Diagnostic
  file : Knox.FileId
  functions : List (String × FnDecl)
  structs : List (String × StructDecl)

/-- `self.diagnostics.push(Diagnostic::error(msg, Some(Location::new(file,
span))))`, the error-reporting idiom used throughout typecheck.rs. -/
def pushErr (tc : TypeChecker) (msg : String) (sp : Knox.Span) : TypeChecker :=
  { tc with diagnostics := tc.diagnostics ++ [Knox.Diagnostic.mkError msg (some ⟨tc.file, sp⟩)] }

/-- Local variable environment: name to (type, mutable flag), from
typecheck.rs (`HashMap<String, (Type, bool)>`). -/
abbrev Env := List (String × (Ty × Bool))

def envGet (env : Env) (name : String) : Option (Ty × Bool) :=
  assocGet env name

def envInsert (env : Env) (name : String) (v : Ty × Bool) : Env :=
  (name, v) :: env

/-- Rust `Debug` rendering of a type, used inside diagnostic messages. -/
def tyDebug : Ty → String
  | Ty.u64 => "U64"
  | Ty.int => "Int"
  | Ty.string => "String"
  | Ty.bool => "Bool"
  | Ty.dynamic => "Dynamic"
  | Ty.unit => "Unit"
  | Ty.option t => "Option(" ++ tyDebug t ++ ")"
  | Ty.result a b => "Result(" ++ tyDebug a ++ ", " ++ tyDebug b ++ ")"
  | Ty.named n => "Named(" ++ n ++ ")"
  | Ty.ref t m => "Ref(" ++ tyDebug t ++ ", " ++ (if m then "true" else "false") ++ ")"

/-- Rust `Debug` rendering of a binary operator. -/
def binOpDebug : BinOp → String
  | BinOp.add => "Add"
  | BinOp.sub => "Sub"
  | BinOp.mul => "Mul"
  | BinOp.div => "Div"
  | BinOp.rem => "Rem"
  | BinOp.eq => "Eq"
  | BinOp.ne => "Ne"
  | BinOp.lt => "Lt"
  | BinOp.le => "Le"
  | BinOp.gt => "Gt"
  | BinOp.ge => "Ge"
  | BinOp.and => "And"
  | BinOp.or => "Or"

/-- `TypeChecker::check_type_equals` (typecheck.rs lines 427-436). -/
def check_type_equals (tc : TypeChecker) (expected actual : Ty) (span : Knox.Span) : TypeChecker × Option Unit :=
  if expected ≠ actual then
    (pushErr tc ("Type mismatch: expected " ++ tyDebug expected ++ ", got " ++ tyDebug actual)
      span, none)
  else (tc, some ())

/-- `TypeChecker::type_of_literal` (typecheck.rs lines 418-425). -/
def type_of_literal : Lit → Ty
  | Lit.int _ => Ty.int
  | Lit.str _ => Ty.string
  | Lit.bool _ => Ty.bool
  | Lit.unit => Ty.unit

/-- The wildcard-arm test of `check_match_exhaustive` (typecheck.rs). -/
def isWildcardArm (a : MatchArm) : Bool :=
  match a.pattern with
  | Pat.wildcard _ => true
  | _ => false

/-- The `true`-literal-arm test of `check_match_exhaustive`. -/
def isTrueArm (a : MatchArm) : Bool :=
  match a.pattern with
  | Pat.literal (Lit.bool true) _ => true
  | _ => false

/-- The `false`-literal-arm test of `check_match_exhaustive`. -/
def isFalseArm (a : MatchArm) : Bool :=
  match a.pattern with
  | Pat.literal (Lit.bool false) _ => true
  | _ => false

/-- `TypeChecker::check_match_exhaustive` (typecheck.rs lines 388-416):
ok when there is a wildcard arm, or when the scrutinee type is Bool and
both `true` and `false` literal arms are present; otherwise push the
exhaustiveness diagnostic and fail. -/
def check_match_exhaustive (tc : TypeChecker) (scrut_ty : Ty) (arms : List MatchArm)
    (span : Knox.Span) : TypeChecker × Option Unit :=
  if arms.any isWildcardArm then (tc, some ())
  else if scrut_ty = Ty.bool then
    if arms.any isTrueArm && arms.any isFalseArm then (tc, some ())
    else (pushErr tc "Match must be exhaustive (add _ arm or cover all cases)" span, none)
  else (pushErr tc "Match must be exhaustive (add _ arm or cover all cases)" span, none)

/-- The body of `TypeChecker::check_expr` (typecheck.rs lines 153-386);
`rE`, `rArgs`, `rArms`, `rBlock` are the recursive entry points (taken
with fuel in `checkExpr` below).  `Err(())` is modelled as `none`, and the
`&mut env` parameter as explicit environment threading (the Block case
clones the environment, so there it is not threaded back). -/
def checkExprB
    (rE : TypeChecker → Env → Expr → TypeChecker × Env × Option Ty)
    (rArgs : TypeChecker → Env → List (Param × Expr) → TypeChecker × Env × Option Unit)
    (rArms : TypeChecker → Env → Option Ty → List MatchArm → TypeChecker × Env × Option (Option Ty))
    (rBlock : TypeChecker → Env → Block → TypeChecker × Env × Option Unit)
    (tc : TypeChecker) (env : Env) : Expr → TypeChecker × Env × Option Ty
  | Expr.literal lit _sp => (tc, env, some (type_of_literal lit))
  | Expr.ident name sp =>
    match envGet env name with
    | some (ty, _) => (tc, env, some ty)
    | none => (pushErr tc ("Unknown variable: " ++ name) sp, env, none)
  | Expr.fieldAccess receiver field sp =>
    match rE tc env receiver with
    | (tc, env, none) => (tc, env, none)
    | (tc, env, some recTy) =>
      match recTy with
      | Ty.named structName =>
        match assocGet tc.structs structName with
        | none => (pushErr tc ("Unknown type: " ++ structName) sp, env, none)
        | some s =>
          match s.fields.find? (fun fld => fld.name = field) with
          | none => (pushErr tc ("Unknown field: " ++ field ++ " on " ++ structName) sp,
              env, none)
          | some f => (tc, env, some f.ty)
      | _ => (pushErr tc "Field access only on struct types" sp, env, none)
  | Expr.call callee args sp =>
    if callee = "print" then
      -- `args.len() != 1` guard then `&args[0]`: the singleton case
      match args with
      | [arg] =>
        match rE tc env arg with
        | (tc, env, none) => (tc, env, none)
        | (tc, env, some argTy) =>
          if argTy ≠ Ty.string then
            (pushErr tc "print argument must be string" sp, env, none)
          else (tc, env, some Ty.unit)
      | _ => (pushErr tc "print expects exactly one argument (string)" sp, env, none)
    else
      match assocGet tc.functions callee with
      | some f =>
        if f.params.length ≠ args.length then
          (pushErr tc ("Expected " ++ toString f.params.length ++ " arguments, got " ++
            toString args.length) sp, env, none)
        else
          match rArgs tc env (f.params.zip args) with
          | (tc, env, none) => (tc, env, none)
          | (tc, env, some _) => (tc, env, some f.return_type)
      | none => (pushErr tc ("Unknown function: " ++ callee) sp, env, none)
  | Expr.ifE cond thenB elseB _sp =>
    match rE tc env cond with
    | (tc, env, none) => (tc, env, none)
    | (tc, env, some _) =>
      match rBlock tc env thenB with
      | (tc, env, none) => (tc, env, none)
      | (tc, env, some _) =>
        match elseB with
        | some eb =>
          match rBlock tc env eb with
          | (tc, env, none) => (tc, env, none)
          | (tc, env, some _) => (tc, env, some Ty.unit)
        | none => (tc, env, some Ty.unit)
  | Expr.matchE scrutinee arms sp =>
    match rE tc env scrutinee with
    | (tc, env, none) => (tc, env, none)
    | (tc, env, some scrutTy) =>
      match rArms tc env none arms with
      | (tc, env, none) => (tc, env, none)
      | (tc, env, some armTy) =>
        match check_match_exhaustive tc scrutTy arms sp with
        | (tc, none) => (tc, env, none)
        | (tc, some _) => (tc, env, some (armTy.getD Ty.unit))
  | Expr.blockE b _sp =>
    -- `let mut block_env = env.clone()`: the outer env is not mutated
    match rBlock tc env b with
    | (tc, _benv, none) => (tc, env, none)
    | (tc, benv, some _) =>
      match b.stmts.getLast? with
      | some (Stmt.exprS e) =>
        match rE tc benv e with
        | (tc, _benv2, none) => (tc, env, none)
        | (tc, _benv2, some t) => (tc, env, some t)
      | _ => (tc, env, some Ty.unit)
  | Expr.binaryOp op left right sp =>
    match rE tc env left with
    | (tc, env, none) => (tc, env, none)
    | (tc, env, some lt) =>
      match rE tc env right with
      | (tc, env, none) => (tc, env, none)
      | (tc, env, some rt) =>
        match op with
        | BinOp.add =>
          if lt = Ty.int ∧ rt = Ty.int then (tc, env, some Ty.int)
          else if lt = Ty.u64 ∧ rt = Ty.u64 then (tc, env, some Ty.u64)
          else if lt = Ty.string ∧ rt = Ty.string then (tc, env, some Ty.string)
          else (pushErr tc "Operator + requires int+int, u64+u64, or string+string" sp,
            env, none)
        | BinOp.sub | BinOp.mul | BinOp.div | BinOp.rem =>
          if lt = Ty.int ∧ rt = Ty.int then (tc, env, some Ty.int)
          else if lt = Ty.u64 ∧ rt = Ty.u64 then (tc, env, some Ty.u64)
          else (pushErr tc ("Operator " ++ binOpDebug op ++
            " requires both operands int or both u64") sp, env, none)
        | BinOp.eq | BinOp.ne | BinOp.lt | BinOp.le | BinOp.gt | BinOp.ge =>
          match check_type_equals tc lt rt sp with
          | (tc, none) => (tc, env, none)
          | (tc, some _) => (tc, env, some Ty.bool)
        | BinOp.and | BinOp.or =>
          match check_type_equals tc Ty.bool lt left.span with
          | (tc, none) => (tc, env, none)
          | (tc, some _) =>
            match check_type_equals tc Ty.bool rt right.span with
            | (tc, none) => (tc, env, none)
            | (tc, some _) => (tc, env, some Ty.bool)
  | Expr.unaryOp op e sp =>
    match rE tc env e with
    | (tc, env, none) => (tc, env, none)
    | (tc, env, some t) =>
      match op with
      | UnOp.neg =>
        if t = Ty.int ∨ t = Ty.u64 then (tc, env, some t)
        else (pushErr tc "Unary - requires int or u64" sp, env, none)
      | UnOp.not =>
        match check_type_equals tc Ty.bool t e.span with
        | (tc, none) => (tc, env, none)
        | (tc, some _) => (tc, env, some Ty.bool)
  | Expr.refE is_mut target sp =>
    match envGet env target with
    | none => (pushErr tc ("Unknown variable: " ++ target) sp, env, none)
    | some (ty, mutability) =>
      if is_mut && !mutability then
        (pushErr tc "Cannot take &mut of immutable variable" sp, env, none)
      else (tc, env, some (Ty.ref ty is_mut))
  | Expr.deref e sp =>
    match rE tc env e with
    | (tc, env, none) => (tc, env, none)
    | (tc, env, some refTy) =>
      match refTy with
      | Ty.ref inner _ => (tc, env, some inner)
      | _ => (pushErr tc "Deref * only applies to &T or &mut T" sp, env, none)

/-- The `for (p, a) in f.params.iter().zip(args.iter())` loop inside the
call case of `check_expr`. -/
def checkArgsLoopB
    (rE : TypeChecker → Env → Expr → TypeChecker × Env × Option Ty)
    (rLoop : TypeChecker → Env → List (Param × Expr) → TypeChecker × Env × Option Unit)
    (tc : TypeChecker) (env : Env) : List (Param × Expr) → TypeChecker × Env × Option Unit
  | [] => (tc, env, some ())
  | (p, a) :: rest =>
    match rE tc env a with
    | (tc, env, none) => (tc, env, none)
    | (tc, env, some aty) =>
      match check_type_equals tc p.ty aty a.span with
      | (tc, none) => (tc, env, none)
      | (tc, some _) => rLoop tc env rest

/-- The `for arm in arms` loop inside the match case of `check_expr`,
threading the running `arm_ty`. -/
def checkArmsLoopB
    (rE : TypeChecker → Env → Expr → TypeChecker × Env × Option Ty)
    (rLoop : TypeChecker → Env → Option Ty → List MatchArm → TypeChecker × Env × Option (Option Ty))
    (tc : TypeChecker) (env : Env) (armTy : Option Ty) :
    List MatchArm → TypeChecker × Env × Option (Option Ty)
  | [] => (tc, env, some armTy)
  | arm :: rest =>
    match rE tc env arm.body with
    | (tc, env, none) => (tc, env, none)
    | (tc, env, some t) =>
      match armTy with
      | some expected =>
        match check_type_equals tc expected t arm.body.span with
        | (tc, none) => (tc, env, none)
        | (tc, some _) => rLoop tc env armTy rest
      | none => rLoop tc env (some t) rest

/-- The body of `TypeChecker::check_stmt` (typecheck.rs lines 80-151). -/
def checkStmtB
    (rE : TypeChecker → Env → Expr → TypeChecker × Env × Option Ty)
    (tc : TypeChecker) (env : Env) : Stmt → TypeChecker × Env × Option Unit
  | Stmt.letS name mutability type_annot init sp =>
    match rE tc env init with
    | (tc, env, none) => (tc, env, none)
    | (tc, env, some initTy) =>
      match type_annot with
      | some annot =>
        match check_type_equals tc annot initTy sp with
        | (tc, none) => (tc, env, none)
        | (tc, some _) => (tc, envInsert env name (annot, mutability), some ())
      | none => (tc, envInsert env name (initTy, mutability), some ())
  | Stmt.assignDeref name e sp =>
    match envGet env name with
    | none => (pushErr tc ("Unknown variable: " ++ name) sp, env, none)
    | some (varTy, _) =>
      match varTy with
      | Ty.ref inner true =>
        match rE tc env e with
        | (tc, env, none) => (tc, env, none)
        | (tc, env, some exprTy) =>
          match check_type_equals tc inner exprTy e.span with
          | (tc, none) => (tc, env, none)
          | (tc, some _) => (tc, env, some ())
      | _ => (pushErr tc "Assign through * requires &mut reference" sp, env, none)
  | Stmt.assign name e sp =>
    match envGet env name with
    | none => (pushErr tc ("Unknown variable: " ++ name) sp, env, none)
    | some (varTy, mutability) =>
      if !mutability then (pushErr tc "Cannot assign to immutable variable" sp, env, none)
      else
        match rE tc env e with
        | (tc, env, none) => (tc, env, none)
        | (tc, env, some exprTy) =>
          match check_type_equals tc varTy exprTy e.span with
          | (tc, none) => (tc, env, none)
          | (tc, some _) => (tc, env, some ())
  | Stmt.exprS e =>
    match rE tc env e with
    | (tc, env, none) => (tc, env, none)
    | (tc, env, some _) => (tc, env, some ())
  | Stmt.ret (some e) _ =>
    match rE tc env e with
    | (tc, env, none) => (tc, env, none)
    | (tc, env, some _) => (tc, env, some ())
  | Stmt.ret none _ => (tc, env, some ())

/-- The statement loop of `TypeChecker::check_block` (typecheck.rs lines
69-78). -/
def checkStmtsLoopB
    (rStmt : TypeChecker → Env → Stmt → TypeChecker × Env × Option Unit)
    (rLoop : TypeChecker → Env → List Stmt → TypeChecker × Env × Option Unit)
    (tc : TypeChecker) (env : Env) : List Stmt → TypeChecker × Env × Option Unit
  | [] => (tc, env, some ())
  | st :: rest =>
    match rStmt tc env st with
    | (tc, env, none) => (tc, env, none)
    | (tc, env, some _) => rLoop tc env rest

mutual
/-- `TypeChecker::check_expr`, with fuel bounding the recursion depth
(the Rust recursion is structural on the expression, so expression size
plus one always suffices). -/
def checkExpr : Nat → TypeChecker → Env → Expr → TypeChecker × Env × Option Ty
  | 0, tc, env, _ => (tc, env, none)
  | fuel + 1, tc, env, e =>
    checkExprB (checkExpr fuel) (checkArgsLoop fuel) (checkArmsLoop fuel) (checkBlock fuel)
      tc env e

/-- The argument-checking loop of `check_expr`, with fuel. -/
def checkArgsLoop : Nat → TypeChecker → Env → List (Param × Expr) → TypeChecker × Env × Option Unit
  | 0, tc, env, _ => (tc, env, none)
  | fuel + 1, tc, env, l => checkArgsLoopB (checkExpr fuel) (checkArgsLoop fuel) tc env l

/-- The arm-checking loop of `check_expr`, with fuel. -/
def checkArmsLoop : Nat → TypeChecker → Env → Option Ty → List MatchArm → TypeChecker × Env × Option (Option Ty)
  | 0, tc, env, _, _ => (tc, env, none)
  | fuel + 1, tc, env, armTy, arms =>
    checkArmsLoopB (checkExpr fuel) (checkArmsLoop fuel) tc env armTy arms

/-- `TypeChecker::check_stmt`, with fuel. -/
def checkStmt : Nat → TypeChecker → Env → Stmt → TypeChecker × Env × Option Unit
  | 0, tc, env, _ => (tc, env, none)
  | fuel + 1, tc, env, st => checkStmtB (checkExpr fuel) tc env st

/-- The statement loop of `check_block`, with fuel. -/
def checkStmtsLoop : Nat → TypeChecker → Env → List Stmt → TypeChecker × Env × Option Unit
  | 0, tc, env, _ => (tc, env, none)
  | fuel + 1, tc, env, l => checkStmtsLoopB (checkStmt fuel) (checkStmtsLoop fuel) tc env l

/-- `TypeChecker::check_block`, with fuel. -/
def checkBlock : Nat → TypeChecker → Env → Block → TypeChecker × Env × Option Unit
  | 0, tc, env, _ => (tc, env, none)
  | fuel + 1, tc, env, b => checkStmtsLoop fuel tc env b.stmts
end

end Knox.Typecheck

namespace Knox.Typecheck

open Knox.Ast2

theorem isWildcardArm_iff (a : MatchArm) :
    isWildcardArm a = true ↔ ∃ s, a.pattern = Pat.wildcard s := by
  cases a with
  | mk p b s =>
    cases p <;> simp [isWildcardArm, MatchArm.pattern]

theorem isTrueArm_iff (a : MatchArm) :
    isTrueArm a = true ↔ ∃ s, a.pattern = Pat.literal (Lit.bool true) s := by
  cases a with
  | mk p b s =>
    cases p with
    | wildcard s2 => simp [isTrueArm, MatchArm.pattern]
    | recordDestruct fs s2 => simp [isTrueArm, MatchArm.pattern]
    | literal l s2 =>
      cases l with
      | bool bv => cases bv <;> simp [isTrueArm, MatchArm.pattern]
      | int v => simp [isTrueArm, MatchArm.pattern]
      | str v => simp [isTrueArm, MatchArm.pattern]
      | unit => simp [isTrueArm, MatchArm.pattern]

theorem isFalseArm_iff (a : MatchArm) :
    isFalseArm a = true ↔ ∃ s, a.pattern = Pat.literal (Lit.bool false) s := by
  cases a with
  | mk p b s =>
    cases p with
    | wildcard s2 => simp [isFalseArm, MatchArm.pattern]
    | recordDestruct fs s2 => simp [isFalseArm, MatchArm.pattern]
    | literal l s2 =>
      cases l with
      | bool bv => cases bv <;> simp [isFalseArm, MatchArm.pattern]
      | int v => simp [isFalseArm, MatchArm.pattern]
      | str v => simp [isFalseArm, MatchArm.pattern]
      | unit => simp [isFalseArm, MatchArm.pattern]

/-- The empty type checker state over file 0. -/
def tcEmpty : TypeChecker := ⟨[], ⟨0⟩, [], []⟩

/-- The expression `match true { true => 1 }`. -/
def onlyTrueMatch : Expr :=
  Expr.matchE (Expr.literal (Lit.bool true) ⟨1, 2⟩)
    [MatchArm.mk (Pat.literal (Lit.bool true) ⟨1, 2⟩) (Expr.literal (Lit.int 1) ⟨1, 2⟩) ⟨1, 2⟩]
    ⟨1, 2⟩

/-- The expression `match true { true => 1, false => 2 }`. -/
def bothArmsMatch : Expr :=
  Expr.matchE (Expr.literal (Lit.bool true) ⟨1, 2⟩)
    [MatchArm.mk (Pat.literal (Lit.bool true) ⟨1, 2⟩) (Expr.literal (Lit.int 1) ⟨1, 2⟩) ⟨1, 2⟩,
     MatchArm.mk (Pat.literal (Lit.bool false) ⟨1, 2⟩) (Expr.literal (Lit.int 2) ⟨1, 2⟩) ⟨1, 2⟩]
    ⟨1, 2⟩

end Knox.Typecheck

/-- C8: `check_match_exhaustive` reports an exhaustiveness error iff the
arm list contains no wildcard pattern and it is not the case that the
scrutinee type is Bool with both a `true` arm and a `false` arm present;
in particular, type checking a match over Bool with only a `true` arm
pushes exactly the exhaustiveness diagnostic and fails, and one with both
Bool arms succeeds with no diagnostics. -/
theorem c8_match_exhaustive_error_iff :
    (∀ (tc : Knox.Typecheck.TypeChecker) (ty : Knox.Ast2.Ty)
        (arms : List Knox.Ast2.MatchArm) (sp : Knox.Span),
      ((Knox.Typecheck.check_match_exhaustive tc ty arms sp).2 = none) ↔
        ((¬ ∃ a ∈ arms, ∃ s, a.pattern = Knox.Ast2.Pat.wildcard s) ∧
          ¬(ty = Knox.Ast2.Ty.bool ∧
            (∃ a ∈ arms, ∃ s, a.pattern = Knox.Ast2.Pat.literal (Knox.Ast2.Lit.bool true) s) ∧
            (∃ a ∈ arms, ∃ s, a.pattern =
              Knox.Ast2.Pat.literal (Knox.Ast2.Lit.bool false) s)))) ∧
    ((Knox.Typecheck.checkExpr 9 Knox.Typecheck.tcEmpty [] Knox.Typecheck.onlyTrueMatch).2.2 =
        none ∧
      (Knox.Typecheck.checkExpr 9 Knox.Typecheck.tcEmpty []
          Knox.Typecheck.onlyTrueMatch).1.diagnostics =
        [Knox.Diagnostic.mkError "Match must be exhaustive (add _ arm or cover all cases)"
          (some ⟨⟨0⟩, ⟨1, 2⟩⟩)]) ∧
    ((Knox.Typecheck.checkExpr 9 Knox.Typecheck.tcEmpty [] Knox.Typecheck.bothArmsMatch).2.2 =
        some Knox.Ast2.Ty.int ∧
      (Knox.Typecheck.checkExpr 9 Knox.Typecheck.tcEmpty []
          Knox.Typecheck.bothArmsMatch).1.diagnostics = []) := by
  refine ⟨?_, ⟨by rfl, by rfl⟩, ⟨by rfl, by rfl⟩⟩
  intro tc ty arms sp
  unfold Knox.Typecheck.check_match_exhaustive
  by_cases hw : arms.any Knox.Typecheck.isWildcardArm = true
  · rw [if_pos hw]
    have hex : ∃ a ∈ arms, ∃ s, a.pattern = Knox.Ast2.Pat.wildcard s := by
      rcases List.any_eq_true.mp hw with ⟨a, ha, hpa⟩
      exact ⟨a, ha, (Knox.Typecheck.isWildcardArm_iff a).mp hpa⟩
    simp [hex]
  · rw [if_neg hw]
    have hnex : ¬ ∃ a ∈ arms, ∃ s, a.pattern = Knox.Ast2.Pat.wildcard s := by
      rintro ⟨a, ha, s, hs⟩
      exact hw (List.any_eq_true.mpr ⟨a, ha, (Knox.Typecheck.isWildcardArm_iff a).mpr ⟨s, hs⟩⟩)
    by_cases hb : ty = Knox.Ast2.Ty.bool
    · rw [if_pos hb]
      by_cases htf : (arms.any Knox.Typecheck.isTrueArm && arms.any Knox.Typecheck.isFalseArm)
          = true
      · rw [if_pos htf]
        have htf2 : arms.any Knox.Typecheck.isTrueArm = true ∧
            arms.any Knox.Typecheck.isFalseArm = true := by
          constructor <;> simp_all
        rcases htf2 with ⟨ht, hf⟩
        have h1 : ∃ a ∈ arms, ∃ s,
            a.pattern = Knox.Ast2.Pat.literal (Knox.Ast2.Lit.bool true) s := by
          rcases List.any_eq_true.mp ht with ⟨a, ha, hpa⟩
          exact ⟨a, ha, (Knox.Typecheck.isTrueArm_iff a).mp hpa⟩
        have h2 : ∃ a ∈ arms, ∃ s,
            a.pattern = Knox.Ast2.Pat.literal (Knox.Ast2.Lit.bool false) s := by
          rcases List.any_eq_true.mp hf with ⟨a, ha, hpa⟩
          exact ⟨a, ha, (Knox.Typecheck.isFalseArm_iff a).mp hpa⟩
        simp [hb, h1, h2]
      · rw [if_neg htf]
        refine iff_of_true rfl ⟨hnex, ?_⟩
        rintro ⟨-, h1, h2⟩
        apply htf
        have : arms.any Knox.Typecheck.isTrueArm = true ∧
            arms.any Knox.Typecheck.isFalseArm = true → (arms.any Knox.Typecheck.isTrueArm &&
            arms.any Knox.Typecheck.isFalseArm) = true := by
          intro hh
          simp [hh.1, hh.2]
        apply this
        constructor
        · rcases h1 with ⟨a, ha, s, hs⟩
          exact List.any_eq_true.mpr ⟨a, ha, (Knox.Typecheck.isTrueArm_iff a).mpr ⟨s, hs⟩⟩
        · rcases h2 with ⟨a, ha, s, hs⟩
          exact List.any_eq_true.mpr ⟨a, ha, (Knox.Typecheck.isFalseArm_iff a).mpr ⟨s, hs⟩⟩
    · rw [if_neg hb]
      refine iff_of_true rfl ⟨hnex, ?_⟩
      rintro ⟨hbb, -, -⟩
      exact hb hbb

theorem checkExpr_print_singleton (fuel : Nat) (tc : Knox.Typecheck.TypeChecker)
    (env : Knox.Typecheck.Env) (e : Knox.Ast2.Expr) (sp : Knox.Span) :
    Knox.Typecheck.checkExpr (fuel + 1) tc env (Knox.Ast2.Expr.call "print" [e] sp) =
      (match Knox.Typecheck.checkExpr fuel tc env e with
       | (tc, env, none) => (tc, env, none)
       | (tc, env, some argTy) =>
         if argTy ≠ Knox.Ast2.Ty.string then
           (Knox.Typecheck.pushErr tc "print argument must be string" sp, env, none)
         else (tc, env, some Knox.Ast2.Ty.unit)) := rfl

/-- C2 (amended): the type checker's `print` rule accepts a call
`print(x)` with exactly one argument of type String, giving the call type
Unit; any other arity is rejected with the arity diagnostic, and a
well-typed argument of any other type (including Int) is rejected with
the "print argument must be string" diagnostic. -/
theorem c2_print_accepts_string_only
    (fuel : Nat) (tc tc2 : Knox.Typecheck.TypeChecker)
    (env env2 : Knox.Typecheck.Env) (e : Knox.Ast2.Expr) (sp : Knox.Span) :
    (∀ args : List Knox.Ast2.Expr, args.length ≠ 1 →
      Knox.Typecheck.checkExpr (fuel + 1) tc env (Knox.Ast2.Expr.call "print" args sp) =
        (Knox.Typecheck.pushErr tc "print expects exactly one argument (string)" sp,
          env, none)) ∧
    (Knox.Typecheck.checkExpr fuel tc env e = (tc2, env2, some Knox.Ast2.Ty.string) →
      Knox.Typecheck.checkExpr (fuel + 1) tc env (Knox.Ast2.Expr.call "print" [e] sp) =
        (tc2, env2, some Knox.Ast2.Ty.unit)) ∧
    (∀ t : Knox.Ast2.Ty,
      Knox.Typecheck.checkExpr fuel tc env e = (tc2, env2, some t) → t ≠ Knox.Ast2.Ty.string →
      Knox.Typecheck.checkExpr (fuel + 1) tc env (Knox.Ast2.Expr.call "print" [e] sp) =
        (Knox.Typecheck.pushErr tc2 "print argument must be string" sp, env2, none)) := by
  refine ⟨?_, ?_, ?_⟩
  · intro args hlen
    match args, hlen with
    | [], _ => rfl
    | [a], h => exact absurd rfl h
    | a :: b :: rest, _ => rfl
  · intro h
    rw [checkExpr_print_singleton, h]
    simp
  · intro t h hne
    rw [checkExpr_print_singleton, h]
    simp only []
    rw [if_pos hne]

/-- Witness for C2 at `print("hi")`: the argument checks to String, so
the call checks to Unit. -/
theorem c2_print_accepts_string_only_witness :
    (Knox.Typecheck.checkExpr 1 Knox.Typecheck.tcEmpty []
        (Knox.Ast2.Expr.literal (Knox.Ast2.Lit.str "hi") ⟨3, 4⟩) =
      (Knox.Typecheck.tcEmpty, [], some Knox.Ast2.Ty.string)) ∧
    Knox.Typecheck.checkExpr 2 Knox.Typecheck.tcEmpty []
        (Knox.Ast2.Expr.call "print"
          [Knox.Ast2.Expr.literal (Knox.Ast2.Lit.str "hi") ⟨3, 4⟩] ⟨0, 4⟩) =
      (Knox.Typecheck.tcEmpty, [], some Knox.Ast2.Ty.unit) :=
  ⟨rfl, (c2_print_accepts_string_only 1 Knox.Typecheck.tcEmpty Knox.Typecheck.tcEmpty [] []
    (Knox.Ast2.Expr.literal (Knox.Ast2.Lit.str "hi") ⟨3, 4⟩) ⟨0, 4⟩).2.1 rfl⟩

/-- C2 (counterexample to the claim as stated): `print(42)` with an Int
argument is REJECTED by the type checker with "print argument must be
string", though the claim says Int arguments are accepted. -/
theorem c2_print_rejects_int :
    Knox.Typecheck.checkExpr 9 Knox.Typecheck.tcEmpty []
        (Knox.Ast2.Expr.call "print"
          [Knox.Ast2.Expr.literal (Knox.Ast2.Lit.int 42) ⟨18, 20⟩] ⟨12, 21⟩) =
      (⟨[Knox.Diagnostic.mkError "print argument must be string" (some ⟨⟨0⟩, ⟨12, 21⟩⟩)],
          ⟨0⟩, [], []⟩, [], none) := by
  rfl

namespace Knox.Ir

open Knox.Ast1
open Knox.Accessors

/-- IR instruction, from knox_syntax/src/ir.rs (`IrInstr`). -/
inductive IrInstr where
  | constInt (v : Int)
  | constString (ptr_local len_local data_id : Nat)
  | localGet (i : Nat)
  | localSet (i : Nat)
  | structAlloc (layout_id : Nat)
  | structSet (ptr field_offset value : Nat)
  | structSetStr (ptr field_offset ptr_val len_val : Nat)
  | structGet (ptr field_offset dest : Nat)
  | structGetStr (ptr field_offset ptr_dest len_dest : Nat)
  | call (fn_idx : Nat)
  | callStr (fn_idx ptr_dest len_dest : Nat)
  | printInt (l : Nat)
  | printStr (ptr len : Nat)
  | ret
  | retInt (l : Nat)
  | retStr (ptr len : Nat)
deriving DecidableEq, Repr

/-- `StructLayoutIr`, from knox_syntax/src/ir.rs. -/
structure StructLayoutIr where
  module : String
  struct_name : String
  fields : List (String × Ty × Nat)
  total_size : Nat
deriving DecidableEq, Repr

/-- `IrFunction`, from knox_syntax/src/ir.rs. -/
structure IrFunction where
  name : String
  params : List Ty
  locals : List Ty
  body : List IrInstr
deriving DecidableEq, Repr

/-- `Program`, from knox_syntax/src/ir.rs. -/
structure Program where
  functions : List IrFunction
  struct_layouts : List StructLayoutIr
  string_data : List String
deriving DecidableEq, Repr

/-- True for the three return-style instructions (`Return | ReturnInt |
ReturnStr`), the ones on which `emit_ir_function` sets its `done` flag. -/
def isReturnInstr : IrInstr → Bool
  | IrInstr.ret => true
  | IrInstr.retInt _ => true
  | IrInstr.retStr _ _ => true
  | _ => false

end Knox.Ir

namespace Knox.Lower

open Knox.Ast1
open Knox.Accessors
open Knox.Ir

/-- Association lookup over any decidable key, modelling `HashMap::get`. -/
def alistGet {κ α : Type} [DecidableEq κ] : List (κ × α) → κ → Option α
  | [], _ => none
  | (k, v) :: rest, key => if k = key then some v else alistGet rest key

/-- Read-only context of `lower_expr_to_local` / `lower_stmt`
(to_ir.rs): dependency modules, layout-id map, layouts, and the
accessor function-index map keyed by (module, struct, field, is_getter). -/
structure LowCtx where
  deps : List (String × Root)
  layout_id : List ((String × String) × Nat)
  struct_layouts : List StructLayoutIr
  func_index : List ((String × String × String × Bool) × Nat)

/-- Mutable state threaded through lowering: emitted instructions, local
table, the variable maps, and collected string data. -/
structure LowSt where
  out : List IrInstr
  local_types : List Ty
  var_to_local : List (String × Nat)
  var_to_type : List (String × (String × String))
  string_data : List String
deriving Repr

/-- `next_local` (to_ir.rs lines 179-183): append an Int slot and return
its index. -/
def next_local (st : LowSt) : Nat × LowSt :=
  (st.local_types.length, { st with local_types := st.local_types ++ [Ty.int] })

/-- Append instructions to the output. -/
def emit (st : LowSt) (is : List IrInstr) : LowSt :=
  { st with out := st.out ++ is }

/-- `resolve_receiver_type` (to_ir.rs lines 553-566). -/
def resolve_receiver_type (receiver : Expr) (var_to_type : List (String × (String × String))) :
    Except String (String × String) :=
  match receiver with
  | Expr.ident _ name =>
    match alistGet var_to_type name with
    | some v => Except.ok v
    | none => Except.error ("variable " ++ name ++ " has unknown type (not a struct literal?)")
  | _ => Except.error "receiver must be ident"

/-- The field scan of `is_getter_string`: the first field with the given
name decides; `none` = keep searching. -/
def fieldIsString (fields : List StructField) (field_name : String) : Option Bool :=
  match fields with
  | [] => none
  | f :: rest =>
    if f.name = field_name then some (f.ty = Ty.string)
    else fieldIsString rest field_name

/-- The item scan of `is_getter_string`. -/
def itemsGetterString (items : List Item) (struct_name field_name : String) : Option Bool :=
  match items with
  | [] => none
  | Item.structI s :: rest =>
    if s.name = struct_name then
      match fieldIsString s.fields field_name with
      | some b => some b
      | none => itemsGetterString rest struct_name field_name
    else itemsGetterString rest struct_name field_name
  | _ :: rest => itemsGetterString rest struct_name field_name

/-- `is_getter_string` (to_ir.rs lines 568-591). -/
def is_getter_string (deps : List (String × Root)) (module struct_name field_name : String) :
    Bool :=
  match deps with
  | [] => false
  | (mod_name, root) :: rest =>
    if mod_name ≠ module then is_getter_string rest module struct_name field_name
    else
      match itemsGetterString root.items struct_name field_name with
      | some b => b
      | none => is_getter_string rest module struct_name field_name

mutual
/-- `lower_expr_to_local` (to_ir.rs lines 293-551), with fuel bounding the
expression recursion depth.  Lower `e` so its value ends up in local
`dest`. -/
def lowerExpr : Nat → LowCtx → Expr → Nat → LowSt → Except String LowSt
  | 0, _, _, _, _ => Except.error "out of fuel"
  | fuel + 1, ctx, e, dest, st =>
    match e with
    | Expr.intLiteral _ v => Except.ok (emit st [IrInstr.constInt v, IrInstr.localSet dest])
    | Expr.stringLiteral _ value =>
      let data_id := st.string_data.length
      let st := { st with string_data := st.string_data ++ [value] }
      let (len_local, st) := next_local st
      Except.ok (emit st [IrInstr.constString dest len_local data_id])
    | Expr.structLiteral _ path fields =>
      -- `path.len() != 2` guard then `path[0]`, `path[1]`
      match path with
      | [m, sn] =>
        match alistGet ctx.layout_id (m, sn) with
        | none => Except.error ("layout not found for " ++ m ++ "::" ++ sn)
        | some lid =>
          match ctx.struct_layouts.find? (fun l => l.module = m ∧ l.struct_name = sn) with
          | none => Except.error ("struct layout not found for " ++ m ++ "::" ++ sn)
          | some layout =>
            let st := emit st [IrInstr.structAlloc lid, IrInstr.localSet dest]
            lowerFieldsLoop fuel ctx layout dest fields st
      | _ => Except.error "struct literal path must be module::Struct"
    | Expr.ident _ name =>
      match alistGet st.var_to_local name with
      | some l => Except.ok (emit st [IrInstr.localGet l, IrInstr.localSet dest])
      | none => Except.error ("variable not found: " ++ name)
    | Expr.call _ receiver name args =>
      if name = "print" && receiver.isNone then
        match args with
        | [arg0] => lowerPrintArg fuel ctx arg0 st
        | _ => lowerCallGeneric fuel ctx receiver name args dest st
      else lowerCallGeneric fuel ctx receiver name args dest st
    | _ => Except.error "unsupported expression"

/-- The `print` argument cases of `lower_expr_to_local` (to_ir.rs lines
391-465): string literal, getter method call, or fallback PrintInt. -/
def lowerPrintArg : Nat → LowCtx → Expr → LowSt → Except String LowSt
  | 0, _, _, _ => Except.error "out of fuel"
  | fuel + 1, ctx, arg0, st =>
    match arg0 with
    | Expr.stringLiteral _ value =>
      let (ptr_local, st) := next_local st
      let (len_local, st) := next_local st
      let data_id := st.string_data.length
      let st := { st with string_data := st.string_data ++ [value] }
      Except.ok (emit st [IrInstr.constString ptr_local len_local data_id,
        IrInstr.printStr ptr_local len_local])
    | Expr.call _ (some receiverE) method margs =>
      if margs.isEmpty then do
        let (arg_local, st) := next_local st
        let (rec_local, st) := next_local st
        let st ← lowerExpr fuel ctx receiverE rec_local st
        let p ← resolve_receiver_type receiverE st.var_to_type
        match alistGet ctx.func_index (p.1, p.2, method, true) with
        | none => Except.error ("getter not found: " ++ method ++ " for " ++ p.2)
        | some idx =>
          if is_getter_string ctx.deps p.1 p.2 method then
            let (len_local, st) := next_local st
            Except.ok (emit st [IrInstr.localGet rec_local,
              IrInstr.callStr idx arg_local len_local, IrInstr.printStr arg_local len_local])
          else
            Except.ok (emit st [IrInstr.localGet rec_local, IrInstr.call idx,
              IrInstr.localSet arg_local, IrInstr.printInt arg_local])
      else do
        let (arg_local, st) := next_local st
        let st ← lowerExpr fuel ctx arg0 arg_local st
        Except.ok (emit st [IrInstr.printInt arg_local])
    | _ => do
      let (arg_local, st) := next_local st
      let st ← lowerExpr fuel ctx arg0 arg_local st
      Except.ok (emit st [IrInstr.printInt arg_local])

/-- The non-print call cases of `lower_expr_to_local` (to_ir.rs lines
468-546): setter method, getter method, otherwise unsupported. -/
def lowerCallGeneric : Nat → LowCtx → Option Expr → String → List Expr → Nat → LowSt →
    Except String LowSt
  | 0, _, _, _, _, _, _ => Except.error "out of fuel"
  | fuel + 1, ctx, receiver?, name, args, dest, st =>
    match receiver? with
    | some receiverE =>
      if name.startsWith "set_" then
        match args with
        | [arg] => do
          let field := name.drop 4
          let (rec_local, st) := next_local st
          let st ← lowerExpr fuel ctx receiverE rec_local st
          let (val_local, st) := next_local st
          let st ← lowerExpr fuel ctx arg val_local st
          let p ← resolve_receiver_type receiverE st.var_to_type
          match alistGet ctx.func_index (p.1, p.2, field, false) with
          | none => Except.error ("setter not found: set_" ++ field ++ " for " ++ p.2)
          | some idx =>
            Except.ok (emit st [IrInstr.localGet rec_local, IrInstr.localGet val_local,
              IrInstr.call idx])
        | _ => lowerCallTailGetter fuel ctx receiverE name dest st
      else lowerCallTailGetter fuel ctx receiverE name dest st
    | none => Except.error ("unsupported call: " ++ name)

/-- The getter-resolution tail of the call case (to_ir.rs lines 511-541),
falling through to the "unsupported call" error. -/
def lowerCallTailGetter : Nat → LowCtx → Expr → String → Nat → LowSt → Except String LowSt
  | 0, _, _, _, _, _ => Except.error "out of fuel"
  | fuel + 1, ctx, receiverE, name, dest, st => do
    let p ← resolve_receiver_type receiverE st.var_to_type
    match alistGet ctx.func_index (p.1, p.2, name, true) with
    | some idx => do
      let (rec_local, st) := next_local st
      let st ← lowerExpr fuel ctx receiverE rec_local st
      if is_getter_string ctx.deps p.1 p.2 name then
        let (len_local, st) := next_local st
        Except.ok (emit st [IrInstr.localGet rec_local, IrInstr.callStr idx dest len_local])
      else
        Except.ok (emit st [IrInstr.localGet rec_local, IrInstr.call idx,
          IrInstr.localSet dest])
    | none => Except.error ("unsupported call: " ++ name)

/-- The per-field loop of the struct-literal case (to_ir.rs lines
336-376). -/
def lowerFieldsLoop : Nat → LowCtx → StructLayoutIr → Nat → List (String × Expr) → LowSt →
    Except String LowSt
  | 0, _, _, _, _, _ => Except.error "out of fuel"
  | fuel + 1, ctx, layout, dest, fields, st =>
    match fields with
    | [] => Except.ok st
    | (fname, fexpr) :: rest =>
      match layout.fields.find? (fun x => x.1 = fname) with
      | none => Except.error ("field " ++ fname ++ " not in " ++ layout.module ++ "::" ++
          layout.struct_name)
      | some fdata =>
        if fdata.2.1 = Ty.string then
          let (ptr_local, st) := next_local st
          let (len_local, st) := next_local st
          match fexpr with
          | Expr.stringLiteral _ value =>
            let data_id := st.string_data.length
            let st := { st with string_data := st.string_data ++ [value] }
            let st := emit st [IrInstr.constString ptr_local len_local data_id,
              IrInstr.structSetStr dest fdata.2.2 ptr_local len_local]
            lowerFieldsLoop fuel ctx layout dest rest st
          | _ => Except.error "string field in struct literal must be a string literal"
        else do
          let (val_local, st) := next_local st
          let st ← lowerExpr fuel ctx fexpr val_local st
          let st := emit st [IrInstr.structSet dest fdata.2.2 val_local]
          lowerFieldsLoop fuel ctx layout dest rest st
end

/-- `lower_stmt` (to_ir.rs lines 211-290). -/
def lower_stmt (fuel : Nat) (ctx : LowCtx) (stmt : Stmt) (st : LowSt) :
    Except String LowSt :=
  match stmt with
  | Stmt.letS _ _mut name _ty init =>
    let (localIdx, st) := next_local st
    let st := { st with var_to_local := (name, localIdx) :: st.var_to_local }
    let st :=
      match init with
      | Expr.structLiteral _ path _ =>
        match path with
        | [m, sn] => { st with var_to_type := (name, (m, sn)) :: st.var_to_type }
        | _ => st
      | _ => st
    lowerExpr fuel ctx init localIdx st
  | Stmt.exprS _ e =>
    let (tmp, st) := next_local st
    lowerExpr fuel ctx e tmp st
  | Stmt.ret _ (some e) => do
    let (tmp, st) := next_local st
    let st ← lowerExpr fuel ctx e tmp st
    Except.ok (emit st [IrInstr.retInt tmp])
  | Stmt.ret _ none => Except.ok (emit st [IrInstr.ret])

/-- The statement loop of `lower_function` (to_ir.rs lines 185-199). -/
def lowerStmtsLoop (fuel : Nat) (ctx : LowCtx) : List Stmt → LowSt → Except String LowSt
  | [], st => Except.ok st
  | s :: rest, st => do
    let st ← lower_stmt fuel ctx s st
    lowerStmtsLoop fuel ctx rest st

/-- `lower_function` (to_ir.rs lines 160-209): lower the body statements,
then unconditionally append a trailing `Return`; locals are the local
table beyond the parameters.  Returns the function and the grown string
data. -/
def initLowSt (params : List Param) (string_data : List String) : LowSt :=
  { out := [],
    local_types := params.map (fun p => p.ty),
    var_to_local := params.enum.foldl (fun m x => (x.2.name, x.1) :: m) [],
    var_to_type := [],
    string_data := string_data }

def lower_function (fuel : Nat) (name : String) (params : List Param) (body : Block)
    (ctx : LowCtx) (string_data : List String) : Except String (IrFunction × List String) := do
  let st ← lowerStmtsLoop fuel ctx body.stmts (initLowSt params string_data)
  Except.ok (⟨name, params.map (fun p => p.ty),
    (emit st [IrInstr.ret]).local_types.drop params.length, (emit st [IrInstr.ret]).out⟩,
    (emit st [IrInstr.ret]).string_data)

/-- Stable insertion used to model Rust's stable `sort_by`: for a total
comparator both produce the same ordering. -/
def stableInsert {α : Type} (le : α → α → Bool) (x : α) : List α → List α
  | [] => [x]
  | y :: ys => if le y x then y :: stableInsert le x ys else x :: y :: ys

/-- A stable sort modelling `accessor_list.sort_by(...)` in to_ir.rs. -/
def stableSort {α : Type} (le : α → α → Bool) (l : List α) : List α :=
  l.foldl (fun acc x => stableInsert le x acc) []

def boolLt (a b : Bool) : Bool := !a && b

/-- The comparator of to_ir.rs lines 57-64: lexicographic on
`(module, struct_name, !is_get, field_name)`. -/
def accLe (x y : AccessorSpec × Bool) : Bool :=
  decide (x.1.module < y.1.module) ||
    (decide (x.1.module = y.1.module) &&
      (decide (x.1.struct_name < y.1.struct_name) ||
        (decide (x.1.struct_name = y.1.struct_name) &&
          (boolLt (!x.2) (!y.2) ||
            (decide ((!x.2) = (!y.2)) &&
              decide (x.1.field_name ≤ y.1.field_name))))))

/-- One entry per getter and per setter (to_ir.rs lines 44-56). -/
def accessorList (accessors : List AccessorSpec) : List (AccessorSpec × Bool) :=
  (accessors.map (fun a =>
    (if a.get then [(a, true)] else []) ++ (if a.set then [(a, false)] else []))).flatten

/-- The `func_index` map (to_ir.rs lines 66-78): accessor keys to indices
starting at 1 (main = 0); inserts are modelled by prepending. -/
def buildFuncIndex (sorted : List (AccessorSpec × Bool)) :
    List ((String × String × String × Bool) × Nat) :=
  (sorted.foldl
    (fun (acc : List ((String × String × String × Bool) × Nat) × Nat) x =>
      (((x.1.module, x.1.struct_name, x.1.field_name, x.2), acc.2) :: acc.1, acc.2 + 1))
    ([], 1)).1

/-- The accessor-lowering loop of `lower_to_ir` (to_ir.rs lines
100-151): each getter/setter becomes a two-instruction body ending in a
return instruction. -/
def accFnsLoop (layouts : List StructLayoutIr)
    (layout_id : List ((String × String) × Nat)) :
    List (AccessorSpec × Bool) → Except String (List IrFunction)
  | [] => Except.ok []
  | (a, is_getter) :: rest =>
    match alistGet layout_id (a.module, a.struct_name) with
    | none => Except.error ("layout not found for " ++ a.module ++ "/" ++ a.struct_name)
    | some lid => do
      -- `program.struct_layouts[lid]`: lid comes from the enumeration map,
      -- so it is always in bounds; getD keeps the model total.
      let layout := layouts.getD lid ⟨"", "", [], 0⟩
      let byte_offset :=
        ((layout.fields.find? (fun x => x.1 = a.field_name)).getD (a.field_name, a.ty, 0)).2.2
      let body :=
        if is_getter then
          if a.ty = Ty.string then
            [IrInstr.structGetStr 0 byte_offset 1 2, IrInstr.retStr 1 2]
          else [IrInstr.structGet 0 byte_offset 1, IrInstr.retInt 1]
        else [IrInstr.structSet 0 byte_offset 1, IrInstr.ret]
      let params := if is_getter then [Ty.int] else [Ty.int, Ty.int]
      let locals :=
        if is_getter then
          if a.ty = Ty.string then [Ty.int, Ty.int] else [Ty.int]
        else []
      let name :=
        if is_getter then a.module ++ "_" ++ a.struct_name ++ "_" ++ a.field_name
        else a.module ++ "_" ++ a.struct_name ++ "_set_" ++ a.field_name
      let rest2 ← accFnsLoop layouts layout_id rest
      Except.ok (⟨name, params, locals, body⟩ :: rest2)

/-- Step 1 of `lower_to_ir`: copy the struct layouts into IR form. -/
def mkStructLayoutsIr (layouts : List StructLayout) : List StructLayoutIr :=
  layouts.map (fun l => ⟨l.module, l.struct_name, l.fields, l.total_size⟩)

/-- The sorted accessor list of `lower_to_ir` (to_ir.rs lines 44-64). -/
def sortedAccessors (accessors : List AccessorSpec) : List (AccessorSpec × Bool) :=
  stableSort accLe (accessorList accessors)

/-- The `layout_id` map of `lower_to_ir` (to_ir.rs lines 80-85); inserts
are modelled by prepending. -/
def mkLayoutIdMap (layouts : List StructLayout) : List ((String × String) × Nat) :=
  (mkStructLayoutsIr layouts).enum.foldl
    (fun acc x => ((x.2.module, x.2.struct_name), x.1) :: acc) []

/-- The lowering context assembled by `lower_to_ir`. -/
def mkCtx (deps : List (String × Root)) (layouts : List StructLayout)
    (accessors : List AccessorSpec) : LowCtx :=
  ⟨deps, mkLayoutIdMap layouts, mkStructLayoutsIr layouts,
    buildFuncIndex (sortedAccessors accessors)⟩

/-- `lower_to_ir` (to_ir.rs lines 11-154): copy layouts, find `main`,
lower it first, then the accessors in the deterministic order. -/
def lower_to_ir (fuel : Nat) (main_root : Root) (deps : List (String × Root))
    (layouts : List StructLayout) (accessors : List AccessorSpec) :
    Except String Program :=
  match main_root.items.findSome?
      (fun i => match i with
        | Item.fnI f => if f.name = "main" then some f else none
        | _ => none) with
  | none => Except.error "main function not found"
  | some main_fn => do
    let p ← lower_function fuel main_fn.name main_fn.params main_fn.body
      (mkCtx deps layouts accessors) []
    let accFns ← accFnsLoop (mkStructLayoutsIr layouts) (mkLayoutIdMap layouts)
      (sortedAccessors accessors)
    Except.ok ⟨p.1 :: accFns, mkStructLayoutsIr layouts, p.2⟩

end Knox.Lower

namespace Knox.Lower

open Knox.Ast1
open Knox.Accessors
open Knox.Ir

theorem except_bind_ok {α β : Type} (a : α) (k : α → Except String β) :
    (bind (Except.ok a) k : Except String β) = k a := rfl

theorem except_bind_err {α β : Type} (e : String) (k : α → Except String β) :
    (bind (Except.error e : Except String α) k : Except String β) = Except.error e := rfl

theorem accFnsLoop_ends_with_return (layouts : List StructLayoutIr)
    (layout_id : List ((String × String) × Nat)) :
    ∀ (l : List (AccessorSpec × Bool)) (fs : List IrFunction),
    accFnsLoop layouts layout_id l = Except.ok fs →
    ∀ f ∈ fs, f.body ≠ [] ∧
      (∃ last, f.body.getLast? = some last ∧ isReturnInstr last = true) ∧
      f.body.any isReturnInstr = true := by
  intro l
  induction l with
  | nil =>
    intro fs h f hf
    unfold accFnsLoop at h
    cases h
    simp at hf
  | cons x rest ih =>
    intro fs h f hf
    obtain ⟨a, is_getter⟩ := x
    unfold accFnsLoop at h
    split at h
    · exact Except.noConfusion h
    · rcases hr : accFnsLoop layouts layout_id rest with e | rest2
      · rw [hr] at h
        simp only [Knox.Lower.except_bind_ok, Knox.Lower.except_bind_err] at h
        exact Except.noConfusion h
      · rw [hr] at h
        simp only [Knox.Lower.except_bind_ok, Knox.Lower.except_bind_err] at h
        cases h
        rcases List.mem_cons.mp hf with rfl | hf2
        · cases is_getter with
          | false =>
            refine ⟨?_, ⟨IrInstr.ret, ?_, rfl⟩, ?_⟩ <;>
              first
                | rfl
                | simp [isReturnInstr]
          | true =>
            by_cases hty : a.ty = Ty.string
            · refine ⟨?_, ⟨IrInstr.retStr 1 2, ?_, rfl⟩, ?_⟩ <;>
                first
                  | (simp only [if_pos hty]; rfl)
                  | simp [hty, isReturnInstr]
            · refine ⟨?_, ⟨IrInstr.retInt 1, ?_, rfl⟩, ?_⟩ <;>
                first
                  | (simp only [if_neg hty]; rfl)
                  | simp [hty, isReturnInstr]
        · exact ih rest2 hr f hf2

end Knox.Lower

/-- C10: for every successful run of `lower_to_ir`, every IR function in
the resulting program has a non-empty body whose last instruction is
Return, ReturnInt or ReturnStr (lower_function unconditionally appends a
trailing Return, and every generated accessor body ends with a return
instruction); since each body therefore contains a return instruction,
the Wasm emitter's fallback end-without-return path is never taken for
lowered programs. -/
theorem c10_lowered_functions_end_with_return
    (fuel : Nat) (main_root : Knox.Ast1.Root) (deps : List (String × Knox.Ast1.Root))
    (layouts : List Knox.Accessors.StructLayout)
    (accessors : List Knox.Accessors.AccessorSpec) (prog : Knox.Ir.Program)
    (h : Knox.Lower.lower_to_ir fuel main_root deps layouts accessors = Except.ok prog) :
    ∀ f ∈ prog.functions, f.body ≠ [] ∧
      (∃ last, f.body.getLast? = some last ∧ Knox.Ir.isReturnInstr last = true) ∧
      f.body.any Knox.Ir.isReturnInstr = true := by
  unfold Knox.Lower.lower_to_ir at h
  split at h
  · exact Except.noConfusion h
  · rename_i main_fn hmf
    rcases hlf : Knox.Lower.lower_function fuel main_fn.name main_fn.params main_fn.body
        (Knox.Lower.mkCtx deps layouts accessors) [] with e | p
    · rw [hlf] at h
      simp only [Knox.Lower.except_bind_ok, Knox.Lower.except_bind_err] at h
      exact Except.noConfusion h
    · rw [hlf] at h
      simp only [Knox.Lower.except_bind_ok, Knox.Lower.except_bind_err] at h
      rcases hacc : Knox.Lower.accFnsLoop (Knox.Lower.mkStructLayoutsIr layouts)
          (Knox.Lower.mkLayoutIdMap layouts) (Knox.Lower.sortedAccessors accessors)
          with e | accFns
      · rw [hacc] at h
        simp only [Knox.Lower.except_bind_ok, Knox.Lower.except_bind_err] at h
        exact Except.noConfusion h
      · rw [hacc] at h
        simp only [Knox.Lower.except_bind_ok, Knox.Lower.except_bind_err] at h
        cases h
        intro f hf
        simp only [] at hf
        rcases List.mem_cons.mp hf with rfl | hf2
        · -- the lowered main function: body = out ++ [Return]
          unfold Knox.Lower.lower_function at hlf
          rcases hsl : Knox.Lower.lowerStmtsLoop fuel (Knox.Lower.mkCtx deps layouts accessors)
              main_fn.body.stmts (Knox.Lower.initLowSt main_fn.params []) with e | stv
          · rw [hsl] at hlf
            simp only [Knox.Lower.except_bind_ok, Knox.Lower.except_bind_err] at hlf
            exact Except.noConfusion hlf
          · rw [hsl] at hlf
            simp only [Knox.Lower.except_bind_ok, Knox.Lower.except_bind_err] at hlf
            cases hlf
            refine ⟨by simp [Knox.Lower.emit], ⟨Knox.Ir.IrInstr.ret, ?_, rfl⟩, ?_⟩
            · simp [Knox.Lower.emit]
            · simp [Knox.Lower.emit, Knox.Ir.isReturnInstr]
        · exact Knox.Lower.accFnsLoop_ends_with_return _ _ _ _ hacc f hf2

/-- A one-function source module `fn main() -> () { }` for exercising the
lowering. -/
def lowerDemoRoot : Knox.Ast1.Root :=
  ⟨[Knox.Ast1.Item.fnI
    ⟨⟨0, 0⟩, Knox.Ast1.Visibility.exported, "main", [], Knox.Ast1.Ty.unit, ⟨⟨0, 0⟩, []⟩⟩]⟩

/-- The IR program lowering produces for `lowerDemoRoot`. -/
def lowerDemoProg : Knox.Ir.Program :=
  ⟨[⟨"main", [], [], [Knox.Ir.IrInstr.ret]⟩], [], []⟩

/-- Witness for C10 at the concrete module `fn main() -> () { }`. -/
theorem c10_lowered_functions_end_with_return_witness :
    (Knox.Lower.lower_to_ir 1 lowerDemoRoot [] [] [] = Except.ok lowerDemoProg) ∧
    ∀ f ∈ lowerDemoProg.functions, f.body ≠ [] ∧
      (∃ last, f.body.getLast? = some last ∧ Knox.Ir.isReturnInstr last = true) ∧
      f.body.any Knox.Ir.isReturnInstr = true :=
  ⟨rfl, c10_lowered_functions_end_with_return 1 lowerDemoRoot [] [] [] lowerDemoProg rfl⟩

namespace Knox.Wasm

/-- Two's-complement wrap of an integer to the i32 range, the meaning of
`as i32` casts and of wrapping i32 arithmetic in the emitter and runtime. -/
def wrap32 (x : Int) : Int := (x + 2 ^ 31) % 2 ^ 32 - 2 ^ 31

/-- Interpret an i32 value as an unsigned memory address (u32). -/
def addr (a : Int) : Nat := (a % 2 ^ 32).toNat

/-- The Wasm instructions the Knox emitter uses (knox_codegen_wasm/src/lib.rs;
the `wasm_encoder::Instruction` arms that `emit_print_int_body`,
`emit_ir_function` and the `_start` builder emit). `ifEmpty` is
`If(BlockType::Empty)` and `endI` is `End`. All loads and stores in the
emitter use offset 0 in their memarg, so the memarg is omitted. -/
inductive WInstr where
  | i32Const (v : Int)
  | localGet (i : Nat)
  | localSet (i : Nat)
  | localTee (i : Nat)
  | i32Add
  | i32RemS
  | i32DivS
  | i32LtS
  | i32GeS
  | i32Store8
  | i32Store
  | i32Load8U
  | i32Load
  | ifEmpty
  | endI
  | call (f : Nat)
  | drop
  | globalGet (g : Nat)
  | globalSet (g : Nat)
deriving DecidableEq, Repr

/-- Runtime data layout constants from `emit_from_ir` (lib.rs lines 41-46). -/
def RUNTIME_BASE : Nat := 8192

/-- `ITOA_OFF = RUNTIME_BASE` (lib.rs line 42). -/
def ITOA_OFF : Nat := RUNTIME_BASE

/-- `IOV_OFF = ITOA_OFF + 12` (lib.rs line 43). -/
def IOV_OFF : Nat := ITOA_OFF + 12

/-- `NEWLINE_OFF = IOV_OFF + 16` (lib.rs line 44). -/
def NEWLINE_OFF : Nat := IOV_OFF + 16

/-- `NWRITTEN_OFF = NEWLINE_OFF + 4` (lib.rs line 45). -/
def NWRITTEN_OFF : Nat := NEWLINE_OFF + 4

/-- `BUMP_INITIAL = NWRITTEN_OFF + 4` (lib.rs line 46), the initial value of
global 0, the bump allocator pointer. -/
def BUMP_INITIAL : Nat := NWRITTEN_OFF + 4

/-- The instruction sequence of `emit_print_int_body` (lib.rs lines 203-275),
in emission order, including the trailing function `End`. -/
def emit_print_int_body (itoa_off iov_off newline_off nwritten_off : Nat) :
    List WInstr :=
  [WInstr.localGet 0,
   WInstr.i32Const 10,
   WInstr.i32RemS,
   WInstr.i32Const 48,
   WInstr.i32Add,
   WInstr.localSet 1,
   WInstr.i32Const ((itoa_off : Int) + 1),
   WInstr.localGet 1,
   WInstr.i32Store8,
   WInstr.localGet 0,
   WInstr.i32Const 10,
   WInstr.i32DivS,
   WInstr.i32Const 48,
   WInstr.i32Add,
   WInstr.localSet 1,
   WInstr.i32Const (itoa_off : Int),
   WInstr.localGet 1,
   WInstr.i32Store8,
   WInstr.localGet 0,
   WInstr.i32Const 10,
   WInstr.i32LtS,
   WInstr.ifEmpty,
   WInstr.i32Const ((itoa_off : Int) + 1),
   WInstr.i32Load8U,
   WInstr.localSet 1,
   WInstr.i32Const (itoa_off : Int),
   WInstr.localGet 1,
   WInstr.i32Store8,
   WInstr.endI,
   WInstr.i32Const 1,
   WInstr.localGet 0,
   WInstr.i32Const 10,
   WInstr.i32GeS,
   WInstr.i32Add,
   WInstr.localTee 1,
   WInstr.drop,
   WInstr.i32Const (iov_off : Int),
   WInstr.i32Const (itoa_off : Int),
   WInstr.i32Store,
   WInstr.i32Const ((iov_off : Int) + 4),
   WInstr.localGet 1,
   WInstr.i32Store,
   WInstr.i32Const 1,
   WInstr.i32Const (iov_off : Int),
   WInstr.i32Const 1,
   WInstr.i32Const (nwritten_off : Int),
   WInstr.call 0,
   WInstr.drop,
   WInstr.i32Const (iov_off : Int),
   WInstr.i32Const (newline_off : Int),
   WInstr.i32Store,
   WInstr.i32Const ((iov_off : Int) + 4),
   WInstr.i32Const 1,
   WInstr.i32Store,
   WInstr.i32Const 1,
   WInstr.i32Const (iov_off : Int),
   WInstr.i32Const 1,
   WInstr.i32Const (nwritten_off : Int),
   WInstr.call 0,
   WInstr.drop,
   WInstr.endI]

/-- `string_offsets` accumulation from `emit_from_ir` (lib.rs lines 48-53):
offset of each string literal in the data segment, prefix sums of the
strings' byte lengths starting at 0. -/
def stringOffsetsGo : List String → Nat → List Nat
  | [], _ => []
  | s :: rest, off => off :: stringOffsetsGo rest (off + s.utf8ByteSize)

/-- The `string_offsets` vector for a data segment. -/
def stringOffsets (string_data : List String) : List Nat :=
  stringOffsetsGo string_data 0

/-- `(size + 3) & !3` on u32 (lib.rs line 365): round up to a multiple of 4. -/
def alignedSize (size : Nat) : Nat := (size + 3) / 4 * 4

/-- The body of `emit_ir_function` (lib.rs lines 312-447) as the list of Wasm
instructions it appends to the function: one arm per `IrInstr`, with the
`done` flag modelled by the return arms dropping the remaining instructions,
and the `if !done` fallback `End` as the nil case. -/
def emitBody (prog : Knox.Ir.Program) (offs : List Nat) (func_base : Nat) :
    List Knox.Ir.IrInstr → List WInstr
  | [] => [WInstr.endI]
  | instr :: rest =>
    match instr with
    | Knox.Ir.IrInstr.constInt v =>
        WInstr.i32Const (wrap32 v) :: emitBody prog offs func_base rest
    | Knox.Ir.IrInstr.constString ptr_local len_local data_id =>
        let ptr := offs.getD data_id 0
        let len := ((prog.string_data.get? data_id).map String.utf8ByteSize).getD 0
        WInstr.i32Const (ptr : Int) :: WInstr.localSet ptr_local ::
          WInstr.i32Const (len : Int) :: WInstr.localSet len_local ::
          emitBody prog offs func_base rest
    | Knox.Ir.IrInstr.localGet i =>
        WInstr.localGet i :: emitBody prog offs func_base rest
    | Knox.Ir.IrInstr.localSet i =>
        WInstr.localSet i :: emitBody prog offs func_base rest
    | Knox.Ir.IrInstr.structAlloc layout_id =>
        let size :=
          ((prog.struct_layouts.get? layout_id).map
            Knox.Ir.StructLayoutIr.total_size).getD 0
        WInstr.globalGet 0 :: WInstr.globalGet 0 ::
          WInstr.i32Const (alignedSize size : Int) :: WInstr.i32Add ::
          WInstr.globalSet 0 :: emitBody prog offs func_base rest
    | Knox.Ir.IrInstr.structSet ptr_local field_offset value_local =>
        WInstr.localGet ptr_local :: WInstr.i32Const (field_offset : Int) ::
          WInstr.i32Add :: WInstr.localGet value_local :: WInstr.i32Store ::
          emitBody prog offs func_base rest
    | Knox.Ir.IrInstr.structSetStr ptr_local field_offset ptr_val len_val =>
        WInstr.localGet ptr_local :: WInstr.i32Const (field_offset : Int) ::
          WInstr.i32Add :: WInstr.localGet ptr_val :: WInstr.i32Store ::
          WInstr.localGet ptr_local :: WInstr.i32Const ((field_offset : Int) + 4) ::
          WInstr.i32Add :: WInstr.localGet len_val :: WInstr.i32Store ::
          emitBody prog offs func_base rest
    | Knox.Ir.IrInstr.structGet ptr_local field_offset dest_local =>
        WInstr.localGet ptr_local :: WInstr.i32Const (field_offset : Int) ::
          WInstr.i32Add :: WInstr.i32Load :: WInstr.localSet dest_local ::
          emitBody prog offs func_base rest
    | Knox.Ir.IrInstr.structGetStr ptr_local field_offset ptr_dest len_dest =>
        WInstr.localGet ptr_local :: WInstr.i32Const (field_offset : Int) ::
          WInstr.i32Add :: WInstr.i32Load :: WInstr.localSet ptr_dest ::
          WInstr.localGet ptr_local :: WInstr.i32Const ((field_offset : Int) + 4) ::
          WInstr.i32Add :: WInstr.i32Load :: WInstr.localSet len_dest ::
          emitBody prog offs func_base rest
    | Knox.Ir.IrInstr.call ir_idx =>
        WInstr.call (func_base + ir_idx) :: emitBody prog offs func_base rest
    | Knox.Ir.IrInstr.callStr ir_idx ptr_dest len_dest =>
        WInstr.call (func_base + ir_idx) :: WInstr.localSet len_dest ::
          WInstr.localSet ptr_dest :: emitBody prog offs func_base rest
    | Knox.Ir.IrInstr.printInt l =>
        WInstr.localGet l :: WInstr.call 2 :: emitBody prog offs func_base rest
    | Knox.Ir.IrInstr.printStr ptr_local len_local =>
        WInstr.localGet ptr_local :: WInstr.localGet len_local ::
          WInstr.call 3 :: emitBody prog offs func_base rest
    | Knox.Ir.IrInstr.ret => [WInstr.endI]
    | Knox.Ir.IrInstr.retInt l => [WInstr.localGet l, WInstr.endI]
    | Knox.Ir.IrInstr.retStr ptr_local len_local =>
        [WInstr.localGet ptr_local, WInstr.localGet len_local, WInstr.endI]

/-- `emit_ir_function` for one IR function: its emitted code body. -/
def emit_ir_function (f : Knox.Ir.IrFunction) (prog : Knox.Ir.Program)
    (offs : List Nat) (func_base : Nat) : List WInstr :=
  emitBody prog offs func_base f.body

/-- The code bodies `emit_from_ir` emits for the program's own functions, in
order (lib.rs lines 143-159): `main_idx = 4` (two imports plus the two print
helpers come first), and the loop passes `main_idx + ir_idx` as `func_base`
for the function at position `ir_idx`. -/
def emit_from_ir_codes (prog : Knox.Ir.Program) : List (List WInstr) :=
  prog.functions.enum.map fun p =>
    emit_ir_function p.2 prog (stringOffsets prog.string_data) (4 + p.1)

end Knox.Wasm

namespace Knox.Wasm

/-- State of the straight-line Wasm machine used to run emitted code: value
stack, i32 locals, the mutable i32 globals (index 0 is the bump pointer,
initialised to `BUMP_INITIAL` by lib.rs lines 104-112), byte memory, and the
bytes written to stdout so far by `fd_write` on fd 1. -/
structure VmState where
  stack : List Int
  locals : List Int
  globals : Nat → Int
  mem : Nat → Nat
  out : List Nat

/-- Push a value on the stack. -/
def push (st : VmState) (v : Int) : VmState := { st with stack := v :: st.stack }

/-- Pop the top of the stack. Emitted code is stack-validated, so the stack
is never empty at a pop; the default 0 on an empty stack is never reached in
the runs below. -/
def pop (st : VmState) : Int × VmState :=
  match st.stack with
  | [] => (0, st)
  | v :: rest => (v, { st with stack := rest })

/-- Store one byte (i32.store8 wraps the value to 8 bits). -/
def write8 (mem : Nat → Nat) (a v : Nat) : Nat → Nat :=
  fun x => if x = a then v % 256 else mem x

/-- Little-endian 32-bit load of four bytes. -/
def read32 (mem : Nat → Nat) (a : Nat) : Nat :=
  mem a + 256 * mem (a + 1) + 65536 * mem (a + 2) + 16777216 * mem (a + 3)

/-- Little-endian 32-bit store of an i32 value as four bytes. -/
def write32 (mem : Nat → Nat) (a : Nat) (v : Int) : Nat → Nat :=
  fun x =>
    if x = a then (v % 2 ^ 32).toNat % 256
    else if x = a + 1 then (v % 2 ^ 32).toNat / 256 % 256
    else if x = a + 2 then (v % 2 ^ 32).toNat / 65536 % 256
    else if x = a + 3 then (v % 2 ^ 32).toNat / 16777216 % 256
    else mem x

/-- Concatenated bytes of a WASI iovec array: each iovec is 8 bytes, a
little-endian buffer pointer followed by a little-endian byte length. -/
def gatherIovs (mem : Nat → Nat) : Nat → Nat → List Nat
  | _, 0 => []
  | iovs, k + 1 =>
      (List.range (read32 mem (iovs + 4))).map (fun j => mem (read32 mem iovs + j))
        ++ gatherIovs mem (iovs + 8) k

/-- The `wasi_snapshot_preview1.fd_write` host call (imported function 0):
pops nwritten pointer, iovec count, iovec array pointer and fd, appends the
gathered bytes to the output, stores the byte count at the nwritten pointer
and pushes errno 0. -/
def fdWrite (st : VmState) : VmState :=
  let pn := pop st
  let pl := pop pn.2
  let pi := pop pl.2
  let pf := pop pi.2
  let bytes := gatherIovs pf.2.mem (addr pi.1) (Int.toNat pl.1)
  push { pf.2 with
          mem := write32 pf.2.mem (addr pn.1) (bytes.length : Int),
          out := pf.2.out ++ bytes } 0

/-- Skip forward past the `End` that closes the current block, for the
false branch of `If(BlockType::Empty)`; nested `If`s raise the depth. -/
def skipToEnd : List WInstr → Nat → List WInstr
  | [], _ => []
  | WInstr.endI :: rest, 0 => rest
  | WInstr.endI :: rest, d + 1 => skipToEnd rest d
  | WInstr.ifEmpty :: rest, d => skipToEnd rest (d + 1)
  | _ :: rest, d => skipToEnd rest d

/-- Fueled execution of a straight-line instruction sequence. `none` on fuel
exhaustion, signed division or remainder by zero (a Wasm trap), or a call to
anything but the `fd_write` import — so a `some` result is a complete, trap
free run. The final `End` of a function body falls through to the nil case,
which returns the state. -/
def exec : Nat → List WInstr → VmState → Option VmState
  | 0, _, _ => none
  | _ + 1, [], st => some st
  | fuel + 1, instr :: rest, st =>
    match instr with
    | WInstr.i32Const v => exec fuel rest (push st v)
    | WInstr.localGet j => exec fuel rest (push st (st.locals.getD j 0))
    | WInstr.localSet j =>
        let p := pop st
        exec fuel rest { p.2 with locals := p.2.locals.set j p.1 }
    | WInstr.localTee j =>
        let p := pop st
        exec fuel rest (push { p.2 with locals := p.2.locals.set j p.1 } p.1)
    | WInstr.i32Add =>
        let pb := pop st
        let pa := pop pb.2
        exec fuel rest (push pa.2 (wrap32 (pa.1 + pb.1)))
    | WInstr.i32RemS =>
        let pb := pop st
        let pa := pop pb.2
        if pb.1 = 0 then none
        else exec fuel rest (push pa.2 (Int.tmod pa.1 pb.1))
    | WInstr.i32DivS =>
        let pb := pop st
        let pa := pop pb.2
        if pb.1 = 0 then none
        else exec fuel rest (push pa.2 (wrap32 (Int.tdiv pa.1 pb.1)))
    | WInstr.i32LtS =>
        let pb := pop st
        let pa := pop pb.2
        exec fuel rest (push pa.2 (if pa.1 < pb.1 then 1 else 0))
    | WInstr.i32GeS =>
        let pb := pop st
        let pa := pop pb.2
        exec fuel rest (push pa.2 (if pb.1 ≤ pa.1 then 1 else 0))
    | WInstr.i32Store8 =>
        let pv := pop st
        let pa := pop pv.2
        exec fuel rest
          { pa.2 with mem := write8 pa.2.mem (addr pa.1) (Int.toNat (pv.1 % 256)) }
    | WInstr.i32Store =>
        let pv := pop st
        let pa := pop pv.2
        exec fuel rest { pa.2 with mem := write32 pa.2.mem (addr pa.1) pv.1 }
    | WInstr.i32Load8U =>
        let pa := pop st
        exec fuel rest (push pa.2 (pa.2.mem (addr pa.1) : Int))
    | WInstr.i32Load =>
        let pa := pop st
        exec fuel rest (push pa.2 (wrap32 (read32 pa.2.mem (addr pa.1) : Int)))
    | WInstr.ifEmpty =>
        let pc := pop st
        if pc.1 = 0 then exec fuel (skipToEnd rest 0) pc.2
        else exec fuel rest pc.2
    | WInstr.endI => exec fuel rest st
    | WInstr.call f => if f = 0 then exec fuel rest (fdWrite st) else none
    | WInstr.drop =>
        let p := pop st
        exec fuel rest p.2
    | WInstr.globalGet g => exec fuel rest (push st (st.globals g))
    | WInstr.globalSet g =>
        let p := pop st
        exec fuel rest
          { p.2 with globals := fun x => if x = g then p.1 else p.2.globals x }

/-- All-zero memory: Wasm linear memory pages start zeroed. -/
def zeroMem : Nat → Nat := fun _ => 0

/-- The memory-initialising prefix of `_start` (lib.rs lines 162-164): store
the newline byte 10 at `NEWLINE_OFF` before calling main. -/
def startNewlineStore : List WInstr :=
  [WInstr.i32Const (NEWLINE_OFF : Int), WInstr.i32Const 10, WInstr.i32Store8]

/-- Memory after `_start` has run its newline store on fresh memory. -/
def memAfterStart : Nat → Nat :=
  match exec 10 startNewlineStore
      ⟨[], [], fun _ => (BUMP_INITIAL : Int), zeroMem, []⟩ with
  | some st => st.mem
  | none => zeroMem

/-- The bytes the emitted `print_int` helper writes to stdout on argument
`n`, when run with the runtime offsets of `emit_from_ir` after `_start` has
stored the newline byte: local 0 holds the argument, local 1 is the helper's
one extra zero-initialised i32 local (lib.rs line 129). `none` would mean
the run trapped or did not finish. -/
def printIntOutput (n : Int) : Option (List Nat) :=
  (exec 100 (emit_print_int_body ITOA_OFF IOV_OFF NEWLINE_OFF NWRITTEN_OFF)
      ⟨[], [n, 0], fun _ => (BUMP_INITIAL : Int), memAfterStart, []⟩).map
    VmState.out

/-- Most-significant-first decimal digit bytes of `n`, as ASCII codes
(the reference meaning of "the decimal representation of n"). -/
def decimalDigitsRev : Nat → Nat → List Nat
  | 0, _ => []
  | fuel + 1, n =>
      if n < 10 then [48 + n] else (48 + n % 10) :: decimalDigitsRev fuel (n / 10)

/-- ASCII bytes of the decimal representation of `n`. -/
def decimalBytes (n : Nat) : List Nat := (decimalDigitsRev (n + 1) n).reverse

end Knox.Wasm

set_option maxRecDepth 10000

/-- C1: the print_int helper emitted by the code generator is correct for
every n in [0, 99] — running its emitted body under the WASI machine writes
exactly the decimal digit bytes of n followed by a newline to stdout — but
not on all of [0, 999]: the two-byte itoa buffer only holds two digits, so
the claim's range must shrink to [0, 99] (see the counterexample at 100). -/
theorem c1_print_int_correct_below_100 :
    ∀ n : Nat, n < 100 →
      Knox.Wasm.printIntOutput (n : Int) =
        some (Knox.Wasm.decimalBytes n ++ [10]) := by decide

/-- Witness for C1 at n = 42: the helper prints the bytes of "42\n". -/
theorem c1_print_int_correct_below_100_witness :
    Knox.Wasm.printIntOutput (42 : Int) =
      some (Knox.Wasm.decimalBytes 42 ++ [10]) :=
  c1_print_int_correct_below_100 42 (by decide)

/-- Counterexample to C1 as claimed for [0, 999]: at n = 100 the emitted
helper writes the bytes 58 48 10 (":0\n") — 100 div 10 = 10 makes the tens
byte 48 + 10 = 58 — instead of the decimal bytes 49 48 48 10 ("100\n"). -/
theorem c1_print_int_wrong_at_100 :
    Knox.Wasm.printIntOutput (100 : Int) = some [58, 48, 10] ∧
    Knox.Wasm.decimalBytes 100 ++ [10] = [49, 48, 48, 10] ∧
    some ([58, 48, 10] : List Nat) ≠ some [49, 48, 48, 10] := by
  refine ⟨by decide, by decide, by decide⟩

/-- A two-function IR program whose second function calls IR function 0:
the emitter should produce a call to Wasm index 0 + 4 = 4, the position of
IR function 0 in the module's function index space. -/
def c4Prog : Knox.Ir.Program :=
  ⟨[⟨"zero", [], [], [Knox.Ir.IrInstr.ret]⟩,
    ⟨"caller", [], [], [Knox.Ir.IrInstr.call 0, Knox.Ir.IrInstr.ret]⟩],
   [], []⟩

/-- C4: `emit_ir_function` does emit every IR `Call(i)` as a Wasm call to
`func_base + i` — but `emit_from_ir` passes `main_idx + ir_idx` = 4 + the
index of the CONTAINING function as `func_base`, not the constant 4, so a
`Call(0)` inside the function at position 1 is emitted as `call 5` instead
of `call 4`: the claimed "i + 4 regardless of which function contains the
call" fails, and cross-function calls resolve to the wrong Wasm index. -/
theorem c4_call_index_depends_on_containing_function :
    (∀ (prog : Knox.Ir.Program) (offs : List Nat) (base i : Nat)
        (rest : List Knox.Ir.IrInstr),
        Knox.Wasm.emitBody prog offs base (Knox.Ir.IrInstr.call i :: rest) =
          Knox.Wasm.WInstr.call (base + i) ::
            Knox.Wasm.emitBody prog offs base rest) ∧
    Knox.Wasm.emit_from_ir_codes c4Prog =
      [[Knox.Wasm.WInstr.endI],
       [Knox.Wasm.WInstr.call 5, Knox.Wasm.WInstr.endI]] ∧
    (5 : Nat) ≠ 0 + 4 :=
  ⟨fun _ _ _ _ _ => rfl, by decide, by decide⟩

namespace Knox.Parser

open Knox.Ast2

/-- Parser state, from knox_compiler/src/parser.rs `Parser`: the not yet
consumed tokens (the `Peekable<IntoIter<Token>>`) and `last_span`, the span
of the last consumed token (`Span::default()` = 0..0 initially). The unused
`file` field is dropped. -/
structure PState where
  tokens : List Knox.Token
  last_span : Knox.Span
deriving Repr

/-- Outcome of a parsing function: `Ok(a)` or `Err(msg)` with the resulting
parser state, a `panic!`/`unwrap`/`unreachable!` (to be proved unreachable),
or fuel exhaustion of the model. -/
inductive PRes (α : Type) where
  | ok (a : α) (st : PState)
  | err (msg : String) (st : PState)
  | panicked
  | noFuel

/-- True exactly for the panic outcome. -/
def isPanic {α : Type} : PRes α → Bool
  | PRes.panicked => true
  | _ => false

/-- Sequencing of the Rust `?` operator: errors, panics and fuel exhaustion
propagate, `Ok` continues. -/
def pbind {α β : Type} (r : PRes α) (f : α → PState → PRes β) : PRes β :=
  match r with
  | PRes.ok a st => f a st
  | PRes.err m st => PRes.err m st
  | PRes.panicked => PRes.panicked
  | PRes.noFuel => PRes.noFuel

/-- `Parser::peek`: the next token kind, `Eof` when no tokens remain. -/
def peek (st : PState) : Knox.TokenKind :=
  match st.tokens with
  | [] => Knox.TokenKind.eof
  | t :: _ => t.kind

/-- `Parser::next`: consume one token, updating `last_span`. -/
def pnext (st : PState) : Option (Knox.Token × PState) :=
  match st.tokens with
  | [] => none
  | t :: rest => some (t, ⟨rest, t.span⟩)

/-- Consume one token when present (the `self.next();` discard pattern). -/
def skipOne (st : PState) : PState :=
  match pnext st with
  | none => st
  | some (_, st2) => st2

/-- `self.tokens.peek().map(|t| t.span.start).unwrap_or(0)`. -/
def peekStart (st : PState) : Nat :=
  match st.tokens with
  | [] => 0
  | t :: _ => t.span.start

/-- `Parser::span_from`: a span from `start` to `last_span.end`. -/
def span_from (st : PState) (start : Nat) : Knox.Span :=
  ⟨start, st.last_span.stop⟩

/-- Discriminant of a token kind (`std::mem::discriminant`): equal for two
kinds exactly when they are the same variant, payloads ignored. -/
def kTag : Knox.TokenKind → Nat
  | Knox.TokenKind.intLitK _ => 0
  | Knox.TokenKind.strLitK _ => 1
  | Knox.TokenKind.trueK => 2
  | Knox.TokenKind.falseK => 3
  | Knox.TokenKind.identK _ => 4
  | Knox.TokenKind.fnK => 5
  | Knox.TokenKind.letK => 6
  | Knox.TokenKind.mutK => 7
  | Knox.TokenKind.ifK => 8
  | Knox.TokenKind.elseK => 9
  | Knox.TokenKind.matchK => 10
  | Knox.TokenKind.returnK => 11
  | Knox.TokenKind.structK => 12
  | Knox.TokenKind.importK => 13
  | Knox.TokenKind.pubK => 14
  | Knox.TokenKind.asK => 15
  | Knox.TokenKind.okK => 16
  | Knox.TokenKind.errK => 17
  | Knox.TokenKind.optionK => 18
  | Knox.TokenKind.resultK => 19
  | Knox.TokenKind.dynamicK => 20
  | Knox.TokenKind.someK => 21
  | Knox.TokenKind.noneK => 22
  | Knox.TokenKind.lparen => 23
  | Knox.TokenKind.rparen => 24
  | Knox.TokenKind.lbrace => 25
  | Knox.TokenKind.rbrace => 26
  | Knox.TokenKind.lbracket => 27
  | Knox.TokenKind.rbracket => 28
  | Knox.TokenKind.colon => 29
  | Knox.TokenKind.comma => 30
  | Knox.TokenKind.arrow => 31
  | Knox.TokenKind.fatArrow => 32
  | Knox.TokenKind.dot => 33
  | Knox.TokenKind.question => 34
  | Knox.TokenKind.pipeK => 35
  | Knox.TokenKind.underscore => 36
  | Knox.TokenKind.assign => 37
  | Knox.TokenKind.atK => 38
  | Knox.TokenKind.colonColon => 39
  | Knox.TokenKind.semicolon => 40
  | Knox.TokenKind.lt => 41
  | Knox.TokenKind.gt => 42
  | Knox.TokenKind.le => 43
  | Knox.TokenKind.ge => 44
  | Knox.TokenKind.eqeq => 45
  | Knox.TokenKind.ne => 46
  | Knox.TokenKind.plus => 47
  | Knox.TokenKind.minus => 48
  | Knox.TokenKind.star => 49
  | Knox.TokenKind.slash => 50
  | Knox.TokenKind.percent => 51
  | Knox.TokenKind.amp => 52
  | Knox.TokenKind.andAnd => 53
  | Knox.TokenKind.orOr => 54
  | Knox.TokenKind.notK => 55
  | Knox.TokenKind.eof => 56

/-- Rust `Debug` rendering of a token kind, used in the parser's `format!`
error messages ({:?}); variant names as parser.rs writes them. -/
def kDebug : Knox.TokenKind → String
  | Knox.TokenKind.intLitK n => "IntLiteral(" ++ toString n ++ ")"
  | Knox.TokenKind.strLitK s => "StringLiteral(" ++ "\"" ++ s ++ "\"" ++ ")"
  | Knox.TokenKind.trueK => "True"
  | Knox.TokenKind.falseK => "False"
  | Knox.TokenKind.identK s => "Ident(" ++ "\"" ++ s ++ "\"" ++ ")"
  | Knox.TokenKind.fnK => "Fn"
  | Knox.TokenKind.letK => "Let"
  | Knox.TokenKind.mutK => "Mut"
  | Knox.TokenKind.ifK => "If"
  | Knox.TokenKind.elseK => "Else"
  | Knox.TokenKind.matchK => "Match"
  | Knox.TokenKind.returnK => "Return"
  | Knox.TokenKind.structK => "Struct"
  | Knox.TokenKind.importK => "Import"
  | Knox.TokenKind.pubK => "Pub"
  | Knox.TokenKind.asK => "As"
  | Knox.TokenKind.okK => "Ok"
  | Knox.TokenKind.errK => "Err"
  | Knox.TokenKind.optionK => "Option"
  | Knox.TokenKind.resultK => "Result"
  | Knox.TokenKind.dynamicK => "Dynamic"
  | Knox.TokenKind.someK => "Some"
  | Knox.TokenKind.noneK => "None"
  | Knox.TokenKind.lparen => "LParen"
  | Knox.TokenKind.rparen => "RParen"
  | Knox.TokenKind.lbrace => "LBrace"
  | Knox.TokenKind.rbrace => "RBrace"
  | Knox.TokenKind.lbracket => "LBracket"
  | Knox.TokenKind.rbracket => "RBracket"
  | Knox.TokenKind.colon => "Colon"
  | Knox.TokenKind.comma => "Comma"
  | Knox.TokenKind.arrow => "Arrow"
  | Knox.TokenKind.fatArrow => "FatArrow"
  | Knox.TokenKind.dot => "Dot"
  | Knox.TokenKind.question => "Question"
  | Knox.TokenKind.pipeK => "Pipe"
  | Knox.TokenKind.underscore => "Underscore"
  | Knox.TokenKind.assign => "Assign"
  | Knox.TokenKind.atK => "At"
  | Knox.TokenKind.colonColon => "ColonColon"
  | Knox.TokenKind.semicolon => "Semicolon"
  | Knox.TokenKind.lt => "Lt"
  | Knox.TokenKind.gt => "Gt"
  | Knox.TokenKind.le => "Le"
  | Knox.TokenKind.ge => "Ge"
  | Knox.TokenKind.eqeq => "Eq"
  | Knox.TokenKind.ne => "Ne"
  | Knox.TokenKind.plus => "Plus"
  | Knox.TokenKind.minus => "Minus"
  | Knox.TokenKind.star => "Star"
  | Knox.TokenKind.slash => "Slash"
  | Knox.TokenKind.percent => "Percent"
  | Knox.TokenKind.amp => "Amp"
  | Knox.TokenKind.andAnd => "AndAnd"
  | Knox.TokenKind.orOr => "OrOr"
  | Knox.TokenKind.notK => "Not"
  | Knox.TokenKind.eof => "Eof"

/-- `Parser::expect`: consume one token and compare variants by
discriminant. -/
def expect (st : PState) (kind : Knox.TokenKind) : PRes Unit :=
  match pnext st with
  | none => PRes.err "Unexpected end of file" st
  | some (t, st2) =>
      if kTag t.kind = kTag kind then PRes.ok () st2
      else PRes.err ("Expected " ++ kDebug kind ++ ", got " ++ kDebug t.kind) st2

/-- An ASCII apostrophe as a string (the quotes in the semicolon message). -/
def sq : String := String.singleton (Char.ofNat 39)

/-- The message of `expect_semicolon_after_stmt`. -/
def semicolonErrMsg : String := "Expected " ++ sq ++ ";" ++ sq ++ " after statement"

/-- `Parser::expect_semicolon_after_stmt` (parser.rs lines 405-412). -/
def expect_semicolon_after_stmt (st : PState) : PRes Unit :=
  if peek st = Knox.TokenKind.semicolon then PRes.ok () (skipOne st)
  else PRes.err semicolonErrMsg st

/-- `Parser::parse_literal` (parser.rs lines 699-708). -/
def parse_literal (st : PState) : PRes Lit :=
  match pnext st with
  | none => PRes.err "Expected literal" st
  | some (t, st1) =>
    match t.kind with
    | Knox.TokenKind.intLitK n => PRes.ok (Lit.int n) st1
    | Knox.TokenKind.strLitK s => PRes.ok (Lit.str s) st1
    | Knox.TokenKind.trueK => PRes.ok (Lit.bool true) st1
    | Knox.TokenKind.falseK => PRes.ok (Lit.bool false) st1
    | _ => PRes.err "Expected literal" st1

end Knox.Parser

namespace Knox.Parser

open Knox.Ast2

/-- Result of `Parser::infix_binding_power` (parser.rs lines 419-461):
either a panic (the inner `unreachable!()` arms), no infix operator at
this token, or an operator with its left and right binding powers. -/
inductive BpRes where
  | panicBp
  | noOp
  | opBp (o : BinOp) (lbp rbp : Nat)
deriving DecidableEq, Repr

/-- `Parser::infix_binding_power`, on the peeked token kind. The Lt/Le/Gt/Ge
and Star/Slash/Percent arms re-match the kind with an `unreachable!()`
default, modelled as `panicBp`. -/
def binding_power (k : Knox.TokenKind) : BpRes :=
  match k with
  | Knox.TokenKind.orOr => BpRes.opBp BinOp.or 1 0
  | Knox.TokenKind.andAnd => BpRes.opBp BinOp.and 2 1
  | Knox.TokenKind.eqeq | Knox.TokenKind.ne =>
      if k = Knox.TokenKind.eqeq then BpRes.opBp BinOp.eq 3 2
      else BpRes.opBp BinOp.ne 3 2
  | Knox.TokenKind.lt | Knox.TokenKind.le | Knox.TokenKind.gt | Knox.TokenKind.ge =>
      match k with
      | Knox.TokenKind.lt => BpRes.opBp BinOp.lt 4 3
      | Knox.TokenKind.le => BpRes.opBp BinOp.le 4 3
      | Knox.TokenKind.gt => BpRes.opBp BinOp.gt 4 3
      | Knox.TokenKind.ge => BpRes.opBp BinOp.ge 4 3
      | _ => BpRes.panicBp
  | Knox.TokenKind.plus | Knox.TokenKind.minus =>
      if k = Knox.TokenKind.plus then BpRes.opBp BinOp.add 5 4
      else BpRes.opBp BinOp.sub 5 4
  | Knox.TokenKind.star | Knox.TokenKind.slash | Knox.TokenKind.percent =>
      match k with
      | Knox.TokenKind.star => BpRes.opBp BinOp.mul 6 5
      | Knox.TokenKind.slash => BpRes.opBp BinOp.div 6 5
      | Knox.TokenKind.percent => BpRes.opBp BinOp.rem 6 5
      | _ => BpRes.panicBp
  | _ => BpRes.noOp

/-- `Parser::parse_type` (parser.rs lines 276-318), fueled on the nesting
depth of the type. -/
def parse_type : Nat → PState → PRes Ty
  | 0, _ => PRes.noFuel
  | fuel + 1, st =>
    match pnext st with
    | none => PRes.err "Expected type" st
    | some (t, st1) =>
      match t.kind with
      | Knox.TokenKind.identK s =>
        if s = "u64" then PRes.ok Ty.u64 st1
        else if s = "int" then PRes.ok Ty.int st1
        else if s = "string" then PRes.ok Ty.string st1
        else if s = "bool" then PRes.ok Ty.bool st1
        else if s = "dynamic" then PRes.ok Ty.dynamic st1
        else if s = "Option" then
          pbind (expect st1 Knox.TokenKind.lbracket) fun _ st2 =>
          pbind (parse_type fuel st2) fun inner st3 =>
          pbind (expect st3 Knox.TokenKind.rbracket) fun _ st4 =>
          PRes.ok (Ty.option inner) st4
        else if s = "Result" then
          pbind (expect st1 Knox.TokenKind.lbracket) fun _ st2 =>
          pbind (parse_type fuel st2) fun okTy st3 =>
          pbind (expect st3 Knox.TokenKind.comma) fun _ st4 =>
          pbind (parse_type fuel st4) fun errTy st5 =>
          pbind (expect st5 Knox.TokenKind.rbracket) fun _ st6 =>
          PRes.ok (Ty.result okTy errTy) st6
        else PRes.ok (Ty.named s) st1
      | Knox.TokenKind.lparen =>
        pbind (expect st1 Knox.TokenKind.rparen) fun _ st2 => PRes.ok Ty.unit st2
      | Knox.TokenKind.amp =>
        let is_mut := peek st1 = Knox.TokenKind.mutK
        let st2 := if is_mut then skipOne st1 else st1
        pbind (parse_type fuel st2) fun inner st3 =>
        PRes.ok (Ty.ref inner is_mut) st3
      | _ => PRes.err ("Expected type, got " ++ kDebug t.kind) st1

/-- The `loop` of `Parser::parse_field_attrs` (parser.rs lines 253-271),
carrying the `get`/`set` flags. -/
def attrsLoop : Nat → PState → Bool → Bool → PRes (Bool × Bool)
  | 0, _, _, _ => PRes.noFuel
  | fuel + 1, st, g, s =>
    match pnext st with
    | none => PRes.err "Expected get or set" st
    | some (t, st1) =>
      match t.kind with
      | Knox.TokenKind.identK x =>
        if x = "get" then
          if peek st1 = Knox.TokenKind.comma then attrsLoop fuel (skipOne st1) true s
          else PRes.ok (true, s) st1
        else if x = "set" then
          if peek st1 = Knox.TokenKind.comma then attrsLoop fuel (skipOne st1) g true
          else PRes.ok (g, true) st1
        else PRes.err ("Expected get or set, got " ++ x) st1
      | _ => PRes.err "Expected get or set" st1

/-- `Parser::parse_field_attrs` (parser.rs lines 247-274). -/
def parse_field_attrs (fuel : Nat) (st : PState) : PRes FieldAttrs :=
  pbind (expect st Knox.TokenKind.atK) fun _ st1 =>
  pbind (expect st1 Knox.TokenKind.pubK) fun _ st2 =>
  pbind (expect st2 Knox.TokenKind.lparen) fun _ st3 =>
  pbind (attrsLoop fuel st3 false false) fun gs st4 =>
  pbind (expect st4 Knox.TokenKind.rparen) fun _ st5 =>
  PRes.ok ⟨gs.1, gs.2⟩ st5

/-- `Parser::parse_struct_field` (parser.rs lines 225-245). -/
def parse_struct_field (fuel : Nat) (st : PState) : PRes StructField :=
  let start := st.last_span.start
  match pnext st with
  | none => PRes.err "Expected field name" st
  | some (t, st1) =>
    match t.kind with
    | Knox.TokenKind.identK name =>
      pbind (expect st1 Knox.TokenKind.colon) fun _ st2 =>
      pbind (parse_type fuel st2) fun ty st3 =>
      if peek st3 = Knox.TokenKind.atK then
        pbind (parse_field_attrs fuel st3) fun attrs st4 =>
        PRes.ok ⟨name, ty, some attrs, span_from st4 start⟩ st4
      else PRes.ok ⟨name, ty, none, span_from st3 start⟩ st3
    | _ => PRes.err "Expected field name" st1

/-- The field `while` loop of `Parser::parse_struct` (lines 208-216). -/
def structFieldsLoop : Nat → PState → List StructField → PRes (List StructField)
  | 0, _, _ => PRes.noFuel
  | fuel + 1, st, fields =>
    if peek st = Knox.TokenKind.rbrace then PRes.ok fields st
    else
      pbind (parse_struct_field fuel st) fun f st1 =>
      let fields2 := fields ++ [f]
      if peek st1 = Knox.TokenKind.rbrace then structFieldsLoop fuel st1 fields2
      else if peek st1 = Knox.TokenKind.comma then
        structFieldsLoop fuel (skipOne st1) fields2
      else structFieldsLoop fuel st1 fields2

/-- `Parser::parse_struct` (parser.rs lines 198-223). -/
def parse_struct (fuel : Nat) (st : PState) : PRes StructDecl :=
  pbind (expect st Knox.TokenKind.structK) fun _ st1 =>
  let start := st1.last_span.start
  match pnext st1 with
  | none => PRes.err "Expected struct name" st1
  | some (t, st2) =>
    match t.kind with
    | Knox.TokenKind.identK name =>
      pbind (expect st2 Knox.TokenKind.lbrace) fun _ st3 =>
      pbind (structFieldsLoop fuel st3 []) fun fields st4 =>
      pbind (expect st4 Knox.TokenKind.rbrace) fun _ st5 =>
      PRes.ok ⟨name, fields, span_from st5 start⟩ st5
    | _ => PRes.err "Expected struct name" st2

/-- The `{ a, b }` item list loop of `Parser::parse_import` (lines 164-174). -/
def importItemsLoop : Nat → PState → List String → PRes (List String)
  | 0, _, _ => PRes.noFuel
  | fuel + 1, st, names =>
    if peek st = Knox.TokenKind.rbrace then PRes.ok names st
    else
      match pnext st with
      | none => PRes.err "Expected item name" st
      | some (t, st1) =>
        match t.kind with
        | Knox.TokenKind.identK s =>
          let names2 := names ++ [s]
          if peek st1 = Knox.TokenKind.rbrace then importItemsLoop fuel st1 names2
          else
            pbind (expect st1 Knox.TokenKind.comma) fun _ st2 =>
            importItemsLoop fuel st2 names2
        | _ => PRes.err "Expected item name" st1

/-- The optional trailing `as alias` of `Parser::parse_import` (lines
180-189), building the final `ImportDecl`. -/
def importAlias (st : PState) (path : List String) (items : Option (List String))
    (start : Nat) : PRes ImportDecl :=
  if peek st = Knox.TokenKind.asK then
    let st1 := skipOne st
    match pnext st1 with
    | none => PRes.err "Expected alias name" st1
    | some (t, st2) =>
      match t.kind with
      | Knox.TokenKind.identK a => PRes.ok ⟨path, some a, items, span_from st2 start⟩ st2
      | _ => PRes.err "Expected alias name" st2
  else PRes.ok ⟨path, none, items, span_from st start⟩ st

/-- The part of `Parser::parse_import` after the path loop (lines 161-195):
optional `{ items }` then optional alias. -/
def importAfterPath (fuel : Nat) (st : PState) (path : List String) (start : Nat) :
    PRes ImportDecl :=
  if peek st = Knox.TokenKind.lbrace then
    let st1 := skipOne st
    pbind (importItemsLoop fuel st1 []) fun names st2 =>
    pbind (expect st2 Knox.TokenKind.rbrace) fun _ st3 =>
    importAlias st3 path (some names) start
  else importAlias st path none start

/-- The `::` path loop of `Parser::parse_import` (lines 129-160), including
the early single-item return `import auth::token::verify [as a]`. -/
def importPathLoop : Nat → PState → List String → Nat → PRes ImportDecl
  | 0, _, _, _ => PRes.noFuel
  | fuel + 1, st, path, start =>
    if peek st = Knox.TokenKind.colonColon then
      let st1 := skipOne st
      if peek st1 = Knox.TokenKind.lbrace then importAfterPath fuel st1 path start
      else
        match pnext st1 with
        | none => PRes.err "Expected path segment or item" st1
        | some (t, st2) =>
          match t.kind with
          | Knox.TokenKind.identK s =>
            if peek st2 = Knox.TokenKind.colonColon then
              importPathLoop fuel st2 (path ++ [s]) start
            else
              if peek st2 = Knox.TokenKind.asK then
                let st3 := skipOne st2
                match pnext st3 with
                | none => PRes.err "Expected alias" st3
                | some (at_, st4) =>
                  let al := match at_.kind with
                    | Knox.TokenKind.identK a => some a
                    | _ => none
                  PRes.ok ⟨path, al, some [s], span_from st4 start⟩ st4
              else PRes.ok ⟨path, none, some [s], span_from st2 start⟩ st2
          | _ => PRes.err "Expected path segment" st2
    else importAfterPath fuel st path start

/-- `Parser::parse_import` (parser.rs lines 119-196). -/
def parse_import (fuel : Nat) (st : PState) : PRes ImportDecl :=
  pbind (expect st Knox.TokenKind.importK) fun _ st1 =>
  let start := st1.last_span.start
  match pnext st1 with
  | none => PRes.err "Expected module path" st1
  | some (t, st2) =>
    match t.kind with
    | Knox.TokenKind.identK name => importPathLoop fuel st2 [name] start
    | _ => PRes.err "Expected module path" st2

/-- The `::` segment loop of `Parser::parse_primary`, Ident arm (lines
651-660), accumulating `name::seg`. -/
def primaryPathLoop : Nat → PState → String → PRes String
  | 0, _, _ => PRes.noFuel
  | fuel + 1, st, name =>
    if peek st = Knox.TokenKind.colonColon then
      let st1 := skipOne st
      match pnext st1 with
      | none => PRes.err "Expected identifier after ::" st1
      | some (t, st2) =>
        match t.kind with
        | Knox.TokenKind.identK s => primaryPathLoop fuel st2 (name ++ "::" ++ s)
        | _ => PRes.err "Expected identifier after ::" st2
    else PRes.ok name st

/-- The record-destructuring field loop of `Parser::parse_match_pattern`
(lines 600-612). -/
def recordFieldsLoop : Nat → PState → List (String × Ty) → PRes (List (String × Ty))
  | 0, _, _ => PRes.noFuel
  | fuel + 1, st, fields =>
    if peek st = Knox.TokenKind.rbrace then PRes.ok fields st
    else
      match pnext st with
      | none => PRes.err "Expected field name" st
      | some (t, st1) =>
        match t.kind with
        | Knox.TokenKind.identK name =>
          pbind (expect st1 Knox.TokenKind.colon) fun _ st2 =>
          pbind (parse_type fuel st2) fun ty st3 =>
          let fields2 := fields ++ [(name, ty)]
          if peek st3 = Knox.TokenKind.rbrace then recordFieldsLoop fuel st3 fields2
          else
            pbind (expect st3 Knox.TokenKind.comma) fun _ st4 =>
            recordFieldsLoop fuel st4 fields2
        | _ => PRes.err "Expected field name in pattern" st1

/-- True for the token kinds that start a literal match pattern (the
`matches!` at parser.rs lines 619-625). -/
def isLitStart : Knox.TokenKind → Bool
  | Knox.TokenKind.intLitK _ => true
  | Knox.TokenKind.strLitK _ => true
  | Knox.TokenKind.trueK => true
  | Knox.TokenKind.falseK => true
  | _ => false

/-- `Parser::parse_match_pattern` (parser.rs lines 591-630). -/
def parse_match_pattern (fuel : Nat) (st : PState) : PRes Pat :=
  let start := peekStart st
  if peek st = Knox.TokenKind.underscore then
    let st1 := skipOne st
    PRes.ok (Pat.wildcard (span_from st1 start)) st1
  else if peek st = Knox.TokenKind.lbrace then
    let st1 := skipOne st
    pbind (recordFieldsLoop fuel st1 []) fun fields st2 =>
    pbind (expect st2 Knox.TokenKind.rbrace) fun _ st3 =>
    PRes.ok (Pat.recordDestruct fields (span_from st3 start)) st3
  else if isLitStart (peek st) then
    pbind (parse_literal st) fun lit st1 =>
    PRes.ok (Pat.literal lit (span_from st1 start)) st1
  else PRes.err "Expected match pattern" st

/-- The parameter `while` loop of `Parser::parse_fn` (lines 86-102). -/
def fnParamsLoop : Nat → PState → List Param → PRes (List Param)
  | 0, _, _ => PRes.noFuel
  | fuel + 1, st, params =>
    if peek st = Knox.TokenKind.rparen then PRes.ok params st
    else
      match pnext st with
      | none => PRes.err "Expected param name" st
      | some (t, st1) =>
        match t.kind with
        | Knox.TokenKind.identK pname =>
          pbind (expect st1 Knox.TokenKind.colon) fun _ st2 =>
          pbind (parse_type fuel st2) fun ty st3 =>
          let params2 := params ++ [(⟨pname, ty, st3.last_span⟩ : Param)]
          if peek st3 = Knox.TokenKind.rparen then fnParamsLoop fuel st3 params2
          else
            pbind (expect st3 Knox.TokenKind.comma) fun _ st4 =>
            fnParamsLoop fuel st4 params2
        | _ => PRes.err "Expected param name" st1

end Knox.Parser

namespace Knox.Parser

open Knox.Ast2

mutual

/-- `Parser::parse_block` (parser.rs lines 320-330). -/
def parse_block : Nat → PState → PRes Block
  | 0, _ => PRes.noFuel
  | fuel + 1, st =>
    let start := st.last_span.start
    pbind (blockLoop fuel st []) fun stmts st1 =>
    PRes.ok (Block.mk stmts (span_from st1 start)) st1
termination_by structural fuel => fuel

/-- The statement `while` loop of `parse_block` (lines 323-325). -/
def blockLoop : Nat → PState → List Stmt → PRes (List Stmt)
  | 0, _, _ => PRes.noFuel
  | fuel + 1, st, stmts =>
    if peek st = Knox.TokenKind.rbrace || peek st = Knox.TokenKind.eof then
      PRes.ok stmts st
    else
      pbind (parse_stmt fuel st) fun s st1 =>
      blockLoop fuel st1 (stmts ++ [s])
termination_by structural fuel => fuel

/-- `Parser::parse_stmt` (parser.rs lines 332-403). -/
def parse_stmt : Nat → PState → PRes Stmt
  | 0, _ => PRes.noFuel
  | fuel + 1, st =>
    let start := st.last_span.start
    if peek st = Knox.TokenKind.letK then
      let st1 := skipOne st
      let mutability := peek st1 = Knox.TokenKind.mutK
      let st2 := if mutability then skipOne st1 else st1
      match pnext st2 with
      | none => PRes.err "Expected binding name" st2
      | some (t, st3) =>
        match t.kind with
        | Knox.TokenKind.identK name =>
          if peek st3 = Knox.TokenKind.colon then
            pbind (parse_type fuel (skipOne st3)) fun ty st4 =>
            letTail fuel name mutability (some ty) start st4
          else letTail fuel name mutability none start st3
        | _ => PRes.err "Expected binding name" st3
    else if peek st = Knox.TokenKind.returnK then
      let st1 := skipOne st
      if peek st1 = Knox.TokenKind.rbrace || peek st1 = Knox.TokenKind.semicolon then
        pbind (expect_semicolon_after_stmt st1) fun _ st2 =>
        PRes.ok (Stmt.ret none (span_from st2 start)) st2
      else
        pbind (parse_expr_bp fuel 0 st1) fun v st2 =>
        pbind (expect_semicolon_after_stmt st2) fun _ st3 =>
        PRes.ok (Stmt.ret (some v) (span_from st3 start)) st3
    else
      pbind (parse_expr_bp fuel 0 st) fun e st1 =>
      if peek st1 = Knox.TokenKind.assign then
        let st2 := skipOne st1
        pbind (parse_expr_bp fuel 0 st2) fun v st3 =>
        pbind (expect_semicolon_after_stmt st3) fun _ st4 =>
        match e with
        | Expr.ident name _ => PRes.ok (Stmt.assign name v (span_from st4 start)) st4
        | Expr.deref de _ =>
          match de with
          | Expr.ident name _ =>
            PRes.ok (Stmt.assignDeref name v (span_from st4 start)) st4
          | _ => PRes.err "Assignment target must be a variable or *variable" st4
        | _ => PRes.err "Assignment target must be a variable or *variable" st4
      else
        pbind (expect_semicolon_after_stmt st1) fun _ st2 =>
        PRes.ok (Stmt.exprS e) st2
termination_by structural fuel => fuel

/-- The tail of the `let` arm of `parse_stmt` (lines 351-360): `= init ;`. -/
def letTail : Nat → String → Bool → Option Ty → Nat → PState → PRes Stmt
  | 0, _, _, _, _, _ => PRes.noFuel
  | fuel + 1, name, mutability, annot, start, st =>
    pbind (expect st Knox.TokenKind.assign) fun _ st1 =>
    pbind (parse_expr_bp fuel 0 st1) fun init st2 =>
    pbind (expect_semicolon_after_stmt st2) fun _ st3 =>
    PRes.ok (Stmt.letS name mutability annot init (span_from st3 start)) st3
termination_by structural fuel => fuel

/-- `Parser::parse_expr_bp` (parser.rs lines 463-466); `parse_expr` is
`parse_expr_bp 0`. -/
def parse_expr_bp : Nat → Nat → PState → PRes Expr
  | 0, _, _ => PRes.noFuel
  | fuel + 1, min_bp, st =>
    pbind (parse_prefix_expr fuel st) fun left st1 =>
    parse_expr_infix_loop fuel left min_bp st1
termination_by structural fuel => fuel

/-- The Pratt operator loop of the parser (parser.rs lines 468-487).
The `panicBp` arm is the `unreachable!()` inside `infix_binding_power`. -/
def parse_expr_infix_loop : Nat → Expr → Nat → PState → PRes Expr
  | 0, _, _, _ => PRes.noFuel
  | fuel + 1, left, min_bp, st =>
    match binding_power (peek st) with
    | BpRes.panicBp => PRes.panicked
    | BpRes.noOp => PRes.ok left st
    | BpRes.opBp op lbp rbp =>
      if lbp < min_bp then PRes.ok left st
      else
        let st1 := skipOne st
        pbind (parse_expr_bp fuel rbp st1) fun right st2 =>
        parse_expr_infix_loop fuel (Expr.binaryOp op left right st2.last_span) min_bp st2
termination_by structural fuel => fuel

/-- `Parser::parse_prefix` (parser.rs lines 489-589). -/
def parse_prefix_expr : Nat → PState → PRes Expr
  | 0, _ => PRes.noFuel
  | fuel + 1, st =>
    let start := peekStart st
    if peek st = Knox.TokenKind.ifK then
      let st1 := skipOne st
      pbind (parse_expr_bp fuel 0 st1) fun cond st2 =>
      pbind (expect st2 Knox.TokenKind.lbrace) fun _ st3 =>
      pbind (parse_block fuel st3) fun thenB st4 =>
      pbind (expect st4 Knox.TokenKind.rbrace) fun _ st5 =>
      if peek st5 = Knox.TokenKind.elseK then
        let st6 := skipOne st5
        pbind (expect st6 Knox.TokenKind.lbrace) fun _ st7 =>
        pbind (parse_block fuel st7) fun elseB st8 =>
        pbind (expect st8 Knox.TokenKind.rbrace) fun _ st9 =>
        PRes.ok (Expr.ifE cond thenB (some elseB) (span_from st9 start)) st9
      else PRes.ok (Expr.ifE cond thenB none (span_from st5 start)) st5
    else if peek st = Knox.TokenKind.matchK then
      let st1 := skipOne st
      pbind (parse_expr_bp fuel 0 st1) fun scrut st2 =>
      pbind (expect st2 Knox.TokenKind.lbrace) fun _ st3 =>
      pbind (matchArmsLoop fuel st3 []) fun arms st4 =>
      pbind (expect st4 Knox.TokenKind.rbrace) fun _ st5 =>
      PRes.ok (Expr.matchE scrut arms (span_from st5 start)) st5
    else if peek st = Knox.TokenKind.lbrace then
      let st1 := skipOne st
      pbind (parse_block fuel st1) fun b st2 =>
      pbind (expect st2 Knox.TokenKind.rbrace) fun _ st3 =>
      PRes.ok (Expr.blockE b (span_from st3 start)) st3
    else if peek st = Knox.TokenKind.minus then
      let st1 := skipOne st
      pbind (parse_expr_bp fuel 7 st1) fun e st2 =>
      PRes.ok (Expr.unaryOp UnOp.neg e (span_from st2 start)) st2
    else if peek st = Knox.TokenKind.notK then
      let st1 := skipOne st
      pbind (parse_expr_bp fuel 7 st1) fun e st2 =>
      PRes.ok (Expr.unaryOp UnOp.not e (span_from st2 start)) st2
    else if peek st = Knox.TokenKind.amp then
      let st1 := skipOne st
      let is_mut := peek st1 = Knox.TokenKind.mutK
      let st2 := if is_mut then skipOne st1 else st1
      match pnext st2 with
      | none => PRes.err "Expected identifier after &" st2
      | some (t, st3) =>
        match t.kind with
        | Knox.TokenKind.identK s =>
          PRes.ok (Expr.refE is_mut s (span_from st3 start)) st3
        | _ => PRes.err "Expected variable name for borrow" st3
    else if peek st = Knox.TokenKind.star then
      let st1 := skipOne st
      pbind (parse_expr_bp fuel 7 st1) fun e st2 =>
      PRes.ok (Expr.deref e (span_from st2 start)) st2
    else parse_primary fuel st
termination_by structural fuel => fuel

/-- The arm `while` loop of the match arm of `parse_prefix` (lines 518-531). -/
def matchArmsLoop : Nat → PState → List MatchArm → PRes (List MatchArm)
  | 0, _, _ => PRes.noFuel
  | fuel + 1, st, arms =>
    if peek st = Knox.TokenKind.rbrace then PRes.ok arms st
    else
      let arm_start := peekStart st
      pbind (parse_match_pattern fuel st) fun pat st1 =>
      pbind (expect st1 Knox.TokenKind.fatArrow) fun _ st2 =>
      pbind (parse_expr_bp fuel 0 st2) fun body st3 =>
      let arms2 := arms ++ [MatchArm.mk pat body (span_from st3 arm_start)]
      if peek st3 = Knox.TokenKind.comma then matchArmsLoop fuel (skipOne st3) arms2
      else matchArmsLoop fuel st3 arms2
termination_by structural fuel => fuel

/-- `Parser::parse_primary` (parser.rs lines 632-697). The inner re-match
with `_ => unreachable!()` of the Ok/Err arm is modelled as `panicked`. -/
def parse_primary : Nat → PState → PRes Expr
  | 0, _ => PRes.noFuel
  | fuel + 1, st =>
    let start := peekStart st
    match pnext st with
    | none => PRes.err "Expected expression" st
    | some (t, st1) =>
      match t.kind with
      | Knox.TokenKind.intLitK n => PRes.ok (Expr.literal (Lit.int n) t.span) st1
      | Knox.TokenKind.strLitK s => PRes.ok (Expr.literal (Lit.str s) t.span) st1
      | Knox.TokenKind.trueK => PRes.ok (Expr.literal (Lit.bool true) t.span) st1
      | Knox.TokenKind.falseK => PRes.ok (Expr.literal (Lit.bool false) t.span) st1
      | Knox.TokenKind.lparen =>
        if peek st1 = Knox.TokenKind.rparen then
          let st2 := skipOne st1
          PRes.ok (Expr.literal Lit.unit (span_from st2 start)) st2
        else
          pbind (parse_expr_bp fuel 0 st1) fun inner st2 =>
          pbind (expect st2 Knox.TokenKind.rparen) fun _ st3 =>
          PRes.ok inner st3
      | Knox.TokenKind.identK callee =>
        pbind (primaryPathLoop fuel st1 callee) fun name st2 =>
        if peek st2 = Knox.TokenKind.lparen then
          let st3 := skipOne st2
          pbind (argsLoop fuel st3 []) fun args st4 =>
          pbind (expect st4 Knox.TokenKind.rparen) fun _ st5 =>
          PRes.ok (Expr.call name args (span_from st5 start)) st5
        else PRes.ok (Expr.ident name t.span) st2
      | Knox.TokenKind.okK =>
        match t.kind with
        | Knox.TokenKind.okK => primaryCtorTail fuel "Ok" start st1
        | Knox.TokenKind.errK => primaryCtorTail fuel "Err" start st1
        | _ => PRes.panicked
      | Knox.TokenKind.errK =>
        match t.kind with
        | Knox.TokenKind.okK => primaryCtorTail fuel "Ok" start st1
        | Knox.TokenKind.errK => primaryCtorTail fuel "Err" start st1
        | _ => PRes.panicked
      | _ => PRes.err ("Expected expression, got " ++ kDebug t.kind) st1
termination_by structural fuel => fuel

/-- The `Ok(e)` / `Err(e)` constructor-call tail of `parse_primary`
(lines 686-693). -/
def primaryCtorTail : Nat → String → Nat → PState → PRes Expr
  | 0, _, _, _ => PRes.noFuel
  | fuel + 1, ctor, start, st =>
    pbind (expect st Knox.TokenKind.lparen) fun _ st1 =>
    pbind (parse_expr_bp fuel 0 st1) fun arg st2 =>
    pbind (expect st2 Knox.TokenKind.rparen) fun _ st3 =>
    PRes.ok (Expr.call ctor [arg] (span_from st3 start)) st3
termination_by structural fuel => fuel

/-- The argument `while` loop of the call arm of `parse_primary`
(lines 663-669). -/
def argsLoop : Nat → PState → List Expr → PRes (List Expr)
  | 0, _, _ => PRes.noFuel
  | fuel + 1, st, args =>
    if peek st = Knox.TokenKind.rparen then PRes.ok args st
    else
      pbind (parse_expr_bp fuel 0 st) fun e st1 =>
      let args2 := args ++ [e]
      if peek st1 = Knox.TokenKind.rparen then argsLoop fuel st1 args2
      else
        pbind (expect st1 Knox.TokenKind.comma) fun _ st2 =>
        argsLoop fuel st2 args2
termination_by structural fuel => fuel

end

/-- `Parser::parse_fn` (parser.rs lines 72-117). -/
def parse_fn (fuel : Nat) (st : PState) : PRes FnDecl :=
  let pub_vis := peek st = Knox.TokenKind.pubK
  let st0 := if pub_vis then skipOne st else st
  pbind (expect st0 Knox.TokenKind.fnK) fun _ st1 =>
  let start := st1.last_span.start
  match pnext st1 with
  | none => PRes.err "Expected function name" st1
  | some (t, st2) =>
    match t.kind with
    | Knox.TokenKind.identK name =>
      pbind (expect st2 Knox.TokenKind.lparen) fun _ st3 =>
      pbind (fnParamsLoop fuel st3 []) fun params st4 =>
      pbind (expect st4 Knox.TokenKind.rparen) fun _ st5 =>
      pbind (expect st5 Knox.TokenKind.arrow) fun _ st6 =>
      pbind (parse_type fuel st6) fun rty st7 =>
      pbind (expect st7 Knox.TokenKind.lbrace) fun _ st8 =>
      pbind (parse_block fuel st8) fun body st9 =>
      pbind (expect st9 Knox.TokenKind.rbrace) fun _ st10 =>
      PRes.ok ⟨name, params, rty, body, span_from st10 start, pub_vis⟩ st10
    | _ => PRes.err "Expected function name" st2

/-- The item `while` loop of `Parser::parse_root` (parser.rs lines 53-64).
The `self.next().unwrap()` of the default arm is modelled as `panicked`
when `next` returns `None` — reachable only if `peek` were non-Eof on an
empty token list, which cannot happen. -/
def rootLoop : Nat → PState → List Item → PRes (List Item)
  | 0, _, _ => PRes.noFuel
  | fuel + 1, st, items =>
    if peek st = Knox.TokenKind.eof then PRes.ok items st
    else if peek st = Knox.TokenKind.importK then
      pbind (parse_import fuel st) fun imp st1 =>
      rootLoop fuel st1 (items ++ [Item.importI imp])
    else if peek st = Knox.TokenKind.structK then
      pbind (parse_struct fuel st) fun s st1 =>
      rootLoop fuel st1 (items ++ [Item.structI s])
    else if peek st = Knox.TokenKind.pubK || peek st = Knox.TokenKind.fnK then
      pbind (parse_fn fuel st) fun f st1 =>
      rootLoop fuel st1 (items ++ [Item.fnI f])
    else
      match pnext st with
      | none => PRes.panicked
      | some (t, st1) => PRes.err ("Unexpected token at root: " ++ kDebug t.kind) st1

/-- `Parser::parse_root` (parser.rs lines 50-70). -/
def parse_root (fuel : Nat) (st : PState) : PRes Root :=
  pbind (rootLoop fuel st []) fun items st1 =>
  PRes.ok ⟨items, ⟨0, st1.last_span.stop⟩⟩ st1

/-- The parse step of `compile` (knox_compiler/src/lib.rs lines 16-20) on a
token stream: a parse error is mapped to the one-element diagnostics list
`vec[Diagnostic::error(e, None)]`, however many syntax errors the input
contains; a successful parse contributes no diagnostics. -/
def parse_root_diags (fuel : Nat) (tokens : List Knox.Token) : List Knox.Diagnostic :=
  match parse_root fuel ⟨tokens, ⟨0, 0⟩⟩ with
  | PRes.err e _ => [Knox.Diagnostic.mkError e none]
  | _ => []

end Knox.Parser

namespace Knox.Parser

theorem pbind_np {α β : Type} {r : PRes α} {f : α → PState → PRes β}
    (h1 : isPanic r = false) (h2 : ∀ a st, isPanic (f a st) = false) :
    isPanic (pbind r f) = false := by
  cases r with
  | ok a st => exact h2 a st
  | err m st => rfl
  | panicked => exact absurd h1 (by simp [isPanic])
  | noFuel => rfl

theorem expect_np (st : PState) (k : Knox.TokenKind) :
    isPanic (expect st k) = false := by
  rcases st with ⟨ts, ls⟩
  cases ts with
  | nil => rfl
  | cons t rest =>
    simp only [expect, pnext]
    by_cases h : kTag t.kind = kTag k <;> simp [h, isPanic]

theorem expect_semicolon_np (st : PState) :
    isPanic (expect_semicolon_after_stmt st) = false := by
  unfold expect_semicolon_after_stmt
  split <;> rfl

theorem parse_literal_np (st : PState) : isPanic (parse_literal st) = false := by
  rcases st with ⟨ts, ls⟩
  cases ts with
  | nil => rfl
  | cons t rest =>
    simp only [parse_literal, pnext]
    cases t.kind <;> rfl

theorem importAlias_np (st : PState) (path : List String)
    (items : Option (List String)) (start : Nat) :
    isPanic (importAlias st path items start) = false := by
  unfold importAlias
  split
  · rcases hp : pnext (skipOne st) with _ | ⟨⟨k, sp⟩, st2⟩ <;> simp only [hp]
    · rfl
    · cases k <;> rfl
  · rfl

theorem binding_power_no_panic (k : Knox.TokenKind) :
    binding_power k ≠ BpRes.panicBp := by
  cases k <;> simp [binding_power]

theorem parse_type_np : ∀ (fuel : Nat) (st : PState),
    isPanic (parse_type fuel st) = false := by
  intro fuel
  induction fuel with
  | zero => intro st; rfl
  | succ fuel ih =>
    intro st
    rw [parse_type]
    rcases hp : pnext st with _ | ⟨⟨k, sp⟩, st1⟩ <;> simp only [hp]
    · rfl
    · cases k
      case identK s =>
        by_cases h1 : s = "u64"
        · simp [h1, isPanic]
        · by_cases h2 : s = "int"
          · simp [h1, h2, isPanic]
          · by_cases h3 : s = "string"
            · simp [h1, h2, h3, isPanic]
            · by_cases h4 : s = "bool"
              · simp [h1, h2, h3, h4, isPanic]
              · by_cases h5 : s = "dynamic"
                · simp [h1, h2, h3, h4, h5, isPanic]
                · by_cases h6 : s = "Option"
                  · simp only [h1, h2, h3, h4, h5, h6, if_false, if_true]
                    exact pbind_np (expect_np _ _) fun _ st2 =>
                      pbind_np (ih _) fun _ st3 =>
                      pbind_np (expect_np _ _) fun _ _ => rfl
                  · by_cases h7 : s = "Result"
                    · simp only [h1, h2, h3, h4, h5, h6, h7, if_false, if_true]
                      exact pbind_np (expect_np _ _) fun _ st2 =>
                        pbind_np (ih _) fun _ st3 =>
                        pbind_np (expect_np _ _) fun _ st4 =>
                        pbind_np (ih _) fun _ st5 =>
                        pbind_np (expect_np _ _) fun _ _ => rfl
                    · simp [h1, h2, h3, h4, h5, h6, h7, isPanic]
      case lparen => exact pbind_np (expect_np _ _) fun _ _ => rfl
      case amp => exact pbind_np (ih _) fun _ _ => rfl
      all_goals rfl

end Knox.Parser

namespace Knox.Parser

theorem peek_eof_of_pnext_none {st : PState} (h : pnext st = none) :
    peek st = Knox.TokenKind.eof := by
  rcases st with ⟨ts, ls⟩
  cases ts with
  | nil => rfl
  | cons t rest => exact absurd h (by simp [pnext])

theorem attrsLoop_np : ∀ (fuel : Nat) (st : PState) (g s : Bool),
    isPanic (attrsLoop fuel st g s) = false := by
  intro fuel
  induction fuel with
  | zero => intro st g s; rfl
  | succ fuel ih =>
    intro st g s
    rw [attrsLoop]
    rcases hp : pnext st with _ | ⟨⟨k, sp⟩, st1⟩ <;> simp only [hp]
    · rfl
    · cases k <;> try rfl
      rename_i x
      simp only []
      by_cases hg : x = "get"
      · rw [if_pos hg]
        by_cases hc : peek st1 = Knox.TokenKind.comma
        · rw [if_pos hc]; exact ih _ _ _
        · rw [if_neg hc]; rfl
      · rw [if_neg hg]
        by_cases hs2 : x = "set"
        · rw [if_pos hs2]
          by_cases hc : peek st1 = Knox.TokenKind.comma
          · rw [if_pos hc]; exact ih _ _ _
          · rw [if_neg hc]; rfl
        · rw [if_neg hs2]; rfl

theorem parse_field_attrs_np (fuel : Nat) (st : PState) :
    isPanic (parse_field_attrs fuel st) = false := by
  unfold parse_field_attrs
  exact pbind_np (expect_np _ _) fun _ st1 =>
    pbind_np (expect_np _ _) fun _ st2 =>
    pbind_np (expect_np _ _) fun _ st3 =>
    pbind_np (attrsLoop_np _ _ _ _) fun _ st4 =>
    pbind_np (expect_np _ _) fun _ _ => rfl

theorem parse_struct_field_np (fuel : Nat) (st : PState) :
    isPanic (parse_struct_field fuel st) = false := by
  unfold parse_struct_field
  rcases hp : pnext st with _ | ⟨⟨k, sp⟩, st1⟩ <;> simp only [hp]
  · rfl
  · cases k
    case identK name =>
      refine pbind_np (expect_np _ _) fun _ st2 =>
        pbind_np (parse_type_np _ _) fun ty st3 => ?_
      split
      · exact pbind_np (parse_field_attrs_np _ _) fun _ _ => rfl
      · rfl
    all_goals rfl

theorem structFieldsLoop_np : ∀ (fuel : Nat) (st : PState) (fields : List Knox.Ast2.StructField),
    isPanic (structFieldsLoop fuel st fields) = false := by
  intro fuel
  induction fuel with
  | zero => intro st fields; rfl
  | succ fuel ih =>
    intro st fields
    rw [structFieldsLoop]
    split
    · rfl
    · refine pbind_np (parse_struct_field_np _ _) fun f st1 => ?_
      split
      · exact ih _ _
      · split
        · exact ih _ _
        · exact ih _ _

theorem parse_struct_np (fuel : Nat) (st : PState) :
    isPanic (parse_struct fuel st) = false := by
  unfold parse_struct
  refine pbind_np (expect_np _ _) fun _ st1 => ?_
  rcases hp : pnext st1 with _ | ⟨⟨k, sp⟩, st2⟩ <;> simp only [hp]
  · rfl
  · cases k
    case identK name =>
      exact pbind_np (expect_np _ _) fun _ st3 =>
        pbind_np (structFieldsLoop_np _ _ _) fun _ st4 =>
        pbind_np (expect_np _ _) fun _ _ => rfl
    all_goals rfl

theorem importItemsLoop_np : ∀ (fuel : Nat) (st : PState) (names : List String),
    isPanic (importItemsLoop fuel st names) = false := by
  intro fuel
  induction fuel with
  | zero => intro st names; rfl
  | succ fuel ih =>
    intro st names
    rw [importItemsLoop]
    by_cases hr0 : peek st = Knox.TokenKind.rbrace
    · rw [if_pos hr0]; rfl
    · rw [if_neg hr0]
      rcases hp : pnext st with _ | ⟨⟨k, sp⟩, st1⟩ <;> simp only [hp]
      · rfl
      · cases k <;> try rfl
        rename_i s
        simp only []
        by_cases hr : peek st1 = Knox.TokenKind.rbrace
        · rw [if_pos hr]; exact ih _ _
        · rw [if_neg hr]
          exact pbind_np (expect_np _ _) fun _ _ => ih _ _

theorem importAfterPath_np (fuel : Nat) (st : PState) (path : List String) (start : Nat) :
    isPanic (importAfterPath fuel st path start) = false := by
  unfold importAfterPath
  split
  · exact pbind_np (importItemsLoop_np _ _ _) fun _ st2 =>
      pbind_np (expect_np _ _) fun _ st3 => importAlias_np _ _ _ _
  · exact importAlias_np _ _ _ _

theorem importPathLoop_np : ∀ (fuel : Nat) (st : PState) (path : List String) (start : Nat),
    isPanic (importPathLoop fuel st path start) = false := by
  intro fuel
  induction fuel with
  | zero => intro st path start; rfl
  | succ fuel ih =>
    intro st path start
    rw [importPathLoop]
    by_cases h1 : peek st = Knox.TokenKind.colonColon
    · rw [if_pos h1]
      simp only []
      by_cases h2 : peek (skipOne st) = Knox.TokenKind.lbrace
      · rw [if_pos h2]; exact importAfterPath_np _ _ _ _
      · rw [if_neg h2]
        rcases hp : pnext (skipOne st) with _ | ⟨⟨k, sp⟩, st2⟩ <;> simp only [hp]
        · rfl
        · cases k <;> try rfl
          rename_i s
          simp only []
          by_cases h3 : peek st2 = Knox.TokenKind.colonColon
          · rw [if_pos h3]; exact ih _ _ _
          · rw [if_neg h3]
            by_cases h4 : peek st2 = Knox.TokenKind.asK
            · rw [if_pos h4]
              rcases hp2 : pnext (skipOne st2) with _ | ⟨⟨k2, sp2⟩, st4⟩ <;>
                simp only [hp2]
              · rfl
              · cases k2 <;> rfl
            · rw [if_neg h4]; rfl
    · rw [if_neg h1]; exact importAfterPath_np _ _ _ _

theorem parse_import_np (fuel : Nat) (st : PState) :
    isPanic (parse_import fuel st) = false := by
  unfold parse_import
  refine pbind_np (expect_np _ _) fun _ st1 => ?_
  rcases hp : pnext st1 with _ | ⟨⟨k, sp⟩, st2⟩ <;> simp only [hp]
  · rfl
  · cases k
    case identK name => exact importPathLoop_np _ _ _ _
    all_goals rfl

theorem primaryPathLoop_np : ∀ (fuel : Nat) (st : PState) (name : String),
    isPanic (primaryPathLoop fuel st name) = false := by
  intro fuel
  induction fuel with
  | zero => intro st name; rfl
  | succ fuel ih =>
    intro st name
    rw [primaryPathLoop]
    split
    · rcases hp : pnext (skipOne st) with _ | ⟨⟨k, sp⟩, st2⟩ <;> simp only [hp]
      · rfl
      · cases k
        case identK s => exact ih _ _
        all_goals rfl
    · rfl

theorem recordFieldsLoop_np : ∀ (fuel : Nat) (st : PState) (fields : List (String × Knox.Ast2.Ty)),
    isPanic (recordFieldsLoop fuel st fields) = false := by
  intro fuel
  induction fuel with
  | zero => intro st fields; rfl
  | succ fuel ih =>
    intro st fields
    rw [recordFieldsLoop]
    split
    · rfl
    · rcases hp : pnext st with _ | ⟨⟨k, sp⟩, st1⟩ <;> simp only [hp]
      · rfl
      · cases k
        case identK name =>
          refine pbind_np (expect_np _ _) fun _ st2 =>
            pbind_np (parse_type_np _ _) fun ty st3 => ?_
          split
          · exact ih _ _
          · exact pbind_np (expect_np _ _) fun _ _ => ih _ _
        all_goals rfl

theorem parse_match_pattern_np (fuel : Nat) (st : PState) :
    isPanic (parse_match_pattern fuel st) = false := by
  unfold parse_match_pattern
  split
  · rfl
  · split
    · exact pbind_np (recordFieldsLoop_np _ _ _) fun _ st2 =>
        pbind_np (expect_np _ _) fun _ _ => rfl
    · split
      · exact pbind_np (parse_literal_np _) fun _ _ => rfl
      · rfl

theorem fnParamsLoop_np : ∀ (fuel : Nat) (st : PState) (params : List Knox.Ast2.Param),
    isPanic (fnParamsLoop fuel st params) = false := by
  intro fuel
  induction fuel with
  | zero => intro st params; rfl
  | succ fuel ih =>
    intro st params
    rw [fnParamsLoop]
    split
    · rfl
    · rcases hp : pnext st with _ | ⟨⟨k, sp⟩, st1⟩ <;> simp only [hp]
      · rfl
      · cases k
        case identK pname =>
          refine pbind_np (expect_np _ _) fun _ st2 =>
            pbind_np (parse_type_np _ _) fun ty st3 => ?_
          split
          · exact ih _ _
          · exact pbind_np (expect_np _ _) fun _ _ => ih _ _
        all_goals rfl

end Knox.Parser

namespace Knox.Parser

theorem parser_mutual_np : ∀ fuel : Nat,
    (∀ st, isPanic (parse_block fuel st) = false) ∧
    (∀ st stmts, isPanic (blockLoop fuel st stmts) = false) ∧
    (∀ st, isPanic (parse_stmt fuel st) = false) ∧
    (∀ n m a s st, isPanic (letTail fuel n m a s st) = false) ∧
    (∀ bp st, isPanic (parse_expr_bp fuel bp st) = false) ∧
    (∀ l bp st, isPanic (parse_expr_infix_loop fuel l bp st) = false) ∧
    (∀ st, isPanic (parse_prefix_expr fuel st) = false) ∧
    (∀ st arms, isPanic (matchArmsLoop fuel st arms) = false) ∧
    (∀ st, isPanic (parse_primary fuel st) = false) ∧
    (∀ c s st, isPanic (primaryCtorTail fuel c s st) = false) ∧
    (∀ st args, isPanic (argsLoop fuel st args) = false) := by
  intro fuel
  induction fuel with
  | zero =>
    exact ⟨fun _ => rfl, fun _ _ => rfl, fun _ => rfl, fun _ _ _ _ _ => rfl,
      fun _ _ => rfl, fun _ _ _ => rfl, fun _ => rfl, fun _ _ => rfl,
      fun _ => rfl, fun _ _ _ => rfl, fun _ _ => rfl⟩
  | succ fuel ih =>
    obtain ⟨ihblock, ihbloop, ihstmt, ihlet, ihbp, ihinf, ihpre, iharms,
      ihprim, ihctor, ihargs⟩ := ih
    refine ⟨?_, ?_, ?_, ?_, ?_, ?_, ?_, ?_, ?_, ?_, ?_⟩
    · -- parse_block
      intro st
      rw [parse_block]
      exact pbind_np (ihbloop _ _) fun _ _ => rfl
    · -- blockLoop
      intro st stmts
      rw [blockLoop]
      split
      · rfl
      · exact pbind_np (ihstmt _) fun _ _ => ihbloop _ _
    · -- parse_stmt
      intro st
      rw [parse_stmt]
      simp only []
      by_cases hl : peek st = Knox.TokenKind.letK
      · rw [if_pos hl]
        rcases hp : pnext (if peek (skipOne st) = Knox.TokenKind.mutK then
            skipOne (skipOne st) else skipOne st) with _ | ⟨⟨k, sp⟩, st3⟩ <;>
          simp only [hp]
        · rfl
        · cases k <;> try rfl
          rename_i name
          simp only []
          by_cases hc : peek st3 = Knox.TokenKind.colon
          · rw [if_pos hc]
            exact pbind_np (parse_type_np _ _) fun _ _ => ihlet _ _ _ _ _
          · rw [if_neg hc]
            exact ihlet _ _ _ _ _
      · rw [if_neg hl]
        by_cases hr : peek st = Knox.TokenKind.returnK
        · rw [if_pos hr]
          split
          · exact pbind_np (expect_semicolon_np _) fun _ _ => rfl
          · exact pbind_np (ihbp _ _) fun v st2 =>
              pbind_np (expect_semicolon_np _) fun _ _ => rfl
        · rw [if_neg hr]
          refine pbind_np (ihbp _ _) fun e st1 => ?_
          by_cases ha : peek st1 = Knox.TokenKind.assign
          · rw [if_pos ha]
            refine pbind_np (ihbp _ _) fun v st3 =>
              pbind_np (expect_semicolon_np _) fun _ st4 => ?_
            cases e <;> try rfl
            rename_i de sp2
            cases de <;> rfl
          · rw [if_neg ha]
            exact pbind_np (expect_semicolon_np _) fun _ _ => rfl
    · -- letTail
      intro n m a s st
      rw [letTail]
      exact pbind_np (expect_np _ _) fun _ st1 =>
        pbind_np (ihbp _ _) fun _ st2 =>
        pbind_np (expect_semicolon_np _) fun _ _ => rfl
    · -- parse_expr_bp
      intro bp st
      rw [parse_expr_bp]
      exact pbind_np (ihpre _) fun l st1 => ihinf _ _ _
    · -- parse_expr_infix_loop
      intro l bp st
      rw [parse_expr_infix_loop]
      rcases hb : binding_power (peek st) with _ | _ | ⟨o, lbp, rbp⟩ <;> simp only [hb]
      · exact absurd hb (binding_power_no_panic _)
      · rfl
      · by_cases hlt : lbp < bp
        · rw [if_pos hlt]; rfl
        · rw [if_neg hlt]
          exact pbind_np (ihbp _ _) fun r st2 => ihinf _ _ _
    · -- parse_prefix_expr
      intro st
      rw [parse_prefix_expr]
      simp only []
      by_cases h1 : peek st = Knox.TokenKind.ifK
      · rw [if_pos h1]
        refine pbind_np (ihbp _ _) fun cond st2 =>
          pbind_np (expect_np _ _) fun _ st3 =>
          pbind_np (ihblock _) fun thenB st4 =>
          pbind_np (expect_np _ _) fun _ st5 => ?_
        by_cases h2 : peek st5 = Knox.TokenKind.elseK
        · rw [if_pos h2]
          exact pbind_np (expect_np _ _) fun _ st7 =>
            pbind_np (ihblock _) fun elseB st8 =>
            pbind_np (expect_np _ _) fun _ _ => rfl
        · rw [if_neg h2]; rfl
      · rw [if_neg h1]
        by_cases h2 : peek st = Knox.TokenKind.matchK
        · rw [if_pos h2]
          exact pbind_np (ihbp _ _) fun scrut st2 =>
            pbind_np (expect_np _ _) fun _ st3 =>
            pbind_np (iharms _ _) fun arms st4 =>
            pbind_np (expect_np _ _) fun _ _ => rfl
        · rw [if_neg h2]
          by_cases h3 : peek st = Knox.TokenKind.lbrace
          · rw [if_pos h3]
            exact pbind_np (ihblock _) fun b st2 =>
              pbind_np (expect_np _ _) fun _ _ => rfl
          · rw [if_neg h3]
            by_cases h4 : peek st = Knox.TokenKind.minus
            · rw [if_pos h4]; exact pbind_np (ihbp _ _) fun _ _ => rfl
            · rw [if_neg h4]
              by_cases h5 : peek st = Knox.TokenKind.notK
              · rw [if_pos h5]; exact pbind_np (ihbp _ _) fun _ _ => rfl
              · rw [if_neg h5]
                by_cases h6 : peek st = Knox.TokenKind.amp
                · rw [if_pos h6]
                  rcases hp : pnext (if peek (skipOne st) = Knox.TokenKind.mutK then
                      skipOne (skipOne st) else skipOne st) with _ | ⟨⟨k, sp⟩, st3⟩ <;>
                    simp only [hp]
                  · rfl
                  · cases k <;> rfl
                · rw [if_neg h6]
                  by_cases h7 : peek st = Knox.TokenKind.star
                  · rw [if_pos h7]; exact pbind_np (ihbp _ _) fun _ _ => rfl
                  · rw [if_neg h7]; exact ihprim _
    · -- matchArmsLoop
      intro st arms
      rw [matchArmsLoop]
      simp only []
      by_cases h1 : peek st = Knox.TokenKind.rbrace
      · rw [if_pos h1]; rfl
      · rw [if_neg h1]
        refine pbind_np (parse_match_pattern_np _ _) fun pat st1 =>
          pbind_np (expect_np _ _) fun _ st2 =>
          pbind_np (ihbp _ _) fun body st3 => ?_
        by_cases h2 : peek st3 = Knox.TokenKind.comma
        · rw [if_pos h2]; exact iharms _ _
        · rw [if_neg h2]; exact iharms _ _
    · -- parse_primary
      intro st
      rw [parse_primary]
      simp only []
      rcases hp : pnext st with _ | ⟨⟨k, sp⟩, st1⟩ <;> simp only [hp]
      · rfl
      · cases k <;> try rfl
        · -- identK
          rename_i c
          refine pbind_np (primaryPathLoop_np _ _ _) fun name st2 => ?_
          by_cases h : peek st2 = Knox.TokenKind.lparen
          · rw [if_pos h]
            exact pbind_np (ihargs _ _) fun args st4 =>
              pbind_np (expect_np _ _) fun _ _ => rfl
          · rw [if_neg h]; rfl
        · -- okK
          exact ihctor _ _ _
        · -- errK
          exact ihctor _ _ _
        · -- lparen
          by_cases h : peek st1 = Knox.TokenKind.rparen
          · rw [if_pos h]; rfl
          · rw [if_neg h]
            exact pbind_np (ihbp _ _) fun _ st2 =>
              pbind_np (expect_np _ _) fun _ _ => rfl
    · -- primaryCtorTail
      intro c s st
      rw [primaryCtorTail]
      exact pbind_np (expect_np _ _) fun _ st1 =>
        pbind_np (ihbp _ _) fun _ st2 =>
        pbind_np (expect_np _ _) fun _ _ => rfl
    · -- argsLoop
      intro st args
      rw [argsLoop]
      simp only []
      by_cases h1 : peek st = Knox.TokenKind.rparen
      · rw [if_pos h1]; rfl
      · rw [if_neg h1]
        refine pbind_np (ihbp _ _) fun e st1 => ?_
        by_cases h2 : peek st1 = Knox.TokenKind.rparen
        · rw [if_pos h2]; exact ihargs _ _
        · rw [if_neg h2]
          exact pbind_np (expect_np _ _) fun _ _ => ihargs _ _

end Knox.Parser

namespace Knox.Parser

theorem parse_fn_np (fuel : Nat) (st : PState) : isPanic (parse_fn fuel st) = false := by
  unfold parse_fn
  simp only []
  refine pbind_np (expect_np _ _) fun _ st1 => ?_
  rcases hp : pnext st1 with _ | ⟨⟨k, sp⟩, st2⟩ <;> simp only [hp]
  · rfl
  · cases k <;> try rfl
    rename_i name
    exact pbind_np (expect_np _ _) fun _ st3 =>
      pbind_np (fnParamsLoop_np _ _ _) fun _ st4 =>
      pbind_np (expect_np _ _) fun _ st5 =>
      pbind_np (expect_np _ _) fun _ st6 =>
      pbind_np (parse_type_np _ _) fun _ st7 =>
      pbind_np (expect_np _ _) fun _ st8 =>
      pbind_np ((parser_mutual_np fuel).1 _) fun _ st9 =>
      pbind_np (expect_np _ _) fun _ _ => rfl

theorem rootLoop_np : ∀ (fuel : Nat) (st : PState) (items : List Knox.Ast2.Item),
    isPanic (rootLoop fuel st items) = false := by
  intro fuel
  induction fuel with
  | zero => intro st items; rfl
  | succ fuel ih =>
    intro st items
    rw [rootLoop]
    by_cases h1 : peek st = Knox.TokenKind.eof
    · rw [if_pos h1]; rfl
    · rw [if_neg h1]
      by_cases h2 : peek st = Knox.TokenKind.importK
      · rw [if_pos h2]; exact pbind_np (parse_import_np _ _) fun _ _ => ih _ _
      · rw [if_neg h2]
        by_cases h3 : peek st = Knox.TokenKind.structK
        · rw [if_pos h3]; exact pbind_np (parse_struct_np _ _) fun _ _ => ih _ _
        · rw [if_neg h3]
          split
          · exact pbind_np (parse_fn_np _ _) fun _ _ => ih _ _
          · rcases hp : pnext st with _ | ⟨t, st1⟩ <;> simp only [hp]
            · exact absurd (peek_eof_of_pnext_none hp) h1
            · rfl

theorem parse_root_np (fuel : Nat) (st : PState) :
    isPanic (parse_root fuel st) = false := by
  unfold parse_root
  exact pbind_np (rootLoop_np _ _ _) fun _ _ => rfl

/-- Token stream of the source `fn main() -> () { let x = 1 let y = 2 }`:
two statements, each missing its terminating semicolon — two syntax errors
under the spec's counting. -/
def c3Tokens : List Knox.Token :=
  [⟨Knox.TokenKind.fnK, ⟨0, 2⟩⟩, ⟨Knox.TokenKind.identK "main", ⟨3, 7⟩⟩,
   ⟨Knox.TokenKind.lparen, ⟨7, 8⟩⟩, ⟨Knox.TokenKind.rparen, ⟨8, 9⟩⟩,
   ⟨Knox.TokenKind.arrow, ⟨10, 12⟩⟩, ⟨Knox.TokenKind.lparen, ⟨13, 14⟩⟩,
   ⟨Knox.TokenKind.rparen, ⟨14, 15⟩⟩, ⟨Knox.TokenKind.lbrace, ⟨16, 17⟩⟩,
   ⟨Knox.TokenKind.letK, ⟨18, 21⟩⟩, ⟨Knox.TokenKind.identK "x", ⟨22, 23⟩⟩,
   ⟨Knox.TokenKind.assign, ⟨24, 25⟩⟩, ⟨Knox.TokenKind.intLitK 1, ⟨26, 27⟩⟩,
   ⟨Knox.TokenKind.letK, ⟨28, 31⟩⟩, ⟨Knox.TokenKind.identK "y", ⟨32, 33⟩⟩,
   ⟨Knox.TokenKind.assign, ⟨34, 35⟩⟩, ⟨Knox.TokenKind.intLitK 2, ⟨36, 37⟩⟩,
   ⟨Knox.TokenKind.rbrace, ⟨38, 39⟩⟩, ⟨Knox.TokenKind.eof, ⟨39, 39⟩⟩]

/-- The token tail of the first unterminated statement `let x = 1`
followed by the next statement. -/
def c3Stmt1Tokens : List Knox.Token := c3Tokens.drop 8

/-- The token tail of the second unterminated statement `let y = 2 }`. -/
def c3Stmt2Tokens : List Knox.Token := c3Tokens.drop 12

/-- The error message `parse_stmt` reports on a token stream, when it
reports one. -/
def stmtErr (tokens : List Knox.Token) : Option String :=
  match parse_stmt 40 ⟨tokens, ⟨0, 0⟩⟩ with
  | PRes.err e _ => some e
  | _ => none

/-- The error message of `parse_root` on `c3Tokens`, when there is one. -/
def c3FirstError : Option String :=
  match parse_root 40 ⟨c3Tokens, ⟨0, 0⟩⟩ with
  | PRes.err e _ => some e
  | _ => none

end Knox.Parser

/-- C3: the parser never panics on any input token stream (the root loop's
`unwrap` and both `unreachable!()` arms of `infix_binding_power`, and the
Ok/Err re-match of `parse_primary`, are all unreachable), but it has NO
error recovery: `parse_root` returns `Result<Root, String>` and aborts at
the first error, and `compile` wraps that single error string into exactly
one diagnostic — so a source with N syntax errors produces 1 diagnostic,
not N. On the stream of `fn main() -> () { let x = 1 let y = 2 }` (two
missing semicolons) the parser stops at the first missing semicolon. -/
theorem c3_parser_no_panic_but_stops_at_first_error :
    (∀ (fuel : Nat) (st : Knox.Parser.PState),
        Knox.Parser.isPanic (Knox.Parser.parse_root fuel st) = false) ∧
    (∀ (fuel : Nat) (tokens : List Knox.Token),
        (Knox.Parser.parse_root_diags fuel tokens).length ≤ 1) ∧
    (∀ (fuel : Nat) (tokens : List Knox.Token) (e : String) (st : Knox.Parser.PState),
        Knox.Parser.parse_root fuel ⟨tokens, ⟨0, 0⟩⟩ = Knox.Parser.PRes.err e st →
        Knox.Parser.parse_root_diags fuel tokens = [Knox.Diagnostic.mkError e none]) ∧
    Knox.Parser.c3FirstError = some Knox.Parser.semicolonErrMsg ∧
    Knox.Parser.parse_root_diags 40 Knox.Parser.c3Tokens =
      [Knox.Diagnostic.mkError Knox.Parser.semicolonErrMsg none] := by
  refine ⟨Knox.Parser.parse_root_np, ?_, ?_, by decide, by decide⟩
  · intro fuel tokens
    unfold Knox.Parser.parse_root_diags
    rcases Knox.Parser.parse_root fuel ⟨tokens, ⟨0, 0⟩⟩ <;> simp
  · intro fuel tokens e st h
    unfold Knox.Parser.parse_root_diags
    rw [h]

/-- Counterexample to C3 as claimed: the stream `c3Tokens` holds two
statements that each fail to parse with the missing-semicolon error (shown
by running `parse_stmt` at each statement's start), yet the whole-file
parse produces exactly 1 diagnostic, not 2 — there is no recovery at
statement boundaries. -/
theorem c3_two_errors_one_diagnostic :
    Knox.Parser.stmtErr Knox.Parser.c3Stmt1Tokens =
      some Knox.Parser.semicolonErrMsg ∧
    Knox.Parser.stmtErr Knox.Parser.c3Stmt2Tokens =
      some Knox.Parser.semicolonErrMsg ∧
    (Knox.Parser.parse_root_diags 40 Knox.Parser.c3Tokens).length = 1 ∧
    (1 : Nat) ≠ 2 :=
  ⟨by decide, by decide, by decide, by decide⟩
